import Mathlib

/-!
# USP (CCPA) consent management: a shallow embedding of `modules/consentManagementUsp.ts`

The module keeps five module-level variables, talks to a consent store
(`uspDataHandler`), to a CMP client and to the JavaScript timer queue.  The
embedding makes all of that explicit state (`World`) and turns every function of
the module into a function on `World`.  Calls that JavaScript can abort with a
`TypeError` return `Except JsError World`.
-/

namespace UspConsent

/-! ## JavaScript values -/

/-- The JavaScript values the module handles.  Numbers are modelled as integers. -/
inductive JsVal where
  | undefined : JsVal
  | null : JsVal
  | bool (b : Bool) : JsVal
  | num (n : Int) : JsVal
  | str (s : String) : JsVal
  | obj (fields : List (String × JsVal)) : JsVal
  | arr (items : List JsVal) : JsVal

namespace JsVal

instance : Inhabited JsVal := ⟨JsVal.undefined⟩

/-- JavaScript truthiness (`!!v`). -/
def truthy : JsVal → Bool
  | undefined => false
  | null => false
  | bool b => b
  | num n => n != 0
  | str s => s != ""
  | obj _ => true
  | arr _ => true

/-- The test `v == null`: true of `undefined` and `null` only. -/
def isNullish : JsVal → Bool
  | undefined => true
  | null => true
  | _ => false

/-- Own-property lookup in an object literal's field list. -/
def lookupField : List (String × JsVal) → String → JsVal
  | [], _ => undefined
  | (k, v) :: rest, key => if k = key then v else lookupField rest key

/-- Property read `v.key` for the keys the module reads (`usp`, `cmpApi`,
`timeout`, `consentData`, `getUSPData`, `uspString`, `usPrivacy`): an object
yields its own field, every other non-nullish value yields `undefined`.  Reading
a property of `undefined` or `null` is a `TypeError`; see `getOrThrow`. -/
def get : JsVal → String → JsVal
  | obj fields, key => lookupField fields key
  | _, _ => undefined

/-- Assignment `o.key = v` on an object. -/
def setField : List (String × JsVal) → String → JsVal → List (String × JsVal)
  | [], key, v => [(key, v)]
  | (k, x) :: rest, key, v => if k = key then (k, v) :: rest else (k, x) :: setField rest key v

/-- String conversion as performed by a template literal, for the values the
module interpolates (`consentAPI` is a string or `undefined`). -/
def toStr : JsVal → String
  | undefined => "undefined"
  | null => "null"
  | bool true => "true"
  | bool false => "false"
  | num n => toString n
  | str s => s
  | obj _ => "[object Object]"
  | arr _ => ""

end JsVal

/-- The one kind of exception the module can raise. -/
inductive JsError where
  | typeError (msg : String) : JsError

/-- Property read that raises on `undefined` and `null`, as JavaScript does. -/
def getOrThrow (v : JsVal) (key : String) : Except JsError JsVal :=
  if v.isNullish then .error (.typeError ("Cannot read properties of " ++ v.toStr))
  else .ok (v.get key)

/-- Modelled from the spec: `isStr` of `src/utils.js`, which lies outside the
translated module; the type test behind "`cmpApi` selects provider strategy". -/
def isStr : JsVal → Bool
  | .str _ => true
  | _ => false

/-- Modelled from the spec: `isNumber` of `src/utils.js`, which lies outside
the translated module; the type test behind "`timeout` bounds the wait". -/
def isNumber : JsVal → Bool
  | .num _ => true
  | _ => false

/-- Modelled from the spec: `isPlainObject` of `src/utils.js`, which lies
outside the translated module; true of plain objects, false of arrays and
primitives. -/
def isPlainObject : JsVal → Bool
  | .obj _ => true
  | _ => false

/-! ## The environment: consent store, CMP, timers, trace -/

/-- Modelled from the spec: the process-wide ConsentStore (`uspDataHandler` of
`src/adapterManager.js`, which lies outside the translated module): a single
mutable cell holding the last resolved value, or `undefined` while
uninitialised, with `set`, `get`, `reset` and `enable`. -/
structure ConsentStore where
  value : JsVal
  enabled : Bool

namespace ConsentStore

def setConsentData (s : ConsentStore) (v : JsVal) : ConsentStore := { s with value := v }

def getConsentData (s : ConsentStore) : JsVal := s.value

def reset (_s : ConsentStore) : ConsentStore := { value := .undefined, enabled := false }

def enable (s : ConsentStore) : ConsentStore := { s with enabled := true }

end ConsentStore

/-- The page's CMP as seen through `cmpClient` (of `libraries/cmp/cmpClient.js`,
which lies outside the translated module).  `syncResponses` are the
`(consentResponse, success)` pairs the CMP hands to the `getUSPData` callback
before the command call returns; later responses are `Signal`s. -/
structure Cmp where
  isDirect : Bool
  syncResponses : List (JsVal × JsVal)

/-- The callback `cb` handed to `loadConsentData`. -/
inductive Callback where
  /-- an observer: its invocations are recorded in the trace and nothing else happens -/
  | probe : Callback
  /-- the closure built by `requestBidsHook` around `reqBidsConfigObj` -/
  | hook (reqBidsConfigObj : JsVal) : Callback

/-- Severity of a recorded log line (`logInfo` lines are not recorded). -/
inductive LogLevel where
  | warn : LogLevel
  | error : LogLevel

/-- Observable steps, appended to `World.trace` in the order they happen. -/
inductive Event where
  | strategyCall (sid : Nat) (key : String) : Event
  | cmpCommand (sid : Nat) (command : String) : Event
  | setTimeout (tid sid : Nat) (delay : JsVal) : Event
  | clearTimeout (tid : Nat) : Event
  | doneCall (sid : Nat) (consentData errMsg : JsVal) (extraArgs : List JsVal) : Event
  | cbCall (sid : Nat) (errMsg : JsVal) (extraArgs : List JsVal) : Event
  | next (reqBidsConfigObj : JsVal) : Event
  | log (level : LogLevel) (msg : String) : Event

/-- The closure variables of one `loadConsentData` call (`cb`, `timer`,
`isDone`) and of the `lookupUspConsent` call it makes (`uspResponse`). -/
structure Session where
  cb : Option Callback
  timer : Option Nat
  isDone : Bool
  uspResponse : JsVal

instance : Inhabited Session := ⟨{ cb := none, timer := none, isDone := false, uspResponse := .obj [] }⟩

/-- A pending `setTimeout` of session `sid`: it will run
`callbacks.onError('USPAPI workflow exceeded timeout threshold.')`. -/
structure Timer where
  id : Nat
  sid : Nat
  delay : JsVal

/-- Module variables plus environment. -/
structure World where
  consentAPI : JsVal
  consentTimeout : JsVal
  staticConsentData : JsVal
  consentData : JsVal
  enabled : Bool
  uspDataHandler : ConsentStore
  cmp : Option Cmp
  sessions : List Session
  timers : List Timer
  nextTimer : Nat
  trace : List Event

namespace World

/-- The module right after it has been loaded, on a page with CMP `cmp`. -/
def init (cmp : Option Cmp) : World :=
  { consentAPI := .str "iab"
    consentTimeout := .num 50
    staticConsentData := .undefined
    consentData := .undefined
    enabled := false
    uspDataHandler := { value := .undefined, enabled := false }
    cmp := cmp
    sessions := []
    timers := []
    nextTimer := 0
    trace := [] }

def emit (w : World) (e : Event) : World := { w with trace := w.trace ++ [e] }

/-- The closure variables of session `sid`. -/
def sessionAt : List Session → Nat → Session
  | [], _ => default
  | s :: _, 0 => s
  | _ :: rest, n + 1 => sessionAt rest n

/-- Assignment to the closure variables of session `sid`. -/
def setSessionAt : List Session → Nat → Session → List Session
  | [], _, _ => []
  | _ :: rest, 0, s => s :: rest
  | a :: rest, n + 1, s => a :: setSessionAt rest n s

def session (w : World) (sid : Nat) : Session := sessionAt w.sessions sid

def setSession (w : World) (sid : Nat) (s : Session) : World :=
  { w with sessions := setSessionAt w.sessions sid s }

/-- Timer ids handed out so far are below `nextTimer`. -/
def WF (w : World) : Prop := ∀ t ∈ w.timers, t.id < w.nextTimer

end World

/-- The pair `{onSuccess, onError}` handed to a lookup strategy. -/
structure Callbacks where
  onSuccess : JsVal → World → World
  onError : String → List JsVal → World → World

/-! ## The module's functions -/

/-- The lookup strategies reachable through `uspCallMap[consentAPI]`.  The map
is an object literal, so besides its two own keys the read also finds the
members it inherits from `Object.prototype`. -/
inductive Strategy where
  | lookupUspConsent : Strategy
  | lookupStaticConsentData : Strategy
  /-- a member of `Object.prototype`; `throws` tells whether calling it with the
  single argument `callbacks` raises a `TypeError` -/
  | inherited (throws : Bool) : Strategy

/-- The members of ECMAScript's `Object.prototype`, each with whether the call
`member(callbacks)` raises: `__proto__` is not callable, `__defineGetter__` and
`__defineSetter__` reject a missing accessor function, the others return a value
without touching `callbacks`. -/
def objectPrototype : List (String × Bool) :=
  [("constructor", false), ("__defineGetter__", true), ("__defineSetter__", true),
   ("hasOwnProperty", false), ("__lookupGetter__", false), ("__lookupSetter__", false),
   ("isPrototypeOf", false), ("propertyIsEnumerable", false), ("toString", false),
   ("valueOf", false), ("__proto__", true), ("toLocaleString", false)]

/-- The own keys of `uspCallMap`. -/
def uspCallMapKeys : List String := ["iab", "static"]

/-- The read `uspCallMap[key]`; `none` stands for `undefined`. -/
def uspCallMap (key : String) : Option Strategy :=
  if key = "iab" then some .lookupUspConsent
  else if key = "static" then some .lookupStaticConsentData
  else (objectPrototype.lookup key).map Strategy.inherited

def setTimeout (sid : Nat) (delay : JsVal) (w : World) : World :=
  let tid := w.nextTimer
  let w := w.emit (.setTimeout tid sid delay)
  let w : World := { w with timers := w.timers ++ [{ id := tid, sid := sid, delay := delay }],
                            nextTimer := tid + 1 }
  w.setSession sid { w.session sid with timer := some tid }

def clearTimeout (tid : Nat) (w : World) : World :=
  let w := w.emit (.clearTimeout tid)
  { w with timers := w.timers.filter (fun t => t.id != tid) }

/-- The call `cb(errMsg, ...extraArgs)`. -/
def invokeCb (sid : Nat) (cb : Callback) (errMsg : JsVal) (extraArgs : List JsVal)
    (w : World) : World :=
  let w := w.emit (.cbCall sid errMsg extraArgs)
  match cb with
  | .probe => w
  | .hook reqBidsConfigObj =>
    let w := if !errMsg.isNullish then w.emit (.log .warn errMsg.toStr) else w
    w.emit (.next reqBidsConfigObj)

/-- `done` of `loadConsentData`, for the session `sid`. -/
def done (sid : Nat) (consentData errMsg : JsVal) (extraArgs : List JsVal) (w : World) : World :=
  let w := w.emit (.doneCall sid consentData errMsg extraArgs)
  let w := match (w.session sid).timer with
    | some tid => clearTimeout tid w
    | none => w
  let w := w.setSession sid { w.session sid with isDone := true }
  let w : World := { w with uspDataHandler := w.uspDataHandler.setConsentData consentData }
  match (w.session sid).cb with
  | some cb => invokeCb sid cb errMsg extraArgs w
  | none => w

/-- The object `callbacks` of `loadConsentData`, for the session `sid`. -/
def callbacks (sid : Nat) : Callbacks where
  onSuccess := fun consentData w => done sid consentData .undefined [] w
  onError := fun errMsg extraArgs w =>
    done sid .null
      (.str (errMsg ++ " Resuming auction without consent data as per consentManagement config."))
      extraArgs w

def storeUspConsentData (consentObject : JsVal) (w : World) : World :=
  if consentObject.truthy && (consentObject.get "usPrivacy").truthy then
    { w with consentData := consentObject.get "usPrivacy" }
  else w

/-- The local `valid` of `processUspData`:
`!!(consentObject && consentObject.usPrivacy)`. -/
def validConsent (consentObject : JsVal) : Bool :=
  consentObject.truthy && (consentObject.get "usPrivacy").truthy

def processUspData (consentObject : JsVal) (cbs : Callbacks) (w : World) : World :=
  let valid := validConsent consentObject
  if !valid then
    cbs.onError "USPAPI returned unexpected value during lookup process." [consentObject] w
  else
    let w := storeUspConsentData consentObject w
    cbs.onSuccess w.consentData w

def lookupStaticConsentData (cbs : Callbacks) (w : World) : World :=
  processUspData w.staticConsentData cbs w

/-- `afterEach` inside `handleUspApiResponseCallbacks`. -/
def afterEach (sid : Nat) (cbs : Callbacks) (w : World) : World :=
  let uspResponse := (w.session sid).uspResponse
  if (uspResponse.get "usPrivacy").truthy then processUspData uspResponse cbs w
  else cbs.onError "Unable to get USP consent string." [] w

/-- `consentDataCallback` inside `handleUspApiResponseCallbacks`. -/
def consentDataCallback (sid : Nat) (cbs : Callbacks) (consentResponse success : JsVal)
    (w : World) : Except JsError World :=
  if success.truthy then
    match getOrThrow consentResponse "uspString" with
    | .error e => .error e
    | .ok uspString =>
      if uspString.truthy then
        let s := w.session sid
        let uspResponse := match s.uspResponse with
          | .obj fields => JsVal.obj (JsVal.setField fields "usPrivacy" uspString)
          | other => other
        .ok (afterEach sid cbs (w.setSession sid { s with uspResponse := uspResponse }))
      else .ok (afterEach sid cbs w)
  else .ok (afterEach sid cbs w)

/-- The CMP hands its synchronous responses to the callback, one after the other. -/
def deliverSync (sid : Nat) (cbs : Callbacks) :
    List (JsVal × JsVal) → World → Except JsError World
  | [], w => .ok w
  | (consentResponse, success) :: rest, w =>
    match consentDataCallback sid cbs consentResponse success w with
    | .error e => .error e
    | .ok w => deliverSync sid cbs rest w

def lookupUspConsent (sid : Nat) (cbs : Callbacks) (w : World) : Except JsError World :=
  let w := w.setSession sid { w.session sid with uspResponse := .obj [] }
  match w.cmp with
  | none => .ok (cbs.onError "USP CMP not found." [] w)
  | some cmp =>
    let w := w.emit (.cmpCommand sid "getUSPData")
    match deliverSync sid cbs cmp.syncResponses w with
    | .error e => .error e
    | .ok w => .ok (w.emit (.cmpCommand sid "registerDeletion"))

/-- The call `uspCallMap[consentAPI](callbacks)`. -/
def callStrategy (key : String) (strategy : Strategy) (sid : Nat) (w : World) :
    Except JsError World :=
  let w := w.emit (.strategyCall sid key)
  match strategy with
  | .lookupUspConsent => lookupUspConsent sid (callbacks sid) w
  | .lookupStaticConsentData => .ok (lookupStaticConsentData (callbacks sid) w)
  | .inherited true => .error (.typeError ("uspCallMap." ++ key ++ "(callbacks) failed"))
  | .inherited false => .ok w

/-- The test `consentTimeout === 0`. -/
def isZero : JsVal → Bool
  | .num 0 => true
  | _ => false

/-- The part of `loadConsentData` after the strategy has returned. -/
def afterStrategy (sid : Nat) (w : World) : World :=
  if !(w.session sid).isDone then
    if isZero w.consentTimeout then processUspData .undefined (callbacks sid) w
    else setTimeout sid w.consentTimeout w
  else w

def loadConsentData (cb : Option Callback) (w : World) : Except JsError World :=
  let sid := w.sessions.length
  let w : World := { w with sessions := w.sessions ++
    [{ cb := cb, timer := none, isDone := false, uspResponse := .obj [] }] }
  match uspCallMap w.consentAPI.toStr with
  | none =>
    .ok (done sid .null (.str ("USP framework (" ++ w.consentAPI.toStr ++
      ") is not a supported framework. Aborting consentManagement module and resuming auction."))
      [] w)
  | some strategy =>
    match callStrategy w.consentAPI.toStr strategy sid w with
    | .error e => .error e
    | .ok w => .ok (afterStrategy sid w)

/-- The parameter `configFromUser` only changes the text of a `logInfo` line and
is left out. -/
def enableConsentManagement (w : World) : Except JsError World :=
  let w : World := if !w.enabled then
      { w with enabled := true, uspDataHandler := w.uspDataHandler.enable }
    else w
  loadConsentData none w

def requestBidsHook (reqBidsConfigObj : JsVal) (w : World) : Except JsError World :=
  match (if !w.enabled then enableConsentManagement w else .ok w) with
  | .error e => .error e
  | .ok w => loadConsentData (some (.hook reqBidsConfigObj)) w

def resetConsentData (w : World) : World :=
  { w with consentData := .undefined, consentAPI := .undefined, consentTimeout := .undefined,
           uspDataHandler := w.uspDataHandler.reset, enabled := false }

/-- The test `typeof v !== 'object'`. -/
def typeofNotObject : JsVal → Bool
  | .null => false
  | .obj _ => false
  | .arr _ => false
  | _ => true

/-- The test `consentAPI === 'static'`. -/
def isStatic : JsVal → Bool
  | .str s => s == "static"
  | _ => false

/-- The assignments of `setConsentConfig`, up to its last statement. -/
def applyConsentConfig (config : JsVal) (w : World) : Except JsError World :=
  let config := if config.truthy then config.get "usp" else config
  let w := if !config.truthy || typeofNotObject config then
      w.emit (.log .warn "consentManagement.usp config not defined, using defaults")
    else w
  let w : World := if config.truthy && isStr (config.get "cmpApi") then
      { w with consentAPI := config.get "cmpApi" }
    else { w with consentAPI := .str "iab" }
  let w : World := if config.truthy && isNumber (config.get "timeout") then
      { w with consentTimeout := config.get "timeout" }
    else { w with consentTimeout := .num 50 }
  if isStatic w.consentAPI then
    match getOrThrow config "consentData" with
    | .error e => .error e
    | .ok consentData =>
      if isPlainObject consentData && isPlainObject (consentData.get "getUSPData") then
        let uspString := (consentData.get "getUSPData").get "uspString"
        let w : World := if uspString.truthy then
            { w with staticConsentData := .obj [("usPrivacy", uspString)] }
          else w
        .ok { w with consentTimeout := .num 0 }
      else
        .ok (w.emit (.log .error
          "consentManagement config with cmpApi: 'static' did not specify consentData. No consents will be available to adapters."))
  else .ok w

def setConsentConfig (config : JsVal) (w : World) : Except JsError World :=
  match applyConsentConfig config w with
  | .error e => .error e
  | .ok w => enableConsentManagement w

/-! ## Signals that reach a session after `loadConsentData` has returned -/

/-- The timer `tid` expires: if it is still pending, its callback
`callbacks.onError.bind(null, 'USPAPI workflow exceeded timeout threshold.')` runs. -/
def fireTimer (tid : Nat) (w : World) : World :=
  match w.timers.find? (fun t => t.id == tid) with
  | none => w
  | some t =>
    (callbacks t.sid).onError "USPAPI workflow exceeded timeout threshold." []
      { w with timers := w.timers.filter (fun t => t.id != tid) }

/-- A completion signal of one lookup session. -/
inductive Signal where
  /-- the timer the session created, if any, expires -/
  | timerExpiry : Signal
  /-- the CMP invokes `consentDataCallback(consentResponse, success)` -/
  | cmpResponse (consentResponse success : JsVal) : Signal

/-- Delivery of one signal to session `sid`.  An exception raised inside the
CMP's callback goes to the CMP and leaves the module's state as it was. -/
def deliver (sid : Nat) : Signal → World → World
  | .timerExpiry, w =>
    match (w.session sid).timer with
    | some tid => fireTimer tid w
    | none => w
  | .cmpResponse consentResponse success, w =>
    match consentDataCallback sid (callbacks sid) consentResponse success w with
    | .ok w1 => w1
    | .error _ => w

/-- Delivery of a sequence of signals, in order. -/
def deliverAll (sid : Nat) : List Signal → World → World
  | [], w => w
  | sig :: rest, w => deliverAll sid rest (deliver sid sig w)

/-- The error messages and extra arguments of the `cb` calls of session `sid`. -/
def cbCalls (sid : Nat) : List Event → List (JsVal × List JsVal)
  | [] => []
  | .cbCall s errMsg extraArgs :: rest =>
    if s = sid then (errMsg, extraArgs) :: cbCalls sid rest else cbCalls sid rest
  | _ :: rest => cbCalls sid rest

/-- The timers session `sid` has started. -/
def timersStarted (sid : Nat) : List Event → List (Nat × JsVal)
  | [] => []
  | .setTimeout tid s delay :: rest =>
    if s = sid then (tid, delay) :: timersStarted sid rest else timersStarted sid rest
  | _ :: rest => timersStarted sid rest

/-- The keys under which session `sid` has called a strategy. -/
def strategyCalls (sid : Nat) : List Event → List String
  | [] => []
  | .strategyCall s key :: rest =>
    if s = sid then key :: strategyCalls sid rest else strategyCalls sid rest
  | _ :: rest => strategyCalls sid rest

/-- The arguments of the `done` calls of session `sid`. -/
def doneCalls (sid : Nat) : List Event → List (JsVal × JsVal × List JsVal)
  | [] => []
  | .doneCall s consentData errMsg extraArgs :: rest =>
    if s = sid then (consentData, errMsg, extraArgs) :: doneCalls sid rest
    else doneCalls sid rest
  | _ :: rest => doneCalls sid rest

/-- The events `w1` has recorded since `w`. -/
def eventsSince (w w1 : World) : List Event := w1.trace.drop w.trace.length

/-- The number of `cb` invocations one signal causes; `pending` tells whether
the session's timer is still in the timer queue.  A CMP response with a truthy
`success` and a `null` or `undefined` payload raises before `done` is reached. -/
def callsOf (pending : Bool) : Signal → Nat
  | .timerExpiry => if pending then 1 else 0
  | .cmpResponse consentResponse success =>
    if success.truthy && consentResponse.isNullish then 0 else 1

/-- Whether the session's timer is still in the timer queue after a signal. -/
def pendingAfter (pending : Bool) : Signal → Bool
  | .timerExpiry => false
  | .cmpResponse consentResponse success =>
    if success.truthy && consentResponse.isNullish then pending else false

/-- The number of `cb` invocations a sequence of signals causes: one for a
timer expiry that finds the timer pending, one for every CMP response that
does not raise. -/
def expectedCalls : Bool → List Signal → Nat
  | _, [] => 0
  | pending, sig :: rest => callsOf pending sig + expectedCalls (pendingAfter pending sig) rest

/-- The commands session `sid` has sent to the CMP. -/
def cmpCommands (sid : Nat) : List Event → List String
  | [] => []
  | .cmpCommand s command :: rest =>
    if s = sid then command :: cmpCommands sid rest else cmpCommands sid rest
  | _ :: rest => cmpCommands sid rest

/-- The arguments of the calls of the next function `fn`. -/
def nextCalls : List Event → List JsVal
  | [] => []
  | .next reqBidsConfigObj :: rest => reqBidsConfigObj :: nextCalls rest
  | _ :: rest => nextCalls rest

/-- The arguments with which `consentDataCallback(consentResponse, success)`
reaches `done`, given the `usPrivacy` that `uspResponse` holds from earlier
responses of the same lookup (`undefined` when there was none). -/
def declaredOutcome (stored consentResponse success : JsVal) : JsVal × JsVal × List JsVal :=
  if success.truthy && (consentResponse.get "uspString").truthy then
    (consentResponse.get "uspString", .undefined, [])
  else if stored.truthy then (stored, .undefined, [])
  else (.null, .str ("Unable to get USP consent string." ++
    " Resuming auction without consent data as per consentManagement config."), [])

/-- The configuration a lookup reads: `consentAPI`, `consentTimeout`,
`staticConsentData` and the page's CMP. -/
def World.config (w : World) : JsVal × JsVal × JsVal × Option Cmp :=
  (w.consentAPI, w.consentTimeout, w.staticConsentData, w.cmp)

/-- The claim's words for `consentAPI` after `setConsentConfig(c)`:
`c.usp.cmpApi` when that is a string and `'iab'` otherwise. -/
def specConsentAPI (c : JsVal) : JsVal :=
  if isStr ((c.get "usp").get "cmpApi") then (c.get "usp").get "cmpApi" else .str "iab"

/-- The claim's words for `consentTimeout` after `setConsentConfig(c)`:
`c.usp.timeout` when that is a number and 50 otherwise, except that a static
configuration whose `consentData` and `consentData.getUSPData` are plain
objects sets it to 0. -/
def specConsentTimeout (c : JsVal) : JsVal :=
  if isStatic ((c.get "usp").get "cmpApi") &&
      (isPlainObject ((c.get "usp").get "consentData") &&
        isPlainObject (((c.get "usp").get "consentData").get "getUSPData")) then .num 0
  else if isNumber ((c.get "usp").get "timeout") then (c.get "usp").get "timeout"
  else .num 50

/-! ## Vocabulary of the proofs -/

/-- The events of one `done` call: the call itself, the `clearTimeout` when the
session holds a timer handle, and the `cb` call when there is a `cb`. -/
def doneEvents (sid : Nat) (s : Session) (consentData errMsg : JsVal) (extraArgs : List JsVal) :
    List Event :=
  [.doneCall sid consentData errMsg extraArgs] ++
  (match s.timer with
    | some tid => [.clearTimeout tid]
    | none => []) ++
  (match s.cb with
    | none => []
    | some .probe => [.cbCall sid errMsg extraArgs]
    | some (.hook reqBidsConfigObj) =>
      [.cbCall sid errMsg extraArgs] ++
      (if !errMsg.isNullish then [.log .warn errMsg.toStr] else []) ++
      [.next reqBidsConfigObj])

/-- The world `w1` differs from `w` at most in `consentData` and in the
`uspResponse` of session `sid`. -/
structure Frame (sid : Nat) (w w1 : World) : Prop where
  trace : w1.trace = w.trace
  timers : w1.timers = w.timers
  nextTimer : w1.nextTimer = w.nextTimer
  length : w1.sessions.length = w.sessions.length
  cb : (w1.session sid).cb = (w.session sid).cb
  timer : (w1.session sid).timer = (w.session sid).timer
  isDone : (w1.session sid).isDone = (w.session sid).isDone
  resp : (∃ f, (w.session sid).uspResponse = .obj f) → ∃ f, (w1.session sid).uspResponse = .obj f

/-- Session `sid` has called the CMP and started timer `tid`; `pending` tells
whether the timer is still in the timer queue.  The session is done exactly
when the timer is no longer pending. -/
structure Awaiting (sid tid : Nat) (cb : Option Callback) (pending : Bool) (w : World) : Prop where
  lt : sid < w.sessions.length
  cb : (w.session sid).cb = cb
  timer : (w.session sid).timer = some tid
  isDone : (w.session sid).isDone = !pending
  queued : pending = true → ∃ t, w.timers.find? (fun t => t.id == tid) = some t ∧ t.sid = sid
  cleared : pending = false → w.timers.find? (fun t => t.id == tid) = none
  resp : ∃ f, (w.session sid).uspResponse = .obj f

/-- The calls of `fn` that `n` completions of a lookup with callback `cb` make:
the closure of `requestBidsHook` calls `fn` once per completion, with its
`reqBidsConfigObj`; other callbacks never call it. -/
def expectedNext : Option Callback → Nat → List JsVal
  | some (.hook reqBidsConfigObj), n => List.replicate n reqBidsConfigObj
  | _, _ => []

/-- In the events `evs` the function `fn` is called exactly on behalf of the
`done` calls of session `sid`, and no other session completes. -/
def Lockstep (sid : Nat) (cb : Option Callback) (evs : List Event) : Prop :=
  nextCalls evs = expectedNext cb (doneCalls sid evs).length ∧
  ∀ s, s ≠ sid → doneCalls s evs = []

/-- The world `w` is inside the `loadConsentData` call that created session
`sid` in `w0`, before any timer has been set. -/
structure Sync (sid : Nat) (cb : Option Callback) (w0 w : World) : Prop where
  lt : sid < w.sessions.length
  len : w.sessions.length = w0.sessions.length
  callback : (w.session sid).cb = cb
  timer : (w.session sid).timer = none
  timers : w.timers = w0.timers
  nextTimer : w.nextTimer = w0.nextTimer
  trace : ∃ evs, w.trace = w0.trace ++ evs ∧ Lockstep sid cb evs ∧
    ((w.session sid).isDone = true ↔ doneCalls sid evs ≠ [])

/-- Session `sid` after its `loadConsentData` call has returned, and after any
signals: the timer it holds a handle of, if still queued, is its own, and `fn`
has been called in step with `done` since the trace was `base`. -/
structure Live (sid : Nat) (cb : Option Callback) (base : List Event) (w : World) : Prop where
  lt : sid < w.sessions.length
  callback : (w.session sid).cb = cb
  owns : ∀ tid t, (w.session sid).timer = some tid → t ∈ w.timers → t.id = tid → t.sid = sid
  trace : ∃ evs, w.trace = base ++ evs ∧ Lockstep sid cb evs ∧
    ((w.session sid).isDone = true ↔ doneCalls sid evs ≠ [])

/-- Session `sid` is done, or its timer is still in the timer queue. -/
def Pending (sid : Nat) (w : World) : Prop :=
  (w.session sid).isDone = true ∨
  ∃ tid t, (w.session sid).timer = some tid ∧ w.timers.find? (fun t => t.id == tid) = some t

/-- The text `callbacks.onError` appends to every message it passes on. -/
def resumeSuffix : String :=
  " Resuming auction without consent data as per consentManagement config."

/-- The message of `loadConsentData` for a provider name that `uspCallMap` does
not know; it goes to `done` directly and carries no suffix. -/
def unsupportedMsg (api : String) : String :=
  "USP framework (" ++ api ++
    ") is not a supported framework. Aborting consentManagement module and resuming auction."

/-- The message of `lookupUspConsent` when no CMP is found. -/
def cmpNotFoundMsg : String := "USP CMP not found." ++ resumeSuffix

/-- The message of `afterEach` when `uspResponse` holds no `usPrivacy`. -/
def noConsentStringMsg : String := "Unable to get USP consent string." ++ resumeSuffix

/-- The message of `processUspData` for a consent object without `usPrivacy`. -/
def unexpectedValueMsg : String :=
  "USPAPI returned unexpected value during lookup process." ++ resumeSuffix

/-- The message of the timer that `loadConsentData` starts. -/
def timeoutMsg : String := "USPAPI workflow exceeded timeout threshold." ++ resumeSuffix

/-- The timeout `setConsentConfig` leaves behind for a static configuration
`usp`: forced to 0 only when `consentData` and `consentData.getUSPData` are
plain objects, otherwise the configured number, or 50 without one. -/
def staticTimeout (usp : JsVal) : JsVal :=
  if isPlainObject (usp.get "consentData") &&
      isPlainObject ((usp.get "consentData").get "getUSPData") then .num 0
  else if isNumber (usp.get "timeout") then usp.get "timeout"
  else .num 50

end UspConsent

/-! # The humansecurityMalvDefense RTD submodule

`src/modules/humansecurityMalvDefenseRtdProvider.js`. -/

namespace HumanSecurity

open UspConsent (JsVal)

/-- The exceptions `readConfig` can raise: a `ConfigError` with its message, or
the `TypeError` of reading `params` on `null` or `undefined`. -/
inductive Err where
  | configError (msg : String) : Err
  | typeError (msg : String) : Err

/-- The closures assigned to `onModuleInit`. -/
inductive InitStep where
  /-- the initial `() => {}` -/
  | noop : InitStep
  /-- the closure calling `pageInitStepProtectPage(scriptURL, moduleName)` -/
  | protectPage (scriptURL : String) : InitStep
  /-- the closure calling `pageInitStepPreloadScript(scriptURL)` -/
  | preloadScript (scriptURL : String) : InitStep
  deriving DecidableEq

/-- The closures assigned to `onBidResponse`. -/
inductive BidStep where
  /-- the initial `() => {}` -/
  | noop : BidStep
  /-- the closure calling `bidWrapStepAugmentHtml(bidResponse)` -/
  | augmentHtml : BidStep
  /-- the closure calling
  `bidWrapStepProtectByWrapping(scriptURL, requiredPreload, bidResponse)` -/
  | protectByWrapping (scriptURL : String) (requiredPreload : Int) : BidStep
  deriving DecidableEq

/-- The variables under "MODULE STATE" in `createRtdSubmodule`;
`startBillableEvents` is `true` while it still holds the subscribing function
and `false` once it has been replaced by `() => {}`. -/
structure ModuleState where
  onModuleInit : InitStep
  onBidResponse : BidStep
  preloadStatus : Int
  startBillableEvents : Bool
  deriving DecidableEq

/-- The module state right after `createRtdSubmodule` has run. -/
def ModuleState.initial : ModuleState :=
  { onModuleInit := .noop, onBidResponse := .noop, preloadStatus := 0,
    startBillableEvents := true }

/-- Consumes the literal `lit` at the front of `s`; `none` when `s` does not
start with it. -/
def stripLit : List Char → List Char → Option (List Char)
  | [], s => some s
  | _ :: _, [] => none
  | c :: lit, d :: s => if d = c then stripLit lit s else none

/-- The test `/^https?:\/\//.test(s)`: the literal `http`, then an optional
`s` (tried first, as the greedy quantifier does), then the literal `://`, all
anchored at the start of the input. -/
def testHttpRegex (s : String) : Bool :=
  match stripLit "http".data s.data with
  | none => false
  | some rest =>
    (match stripLit "s".data rest with
      | some rest2 => (stripLit "://".data rest2).isSome
      | none => false) ||
    (stripLit "://".data rest).isSome

/-- The function `readConfig(config)` of the submodule named `moduleName`.  It
returns the module state it leaves behind together with its completion: normal,
or the exception raised. -/
def readConfig (moduleName : String) (config : JsVal) (st : ModuleState) :
    ModuleState × Except Err Unit :=
  if config.isNullish then
    (st, .error (.typeError ("Cannot read properties of " ++ config.toStr)))
  else if !(config.get "params").truthy then
    (st, .error (.configError
      ("Missing config parameters for " ++ moduleName ++ " RTD module provider.")))
  else
    match (config.get "params").get "cdnUrl" with
    | .str cdnUrl =>
      if !testHttpRegex cdnUrl then
        (st, .error (.configError
          "Parameter \"cdnUrl\" is a required string parameter, which should start with \"http(s)://\"."))
      else
        match (config.get "params").get "protectionMode" with
        | .str protectionMode =>
          let scriptURL := cdnUrl
          if protectionMode = "full" then
            ({ st with onModuleInit := .protectPage scriptURL, onBidResponse := .augmentHtml },
              .ok ())
          else if protectionMode = "bids" then
            ({ st with onModuleInit := .preloadScript scriptURL,
                       onBidResponse := .protectByWrapping scriptURL 0 }, .ok ())
          else if protectionMode = "bids-nowait" then
            ({ st with onModuleInit := .preloadScript scriptURL,
                       onBidResponse := .protectByWrapping scriptURL 1 }, .ok ())
          else
            (st, .error (.configError
              "Parameter \"protectionMode\" must be one of \"full\" | \"bids\" | \"bids-nowait\"."))
        | _ =>
          (st, .error (.configError
            "Parameter \"protectionMode\" is a required string parameter."))
    | _ =>
      (st, .error (.configError
        "Parameter \"cdnUrl\" is a required string parameter, which should start with \"http(s)://\"."))

/-- The claim's words for a valid `cdnUrl`: a string beginning with `http://`
or `https://`. -/
def specValidCdnUrl : JsVal → Prop
  | .str s => "http://".data <+: s.data ∨ "https://".data <+: s.data
  | _ => False

/-- The claim's words for a valid `protectionMode`: one of `'full'`, `'bids'`,
`'bids-nowait'`. -/
def specValidMode (v : JsVal) : Prop :=
  v = .str "full" ∨ v = .str "bids" ∨ v = .str "bids-nowait"

end HumanSecurity

/-! # The OpenX bid adapter: user syncs

`src/modules/openxBidAdapter.js`, `getUserSyncs`. -/

namespace OpenX

open UspConsent (JsVal JsError getOrThrow)

def SYNC_URL : String := "https://u.openx.net/w/1.0/pd"

def DEFAULT_PH : String := "2d1251ae-7f3a-47cf-bd2a-2f288854a0ba"

/-- One element `{type, url}` of the returned array. -/
structure SyncDescriptor where
  type : String
  url : String
  deriving DecidableEq

/-- The read `v.length`: the number of items of an array, the number of
characters of a string, the own field of an object. -/
def jsLength : JsVal → JsVal
  | .arr items => .num items.length
  | .str s => .num s.length
  | v => v.get "length"

/-- One item as `Array.prototype.join` prints it: `null` and `undefined` give
the empty string. -/
def joinItem (v : JsVal) : String :=
  if v.isNullish then "" else v.toStr

/-- The call `v.join(sep)`; only arrays have the method. -/
def jsJoin (sep : String) : JsVal → Except JsError String
  | .arr items => .ok (sep.intercalate (items.map joinItem))
  | _ => .error (.typeError "join is not a function")

/-- The part of `getUserSyncs` that reads `responses`: the new `syncUrl` and
the `ph` parameter to push, if any. -/
def serverExt (responses : List JsVal) (syncUrl : String) :
    Except JsError (String × List String) :=
  match responses with
  | [] => .ok (syncUrl, ["ph=" ++ DEFAULT_PH])
  | first :: _ =>
    match getOrThrow first "body" with
    | .error e => .error e
    | .ok body =>
      if body.truthy && (body.get "ext").truthy then
        let ext := body.get "ext"
        if (ext.get "delDomain").truthy then
          .ok ("https://" ++ (ext.get "delDomain").toStr ++ "/w/1.0/pd", [])
        else if (ext.get "platform").truthy then
          .ok (syncUrl, ["ph=" ++ (ext.get "platform").toStr])
        else .ok (syncUrl, [])
      else .ok (syncUrl, ["ph=" ++ DEFAULT_PH])

/-- The function `getUserSyncs`; `none` is the value `undefined` of a call
that ends without a `return`.  The parameter `encodeURIComponent` stands for
the global of that name. -/
def getUserSyncs (encodeURIComponent : String → String) (syncOptions : JsVal)
    (responses : List JsVal) (gdprConsent uspConsent gppConsent : JsVal) :
    Except JsError (Option (List SyncDescriptor)) :=
  match getOrThrow syncOptions "iframeEnabled" with
  | .error e => .error e
  | .ok iframeEnabled =>
    if iframeEnabled.truthy || (syncOptions.get "pixelEnabled").truthy then
      let pixelType := if iframeEnabled.truthy then "iframe" else "image"
      let queryParamStrings : List String := []
      let syncUrl := SYNC_URL
      let queryParamStrings :=
        if gdprConsent.truthy then
          queryParamStrings ++
            ["gdpr=" ++ (if (gdprConsent.get "gdprApplies").truthy then "1" else "0"),
             "gdpr_consent=" ++ encodeURIComponent
               (if (gdprConsent.get "consentString").truthy
                then (gdprConsent.get "consentString").toStr else "")]
        else queryParamStrings
      let queryParamStrings :=
        if uspConsent.truthy then
          queryParamStrings ++ ["us_privacy=" ++ encodeURIComponent uspConsent.toStr]
        else queryParamStrings
      match (if (gppConsent.get "gppString").truthy &&
                (jsLength (gppConsent.get "applicableSections")).truthy then
              (jsJoin "," (gppConsent.get "applicableSections")).map (fun joined =>
                queryParamStrings ++
                  ["gpp=" ++ encodeURIComponent (gppConsent.get "gppString").toStr,
                   "gpp_sid=" ++ joined])
            else .ok queryParamStrings) with
      | .error e => .error e
      | .ok queryParamStrings =>
        match serverExt responses syncUrl with
        | .error e => .error e
        | .ok (syncUrl, ph) =>
          let queryParamStrings := queryParamStrings ++ ph
          .ok (some [{
            type := pixelType
            url := syncUrl ++ (if queryParamStrings.length > 0 then
              "?" ++ "&".intercalate queryParamStrings else "") }])
    else .ok none

end OpenX

/-! # The Buzzoola bid adapter: response interpretation

`src/modules/buzzoolaBidAdapter.js`, `spec.interpretResponse`. -/

namespace Buzzoola

open UspConsent (JsVal JsError getOrThrow)

def VIDEO : String := "video"

def OUTSTREAM : String := "outstream"

def RENDERER_SRC : String := "https://tube.buzzoola.com/new/build/buzzlibrary.js"

mutual
/-- The string under which a value is used as a property key
(`requestBids[key]`): ECMAScript's `ToString`, where an array prints its items
joined by commas, `null` and `undefined` items as the empty string. -/
def propertyKey : JsVal → String
  | .undefined => "undefined"
  | .null => "null"
  | .bool true => "true"
  | .bool false => "false"
  | .num n => toString n
  | .str s => s
  | .obj _ => "[object Object]"
  | .arr items => joinKeys items
termination_by structural v => v
/-- The items of an array joined by commas. -/
def joinKeys : List JsVal → String
  | [] => ""
  | .undefined :: rest => joinRest rest
  | .null :: rest => joinRest rest
  | v :: rest => propertyKey v ++ joinRest rest
termination_by structural l => l
/-- The items after the first, each preceded by a comma. -/
def joinRest : List JsVal → String
  | [] => ""
  | .undefined :: rest => "," ++ joinRest rest
  | .null :: rest => "," ++ joinRest rest
  | v :: rest => "," ++ propertyKey v ++ joinRest rest
termination_by structural l => l
end

/-- The test `v === s` against a string constant. -/
def strictEqStr (v : JsVal) (s : String) : Bool :=
  match v with
  | .str t => t == s
  | _ => false

/-- Modelled from the spec: `deepAccess` of `src/utils.js`, which lies outside
the translated sources; it walks the path and yields `undefined` as soon as a
step starts from a falsy value. -/
def deepAccess (obj : JsVal) (path : List String) : JsVal :=
  path.foldl (fun o key => if o.truthy then o.get key else .undefined) obj

/-- Modelled from the spec: `deepClone` of `src/utils.js`, which lies outside
the translated sources; values are immutable data here, so the deep copy of a
value is a value equal to it. -/
def deepClone (v : JsVal) : JsVal := v

/-- Modelled from the spec: `Renderer.install` of `src/Renderer.js`, which
lies outside the translated sources, followed by `setRender`; the renderer is
represented by the options it was installed with and the name of its render
function. -/
def installRenderer (id : JsVal) : JsVal :=
  .obj [("id", id), ("url", .str RENDERER_SRC), ("loaded", .bool false),
        ("render", .str "setOutstreamRenderer")]

/-- The loop `data.bids.forEach(bid => { requestBids[bid.bidId] = bid; })`,
started from the object `requestBids` built so far.  Reads of `requestBids`
find own keys only: what an empty object inherits from `Object.prototype` has
no `mediaTypes`, so `deepAccess` treats it like a missing key. -/
def collectRequestBids : List JsVal → List (String × JsVal) →
    Except JsError (List (String × JsVal))
  | [], requestBids => .ok requestBids
  | bid :: rest, requestBids =>
    match getOrThrow bid "bidId" with
    | .error e => .error e
    | .ok bidId => collectRequestBids rest (JsVal.setField requestBids (propertyKey bidId) bid)

/-- The assignment `validBid.renderer = renderer`. -/
def setRenderer (validBid renderer : JsVal) : JsVal :=
  match validBid with
  | .obj fields => .obj (JsVal.setField fields "renderer" renderer)
  | other => other

/-- The callback of `response.map`. -/
def interpretBid (requestBids : List (String × JsVal)) (bid : JsVal) : Except JsError JsVal :=
  match getOrThrow bid "requestId" with
  | .error e => .error e
  | .ok requestId =>
    let requestBid := JsVal.lookupField requestBids (propertyKey requestId)
    let context := deepAccess requestBid ["mediaTypes", "video", "context"]
    let validBid := deepClone bid
    if strictEqStr (validBid.get "mediaType") VIDEO && strictEqStr context OUTSTREAM then
      let renderer := installRenderer (validBid.get "requestId")
      .ok (setRenderer validBid renderer)
    else .ok validBid

/-- The call `response.map(...)`, which stops at the first exception. -/
def mapBids (requestBids : List (String × JsVal)) : List JsVal → Except JsError (List JsVal)
  | [] => .ok []
  | bid :: rest =>
    match interpretBid requestBids bid with
    | .error e => .error e
    | .ok validBid =>
      match mapBids requestBids rest with
      | .error e => .error e
      | .ok validBids => .ok (validBid :: validBids)

/-- The value of `response` when the mapping starts: the parsed body, or the
body itself when `JSON.parse` raises (`none`); anything but an array is
replaced by the empty array. -/
def responseOf (JSON_parse : JsVal → Option JsVal) (body : JsVal) : List JsVal :=
  let response := match JSON_parse body with
    | some parsed => parsed
    | none => body
  match response with
  | .arr items => items
  | _ => []

/-- The function `spec.interpretResponse({body}, {data})`, with `bids` the
array `data.bids`; `JSON_parse` stands for `JSON.parse`. -/
def interpretResponse (JSON_parse : JsVal → Option JsVal) (body : JsVal) (bids : List JsVal) :
    Except JsError (List JsVal) :=
  let response := responseOf JSON_parse body
  match collectRequestBids bids [] with
  | .error e => .error e
  | .ok requestBids => mapBids requestBids response

/-- The claim's words for "the request bid with the same bidId": the last bid
of the request whose `bidId` names the same key as `id`. -/
def specRequestBid (bids : List JsVal) (id : JsVal) : JsVal :=
  match bids.reverse.find? (fun r => propertyKey (r.get "bidId") == propertyKey id) with
  | some r => r
  | none => .undefined

/-- The claim's words for when a renderer is added: the bid's `mediaType` is
`video` and its request bid has the video context `outstream`. -/
def specWantsRenderer (bids : List JsVal) (bid : JsVal) : Bool :=
  strictEqStr (bid.get "mediaType") "video" &&
  strictEqStr ((((specRequestBid bids (bid.get "requestId")).get "mediaTypes").get "video").get
    "context") "outstream"

end Buzzoola

/-! # The GAM video ad server module: URL building

`src/modules/gamAdServerVideo.js`, `buildGamVideoUrl`. -/

namespace GamVideo

open UspConsent (JsVal JsError getOrThrow)

/-- What `buildGamVideoUrl` reads from outside the module: the clock, the
page, the helpers of `src/utils.js`, the targeting and consent state, and the
constants of `libraries/gamUtils/gamUtils.js`. -/
structure Env where
  /-- The value of `Date.now()`. -/
  now : Int
  /-- The value of `location.href`. -/
  locationHref : String
  encodeURIComponent : String → String
  parseUrl : JsVal → JsVal
  parseSizesInput : JsVal → List String
  formatQS : JsVal → String
  buildUrl : JsVal → String
  /-- The value of `targeting.getWinningBids(code)[0]`. -/
  winningBid : JsVal → JsVal
  /-- The value of `targeting.getAllTargeting(code)`. -/
  getAllTargeting : JsVal → JsVal
  DEFAULT_GAM_PARAMS : JsVal
  GAM_ENDPOINT : JsVal
  /-- the object `gdprParams()` returns -/
  gdprParams : JsVal
  /-- The value of `dep.ri().page`. -/
  refererPage : JsVal
  /-- The value of `getPPID()`. -/
  ppid : JsVal
  /-- The value of `getSignals(fpd)`. -/
  signals : List JsVal
  /-- The value of `btoa(JSON.stringify({PublisherProvidedTaxonomySignals: signals}))`. -/
  encodeSignals : List JsVal → String

/-- The test `fields.hasOwnProperty(key)`. -/
def hasOwn (fields : List (String × JsVal)) (key : String) : Bool :=
  fields.any (fun p => p.1 == key)

/-- One source of `Object.assign`: its entries are assigned in order. -/
def assignFields (target source : List (String × JsVal)) : List (String × JsVal) :=
  source.foldl (fun t p => JsVal.setField t p.1 p.2) target

/-- The call `Object.assign(target, ...sources)` on plain objects; a source
that is `null`, `undefined` or another primitive without own enumerable
properties contributes nothing. -/
def objectAssign (target : List (String × JsVal)) (sources : List JsVal) :
    List (String × JsVal) :=
  sources.foldl (fun t s =>
    match s with
    | .obj fields => assignFields t fields
    | _ => t) target

/-- Modelled from the spec: `isEmpty` of `src/utils.js`, which lies outside
the translated sources; true of falsy values, of empty arrays and strings, and
of objects without own keys. -/
def isEmpty : JsVal → Bool
  | .obj fields => fields.isEmpty
  | .arr items => items.isEmpty
  | .str s => s.isEmpty
  | _ => true

/-- The function `getDescriptionUrl(bid, components, prop)`. -/
def getDescriptionUrl (env : Env) (components : JsVal) (prop : String) : JsVal :=
  if ((components.get prop).get "description_url").truthy then
    (components.get prop).get "description_url"
  else .str (env.encodeURIComponent env.refererPage.toStr)

/-- The function `getCustParams(bid, options, urlCustParams)`; the event it
emits is left out, the read `adUnit.code` for it is kept. -/
def getCustParams (env : Env) (bid options urlCustParams : JsVal) : Except JsError JsVal :=
  let adserverTargeting :=
    if bid.truthy && (bid.get "adserverTargeting").truthy then bid.get "adserverTargeting"
    else .obj []
  let adUnit := if options.truthy then options.get "adUnit" else options
  let allTargetingData :=
    if adUnit.truthy then
      let allTargeting := env.getAllTargeting (adUnit.get "code")
      if allTargeting.truthy then allTargeting.get (adUnit.get "code").toStr else .obj []
    else .obj []
  let videoCacheKey := if bid.truthy then bid.get "videoCacheKey" else bid
  let prebidTargetingSet := objectAssign []
    [.obj [("hb_uuid", videoCacheKey)], .obj [("hb_cache_id", videoCacheKey)],
     allTargetingData, adserverTargeting]
  match getOrThrow adUnit "code" with
  | .error e => .error e
  | .ok _ =>
    let publisherTargetingSet := (options.get "params").get "cust_params"
    let targetingSet := objectAssign [] [.obj prebidTargetingSet, publisherTargetingSet]
    let encodedParams := env.encodeURIComponent (env.formatQS (.obj targetingSet))
    if urlCustParams.truthy then .ok (.str (urlCustParams.toStr ++ "%26" ++ encodedParams))
    else .ok (.str encodedParams)

/-- The function `buildUrlFromAdserverUrlComponents`, up to the call of
`buildUrl`: the components handed to it. -/
def buildUrlFromAdserverUrlComponents (env : Env) (components bid options : JsVal) :
    Except JsError JsVal :=
  let descriptionUrl := getDescriptionUrl env components "search"
  match components, components.get "search" with
  | .obj cfields, .obj search =>
    let search := if descriptionUrl.truthy then
        JsVal.setField search "description_url" descriptionUrl
      else search
    match getCustParams env bid options (JsVal.lookupField search "cust_params") with
    | .error e => .error e
    | .ok custParams =>
      .ok (.obj (JsVal.setField cfields "search"
        (.obj (JsVal.setField search "cust_params" custParams))))
  | _, _ => .error (.typeError "Cannot set properties of components.search")

/-- The test `list.includes(m)` for a list of number literals. -/
def includesNum (list : List Int) : JsVal → Bool
  | .num n => list.contains n
  | _ => false

/-- The getters of the object literal in `buildGamVideoUrl`, each with the
value it returns for `video`; `undefined` stands for a getter that ends without
a `return`. -/
def derivedGetters (video : JsVal) : List (String × JsVal) :=
  [("plcmt", video.get "plcmt"),
   ("min_ad_duration",
      match video.get "minduration" with
      | .num n => .num (n * 1000)
      | _ => .null),
   ("max_ad_duration",
      match video.get "maxduration" with
      | .num n => .num (n * 1000)
      | _ => .null),
   ("vpos",
      match video.get "startdelay" with
      | .num startdelay =>
        if startdelay = -2 then .str "postroll"
        else if startdelay = -1 ∨ startdelay > 0 then .str "midroll"
        else .str "preroll"
      | _ => .undefined),
   ("vconp",
      match video.get "playbackmethod" with
      | .arr playbackmethod =>
        if playbackmethod.any (includesNum [7]) then .str "2" else .undefined
      | _ => .undefined),
   ("vpa",
      match video.get "playbackmethod" with
      | .arr playbackmethod =>
        let click := playbackmethod.any (includesNum [3])
        let auto := playbackmethod.any (includesNum [1, 2, 4, 5, 6])
        if click && !auto then .str "click"
        else if auto && !click then .str "auto"
        else .undefined
      | _ => .undefined),
   ("vpmute",
      match video.get "playbackmethod" with
      | .arr playbackmethod =>
        let muted := playbackmethod.any (includesNum [2, 6])
        let talkie := playbackmethod.any (includesNum [1, 3, 4, 5])
        if muted && !talkie then .str "1"
        else if talkie && !muted then .str "0"
        else .undefined
      | _ => .undefined)]

/-- The body of the `forEach` over the getters: a parameter the query does not
own yet is set to the getter's value unless that is `null` or `undefined`. -/
def applyGetter (queryParams : List (String × JsVal)) (entry : String × JsVal) :
    List (String × JsVal) :=
  if !hasOwn queryParams entry.1 then
    if !entry.2.isNullish then JsVal.setField queryParams entry.1 entry.2 else queryParams
  else queryParams

/-- The part of `buildGamVideoUrl` from `Object.assign` on: the object
`queryParams` when it is handed to `buildUrl` as `search`. -/
def buildQueryParams (env : Env) (options urlComponents derivedParams
    encodedCustomParams : JsVal) : List (String × JsVal) :=
  let queryParams := objectAssign []
    [env.DEFAULT_GAM_PARAMS, urlComponents.get "search", derivedParams, options.get "params",
     .obj [("cust_params", encodedCustomParams)], env.gdprParams]
  let descriptionUrl := getDescriptionUrl env options "params"
  let queryParams := if descriptionUrl.truthy then
      JsVal.setField queryParams "description_url" descriptionUrl
    else queryParams
  let queryParams :=
    if !(JsVal.lookupField queryParams "ppid").truthy then
      if !env.ppid.isNullish then JsVal.setField queryParams "ppid" env.ppid else queryParams
    else queryParams
  let video := ((options.get "adUnit").get "mediaTypes").get "video"
  let queryParams := (derivedGetters video).foldl applyGetter queryParams
  if env.signals.length > 0 then
    JsVal.setField queryParams "ppsj" (.str (env.encodeSignals env.signals))
  else queryParams

/-- The function `buildGamVideoUrl(options)` up to the final call of
`buildUrl`: the components handed to it, or `none` when the function returns
`undefined`. -/
def buildGamVideoUrlComponents (env : Env) (options : JsVal) :
    Except JsError (Option JsVal) :=
  match getOrThrow options "params" with
  | .error e => .error e
  | .ok params =>
    if !params.truthy && !(options.get "url").truthy then .ok none
    else
      let adUnit := options.get "adUnit"
      match (if (options.get "bid").truthy then Except.ok (options.get "bid")
             else (getOrThrow adUnit "code").map env.winningBid) with
      | .error e => .error e
      | .ok bid =>
        let urlComponents :=
          if (options.get "url").truthy then env.parseUrl (options.get "url") else .obj []
        if (options.get "url").truthy && isEmpty params then
          (buildUrlFromAdserverUrlComponents env urlComponents bid options).map some
        else
          let sz := "|".intercalate
            (env.parseSizesInput (((adUnit.get "mediaTypes").get "video").get "playerSize"))
          let urlSearchComponent := urlComponents.get "search"
          let urlSzParam :=
            if urlSearchComponent.truthy then urlSearchComponent.get "sz" else urlSearchComponent
          let sz := if urlSzParam.truthy then urlSzParam.toStr ++ "|" ++ sz else sz
          let derivedParams := JsVal.obj [("correlator", .num env.now), ("sz", .str sz),
            ("url", .str (env.encodeURIComponent env.locationHref))]
          match getCustParams env bid options
              (if urlSearchComponent.truthy then urlSearchComponent.get "cust_params"
               else urlSearchComponent) with
          | .error e => .error e
          | .ok encodedCustomParams =>
            let queryParams :=
              buildQueryParams env options urlComponents derivedParams encodedCustomParams
            .ok (some (.obj (objectAssign []
              [env.GAM_ENDPOINT, urlComponents, .obj [("search", .obj queryParams)]])))

/-- The function `buildGamVideoUrl(options)`: the URL, or `none` for
`undefined`. -/
def buildGamVideoUrl (env : Env) (options : JsVal) : Except JsError (Option String) :=
  (buildGamVideoUrlComponents env options).map (Option.map env.buildUrl)

/-- An environment for worked examples: a page at `https://example.com/`, no
GDPR consent data, no PPID, no taxonomy signals, helpers that return empty
results, and `encodeURIComponent` leaving its argument as it is. -/
def pageEnv : Env where
  now := 1700000000000
  locationHref := "https://example.com/"
  encodeURIComponent := fun s => s
  parseUrl := fun _ => .obj [("search", .obj [])]
  parseSizesInput := fun _ => []
  formatQS := fun _ => ""
  buildUrl := fun _ => ""
  winningBid := fun _ => .undefined
  getAllTargeting := fun _ => .undefined
  DEFAULT_GAM_PARAMS := .obj [("env", .str "vp"), ("gdfp_req", .num 1), ("output", .str "vast"),
    ("unviewed_position_start", .num 1)]
  GAM_ENDPOINT := .obj [("protocol", .str "https"),
    ("host", .str "securepubads.g.doubleclick.net"), ("pathname", .str "/gampad/ads")]
  gdprParams := .obj []
  refererPage := .str "https://example.com/"
  ppid := .undefined
  signals := []
  encodeSignals := fun _ => ""

end GamVideo

/-! # The humansecurityMalvDefense RTD submodule: initialisation and bid steps -/

namespace HumanSecurity

open UspConsent (JsVal JsError)

/-- The page and the event bus, as far as the submodule touches them: the
scripts handed to `loadExternalScript`, the `href`s of the preload links
inserted, the number of listeners the submodule has subscribed to `BID_WON`,
and the messages given to `logError`. -/
structure Page where
  scripts : List String
  preloadLinks : List String
  bidWonListeners : Nat
  errors : List String

/-- One instance of the submodule (`createRtdSubmodule(moduleName)`) on its
page. -/
structure Submodule where
  st : ModuleState
  page : Page

/-- The instance right after `createRtdSubmodule` has run, on a fresh page. -/
def Submodule.initial : Submodule :=
  { st := ModuleState.initial,
    page := { scripts := [], preloadLinks := [], bidWonListeners := 0, errors := [] } }

def pageInitStepProtectPage (scriptURL : String) (page : Page) : Page :=
  { page with scripts := page.scripts ++ [scriptURL] }

def pageInitStepPreloadScript (scriptURL : String) (page : Page) : Page :=
  { page with preloadLinks := page.preloadLinks ++ [scriptURL] }

/-- The call `onModuleInit()`; the page steps are taken to return normally. -/
def runModuleInit : InitStep → Page → Page
  | .noop, page => page
  | .protectPage scriptURL, page => pageInitStepProtectPage scriptURL page
  | .preloadScript scriptURL, page => pageInitStepPreloadScript scriptURL page

/-- The call `startBillableEvents()`: the function the variable holds at first
subscribes one listener to `BID_WON`, its replacement `() => {}` does nothing. -/
def callStartBillableEvents (m : Submodule) : Submodule :=
  if m.st.startBillableEvents then
    { m with page := { m.page with bidWonListeners := m.page.bidWonListeners + 1 } }
  else m

/-- The method `init(config, userConsent)` of the registered submodule, with
the value it returns. -/
def init (moduleName : String) (config : JsVal) (m : Submodule) : Bool × Submodule :=
  match readConfig moduleName config m.st with
  | (st, .ok ()) =>
    let m : Submodule := { st := st, page := runModuleInit st.onModuleInit m.page }
    let m := callStartBillableEvents m
    (true, { m with st := { m.st with startBillableEvents := false } })
  | (st, .error (.configError msg)) =>
    (false, { st := st, page := { m.page with errors := m.page.errors ++ [msg] } })
  | (st, .error (.typeError _)) => (false, { st := st, page := m.page })

/-- What happens to the submodule: `init` is called, or a preload link fires
its `onload` or `onerror` handler. -/
inductive Op where
  | init (config : JsVal) : Op
  | preloadLoaded : Op
  | preloadFailed : Op

/-- One operation; for an `init` call the returned value is recorded.  The
handlers `onload` and `onerror` exist only on a link that has been inserted. -/
def step (moduleName : String) : Op → Submodule → List Bool × Submodule
  | .init config, m => ([(init moduleName config m).1], (init moduleName config m).2)
  | .preloadLoaded, m =>
    ([], if m.page.preloadLinks.isEmpty then m
         else { m with st := { m.st with preloadStatus := 1 } })
  | .preloadFailed, m =>
    ([], if m.page.preloadLinks.isEmpty then m
         else { m with st := { m.st with preloadStatus := -1 } })

/-- A sequence of operations, with the values the `init` calls returned. -/
def run (moduleName : String) : List Op → Submodule → List Bool × Submodule
  | [], m => ([], m)
  | op :: rest, m =>
    ((step moduleName op m).1 ++ (run moduleName rest (step moduleName op m).2).1,
      (run moduleName rest (step moduleName op m).2).2)

/-- The `BILLABLE_EVENT`s one `BID_WON` event produces: each subscribed
listener emits one; `generateUUID` gives the billing id of the listener's
call. -/
def billableEvents (moduleName : String) (generateUUID : Nat → String) (m : Submodule)
    (winnerBidResponse : JsVal) : List JsVal :=
  (List.range m.page.bidWonListeners).map (fun i =>
    JsVal.obj [("vendor", .str moduleName), ("billingId", .str (generateUUID i)),
      ("type", .str "impression"), ("auctionId", winnerBidResponse.get "auctionId"),
      ("transactionId", winnerBidResponse.get "transactionId"),
      ("bidId", winnerBidResponse.get "requestId")])

/-- The interpolation of `v || ''` in a template literal. -/
def orEmpty (v : JsVal) : String :=
  if v.truthy then Buzzoola.propertyKey v else ""

/-- The identification comment that `bidWrapStepAugmentHtml` puts before the
ad. -/
def pbadComment (bidResponse : JsVal) : String :=
  "<!-- pbad://creativeId=" ++ orEmpty (bidResponse.get "creativeId") ++
  "&bidderCode=" ++ orEmpty (bidResponse.get "bidderCode") ++
  "&cpm=" ++ orEmpty (bidResponse.get "cpm") ++ " -->"

/-- The function `bidWrapStepAugmentHtml(bidResponse)`, returning the bid
response it leaves behind.  A bid response is an object; on any other value
the model raises (`null` and `undefined` have no properties to read, and a
primitive cannot be assigned to in a module, which is strict code). -/
def bidWrapStepAugmentHtml (bidResponse : JsVal) : Except JsError JsVal :=
  match bidResponse with
  | .obj fields =>
    .ok (.obj (JsVal.setField fields "ad"
      (.str (pbadComment bidResponse ++ "\n" ++ Buzzoola.propertyKey (bidResponse.get "ad")))))
  | _ => .error (.typeError "bidResponse is not an object")

/-- The template literal that wraps the ad in the protection script. -/
def wrapAd (scriptURL sid encodedAd : String) : String :=
  "\n    <script type=\"text/javascript\"\n      src=\"" ++ scriptURL ++
  "\"\n      data-api-integration-mode=\"prebid\"\n      data-api-session-uuid=\"" ++ sid ++
  "\">\n    </script>\n    <script type=\"text/javascript\">\n      var ad = \"" ++ encodedAd ++
  "\";\n      var agent = window[\"" ++ sid ++
  "\"];\n      if (agent && typeof agent.put === \"function\") \x7b\n        agent.put(ad);\n      \x7d\n      else \x7b\n        document.open();\n        document.write(decodeURIComponent(ad));\n        document.close();\n      \x7d\n    </script>\n  "

/-- The function `bidWrapStepProtectByWrapping(scriptURL, requiredPreload,
bidResponse)`, returning the bid response it leaves behind; `sid` is the value
of `generateUUID()`. -/
def bidWrapStepProtectByWrapping (encodeURIComponent : String → String) (st : ModuleState)
    (scriptURL : String) (requiredPreload : Int) (bidResponse : JsVal) (sid : String) :
    Except JsError JsVal :=
  match bidWrapStepAugmentHtml bidResponse with
  | .error e => .error e
  | .ok bidResponse =>
    if st.preloadStatus < requiredPreload then .ok bidResponse
    else
      match bidResponse with
      | .obj fields =>
        .ok (.obj (JsVal.setField fields "ad" (.str (wrapAd scriptURL sid
          (encodeURIComponent (Buzzoola.propertyKey (bidResponse.get "ad")))))))
      | other => .ok other

/-- The method `onBidResponseEvent(bidResponse, config, userConsent)`. -/
def onBidResponseEvent (encodeURIComponent : String → String) (st : ModuleState)
    (bidResponse : JsVal) (sid : String) : Except JsError JsVal :=
  match st.onBidResponse with
  | .noop => .ok bidResponse
  | .augmentHtml => bidWrapStepAugmentHtml bidResponse
  | .protectByWrapping scriptURL requiredPreload =>
    bidWrapStepProtectByWrapping encodeURIComponent st scriptURL requiredPreload bidResponse sid

/-- The ad after `bidWrapStepAugmentHtml`: the identification comment, a line
break, and the ad as it was. -/
def augmentedAd (bidResponse : JsVal) : String :=
  pbadComment bidResponse ++ "\n" ++ Buzzoola.propertyKey (bidResponse.get "ad")

end HumanSecurity

namespace HumanSecurity

/-- What holds of the submodule after the `init` calls that returned
`results`: the listener is subscribed exactly when `startBillableEvents` has
been replaced, which is exactly when an `init` call has returned `true`;
`preloadStatus` is -1, 0 or 1; and an installed wrapping step requires preload
0 or 1. -/
def Settled (results : List Bool) (m : Submodule) : Prop :=
  m.page.bidWonListeners = (if m.st.startBillableEvents then 0 else 1) ∧
  (m.st.startBillableEvents = false ↔ true ∈ results) ∧
  (m.st.preloadStatus = -1 ∨ m.st.preloadStatus = 0 ∨ m.st.preloadStatus = 1) ∧
  (∀ u r, m.st.onBidResponse = .protectByWrapping u r → r = 0 ∨ r = 1)

end HumanSecurity

namespace GamVideo

open UspConsent (JsVal)

/-- The claim's words for "the list contains `n`": `playbackmethod` is an
array and the number `n` is one of its items. -/
def containsNum (playbackmethod : JsVal) (n : Int) : Prop :=
  ∃ items, playbackmethod = .arr items ∧ JsVal.num n ∈ items

/-- The claim's words for `vpa = 'click'`: the list contains 3 and none of 1, 2,
4, 5, 6. -/
def specVpaClick (playbackmethod : JsVal) : Prop :=
  containsNum playbackmethod 3 ∧ ¬ ∃ n ∈ [1, 2, 4, 5, 6], containsNum playbackmethod n

/-- The claim's words for `vpa = 'auto'`: the list contains one of 1, 2, 4, 5, 6
and not 3. -/
def specVpaAuto (playbackmethod : JsVal) : Prop :=
  (∃ n ∈ [1, 2, 4, 5, 6], containsNum playbackmethod n) ∧ ¬ containsNum playbackmethod 3

/-- The claim's words for `vpmute = '1'`: the list contains 2 or 6 and none of
1, 3, 4, 5. -/
def specVpmuteMuted (playbackmethod : JsVal) : Prop :=
  (∃ n ∈ [2, 6], containsNum playbackmethod n) ∧
  ¬ ∃ n ∈ [1, 3, 4, 5], containsNum playbackmethod n

/-- The claim's words for `vpmute = '0'`: the list contains one of 1, 3, 4, 5
and neither 2 nor 6. -/
def specVpmuteTalkie (playbackmethod : JsVal) : Prop :=
  (∃ n ∈ [1, 3, 4, 5], containsNum playbackmethod n) ∧
  ¬ ∃ n ∈ [2, 6], containsNum playbackmethod n

end GamVideo

namespace GamVideo

open UspConsent (JsVal)

/-- The getter `vpa()` of the object literal in `buildGamVideoUrl`, as a
function of `video`; it is the sixth entry of `derivedGetters`. -/
def vpa (video : JsVal) : JsVal :=
  match video.get "playbackmethod" with
  | .arr playbackmethod =>
    let click := playbackmethod.any (includesNum [3])
    let auto := playbackmethod.any (includesNum [1, 2, 4, 5, 6])
    if click && !auto then .str "click"
    else if auto && !click then .str "auto"
    else .undefined
  | _ => .undefined

/-- The getter `vpmute()` of the object literal in `buildGamVideoUrl`, as a
function of `video`; it is the seventh entry of `derivedGetters`. -/
def vpmute (video : JsVal) : JsVal :=
  match video.get "playbackmethod" with
  | .arr playbackmethod =>
    let muted := playbackmethod.any (includesNum [2, 6])
    let talkie := playbackmethod.any (includesNum [1, 3, 4, 5])
    if muted && !talkie then .str "1"
    else if talkie && !muted then .str "0"
    else .undefined
  | _ => .undefined

end GamVideo

/-! # The OpenX bid adapter: request building

`src/modules/openxBidAdapter.js`, `buildRequests`. -/

namespace OpenX

open UspConsent (JsVal JsError getOrThrow)

def REQUEST_URL : String := "https://rtb.openx.net/openrtbb/prebidjs"

def VIDEO : String := "video"

/-- The object `createRequest` returns.  The field `data` is the result of
`converter.toORTB`, which lies outside the translated sources; it is
represented by what is handed to the converter: the bid requests, the bidder
request and `context.mediaType`. -/
structure ServerRequest where
  method : String
  url : JsVal
  bidRequests : List JsVal
  bidderRequest : JsVal
  mediaType : JsVal

/-- The function `createRequest(bidRequests, bidderRequest, mediaType)`;
`openxOrtbUrl` is the value of `config.getConfig('openxOrtbUrl')`. -/
def createRequest (openxOrtbUrl : JsVal) (bidRequests : List JsVal)
    (bidderRequest mediaType : JsVal) : ServerRequest :=
  { method := "POST"
    url := if openxOrtbUrl.truthy then openxOrtbUrl else .str REQUEST_URL
    bidRequests := bidRequests
    bidderRequest := bidderRequest
    mediaType := mediaType }

def isVideoBidRequest (bidRequest : JsVal) : JsVal :=
  Buzzoola.deepAccess bidRequest ["mediaTypes", "video"]

def isNativeBidRequest (bidRequest : JsVal) : JsVal :=
  Buzzoola.deepAccess bidRequest ["mediaTypes", "native"]

def isBannerBidRequest (bidRequest : JsVal) : JsVal :=
  let isNotVideoOrNativeBid :=
    !(isVideoBidRequest bidRequest).truthy && !(isNativeBidRequest bidRequest).truthy
  if (Buzzoola.deepAccess bidRequest ["mediaTypes", "banner"]).truthy then
    Buzzoola.deepAccess bidRequest ["mediaTypes", "banner"]
  else .bool isNotVideoOrNativeBid

/-- The own properties an object spread `{...v}` copies: those of an object,
none for `null`, `undefined`, numbers and booleans (the index keys a string or
an array would contribute are not modelled). -/
def spread : JsVal → List (String × JsVal)
  | .obj fields => fields
  | _ => []

/-- The callback of `.map` in `buildRequests`:
`bid => ({...bid, mediaTypes: {...bid.mediaTypes, video: undefined}})`. -/
def withoutVideo (bid : JsVal) : Except JsError JsVal :=
  match getOrThrow bid "mediaTypes" with
  | .error e => .error e
  | .ok mediaTypes =>
    .ok (.obj (JsVal.setField (spread bid) "mediaTypes"
      (.obj (JsVal.setField (spread mediaTypes) "video" .undefined))))

/-- The call `.map(...)` with that callback, which stops at the first
exception. -/
def mapWithoutVideo : List JsVal → Except JsError (List JsVal)
  | [] => .ok []
  | bid :: rest =>
    match withoutVideo bid with
    | .error e => .error e
    | .ok first =>
      match mapWithoutVideo rest with
      | .error e => .error e
      | .ok others => .ok (first :: others)

/-- The function `buildRequests(bidRequests, bidderRequest)`. -/
def buildRequests (openxOrtbUrl : JsVal) (bidRequests : List JsVal) (bidderRequest : JsVal) :
    Except JsError (List ServerRequest) :=
  let videoRequests := bidRequests.filter (fun bidRequest =>
    (isVideoBidRequest bidRequest).truthy)
  match mapWithoutVideo (bidRequests.filter (fun bidRequest =>
      (isBannerBidRequest bidRequest).truthy || (isNativeBidRequest bidRequest).truthy)) with
  | .error e => .error e
  | .ok bannerAndNativeRequests =>
    let requests :=
      if bannerAndNativeRequests.length > 0 then
        [createRequest openxOrtbUrl bannerAndNativeRequests bidderRequest .null]
      else []
    .ok (requests ++ videoRequests.map (fun bid =>
      createRequest openxOrtbUrl [bid] bidderRequest (.str VIDEO)))

/-- The claim's words for "a bid that has `mediaTypes.video`". -/
def specHasVideo (bid : JsVal) : Bool := ((bid.get "mediaTypes").get "video").truthy

/-- The claim's words for a bid of the combined request: it "is banner, native,
or has neither video nor native". -/
def specCombined (bid : JsVal) : Bool :=
  ((bid.get "mediaTypes").get "banner").truthy || ((bid.get "mediaTypes").get "native").truthy ||
  (!((bid.get "mediaTypes").get "video").truthy && !((bid.get "mediaTypes").get "native").truthy)

/-- The claim's words for "the bid with `mediaTypes.video` removed": `carried`
reads `undefined` for `mediaTypes.video` and agrees with `bid` on every other
media type and on every other property. -/
def VideoRemoved (bid carried : JsVal) : Prop :=
  (carried.get "mediaTypes").get "video" = .undefined ∧
  (∀ key, key ≠ "video" →
    (carried.get "mediaTypes").get key = (bid.get "mediaTypes").get key) ∧
  (∀ key, key ≠ "mediaTypes" → carried.get key = bid.get key)

end OpenX

/-! # The PubWise analytics adapter

`src/modules/pubwiseAnalyticsAdapter.js`: `handleEvent`, `flushEvents`,
`isIngestedEvent` and the two filters. -/

namespace Pubwise

open UspConsent (JsVal JsError getOrThrow)

/-- Modelled from the spec: the table `EVENTS` of `src/constants.js`, which lies
outside the translated sources.  Only the eight entries the adapter reads are
kept; each of them is a string. -/
structure Events where
  AUCTION_INIT : String
  AUCTION_END : String
  BID_REQUESTED : String
  BID_RESPONSE : String
  BID_WON : String
  BID_TIMEOUT : String
  AD_RENDER_FAILED : String
  TCF2_ENFORCEMENT : String

/-- Modelled from the spec: the values the entries of `EVENTS` have in
`src/constants.js`, which lies outside the translated sources. -/
def prebidEvents : Events :=
  { AUCTION_INIT := "auctionInit"
    AUCTION_END := "auctionEnd"
    BID_REQUESTED := "bidRequested"
    BID_RESPONSE := "bidResponse"
    BID_WON := "bidWon"
    BID_TIMEOUT := "bidTimeout"
    AD_RENDER_FAILED := "adRenderFailed"
    TCF2_ENFORCEMENT := "tcf2Enforcement" }

/-- The module-level variables `pwEvents` and `metaData`, together with the
requests handed to `ajax` so far, oldest first; a request is represented by
its `dataBag`, the object that `JSON.stringify` serialises. -/
structure State where
  pwEvents : List JsVal
  metaData : JsVal
  sent : List JsVal

def State.initial : State := { pwEvents := [], metaData := .obj [], sent := [] }

/-- The object `{metaData: metaData, eventList: pwEvents.splice(0)}`. -/
def dataBag (metaData : JsVal) (eventList : List JsVal) : JsVal :=
  .obj [("metaData", metaData), ("eventList", .arr eventList)]

/-- The function `flushEvents()`; `pwEvents.splice(0)` takes every element out
of the queue. -/
def flushEvents (st : State) : State :=
  if st.pwEvents.length > 0 then
    { st with
      pwEvents := []
      sent := st.sent ++ [dataBag st.metaData st.pwEvents] }
  else st

/-- The call `items.indexOf(v)` on a list of strings, counted from `i`:
the position of the first entry strictly equal to `v`, or `-1`. -/
def indexOfFrom (v : JsVal) : List String → Nat → Int
  | [], _ => -1
  | e :: rest, i => if Buzzoola.strictEqStr v e then (i : Int) else indexOfFrom v rest (i + 1)

def isIngestedEvent (EVENTS : Events) (eventType : JsVal) : Bool :=
  let ingested := [
    EVENTS.AUCTION_INIT,
    EVENTS.BID_REQUESTED,
    EVENTS.BID_RESPONSE,
    EVENTS.BID_WON,
    EVENTS.BID_TIMEOUT,
    EVENTS.AD_RENDER_FAILED,
    EVENTS.TCF2_ENFORCEMENT]
  indexOfFrom eventType ingested 0 != -1

/-- The test `typeof v !== 'undefined'`. -/
def isDefined : JsVal → Bool
  | .undefined => false
  | _ => true

/-- The properties `Object.assign({}, v)` copies: those of an object, none for
`null`, `undefined`, numbers and booleans (the index keys a string or an array
would contribute are not modelled). -/
def ownProperties : JsVal → List (String × JsVal)
  | .obj fields => fields
  | _ => []

/-- The statement `if (typeof modified.key !== 'undefined') modified.key = ''`. -/
def blankIfDefined (modified : List (String × JsVal)) (key : String) :
    List (String × JsVal) :=
  if isDefined (JsVal.lookupField modified key) then JsVal.setField modified key (.str "")
  else modified

def filterBidResponse (data : JsVal) : JsVal :=
  let modified := ownProperties data
  let modified := blankIfDefined modified "ad"
  let modified := blankIfDefined modified "adUrl"
  let modified := blankIfDefined modified "adserverTargeting"
  let modified := blankIfDefined modified "ts"
  let modified :=
    if isDefined (JsVal.lookupField modified "statusMessage") &&
        Buzzoola.strictEqStr (JsVal.lookupField modified "statusMessage")
          "Bid returned empty or error response" then
      JsVal.setField modified "statusMessage" (.str "eoe")
    else modified
  .obj (JsVal.setField modified "auctionEnded" (.bool false))

/-- The read `v[0]`: the first element of an array (`undefined` when it has
none), the property `0` of an object, the first character of a string;
a `TypeError` on `undefined` and `null`. -/
def first : JsVal → Except JsError JsVal
  | .arr items => .ok (items.headD .undefined)
  | .obj fields => .ok (JsVal.lookupField fields "0")
  | .str s =>
    match s.data with
    | [] => .ok .undefined
    | c :: _ => .ok (.str (String.singleton c))
  | v => getOrThrow v "0"

/-- The statement `if (typeof modified.key !== 'undefined') delete modified.key`. -/
def deleteIfDefined (modified : List (String × JsVal)) (key : String) :
    List (String × JsVal) :=
  if isDefined (JsVal.lookupField modified key) then modified.filter (fun p => p.1 != key)
  else modified

/-- The seven deletions at the end of `filterAuctionInit`. -/
def deleteInternals (modified : List (String × JsVal)) : List (String × JsVal) :=
  let modified := deleteIfDefined modified "adUnitCodes"
  let modified := deleteIfDefined modified "adUnits"
  let modified := deleteIfDefined modified "bidderRequests"
  let modified := deleteIfDefined modified "bidsReceived"
  let modified := deleteIfDefined modified "config"
  let modified := deleteIfDefined modified "noBids"
  deleteIfDefined modified "winningBids"

def filterAuctionInit (data : JsVal) : Except JsError JsVal :=
  let modified := JsVal.setField (ownProperties data) "refererInfo" (.obj [])
  let bidderRequests := JsVal.lookupField modified "bidderRequests"
  if isDefined bidderRequests then
    match first bidderRequests with
    | .error e => .error e
    | .ok firstRequest =>
      if isDefined firstRequest then
        match getOrThrow firstRequest "refererInfo" with
        | .error e => .error e
        | .ok refererInfo =>
          if isDefined refererInfo then
            match getOrThrow refererInfo "legacy" with
            | .error e => .error e
            | .ok legacy =>
              .ok (.obj (deleteInternals (JsVal.setField modified "refererInfo" legacy)))
          else .ok (.obj (deleteInternals modified))
      else .ok (.obj (deleteInternals modified))
  else .ok (.obj (deleteInternals modified))

/-- The branch of `handleEvent` that replaces `data` by its filtered copy for
`AUCTION_INIT` and `BID_RESPONSE`. -/
def filterData (EVENTS : Events) (eventType data : JsVal) : Except JsError JsVal :=
  if Buzzoola.strictEqStr eventType EVENTS.AUCTION_INIT then filterAuctionInit data
  else if Buzzoola.strictEqStr eventType EVENTS.BID_RESPONSE then .ok (filterBidResponse data)
  else .ok data

/-- The object `{eventType: eventType, args: data}` pushed onto `pwEvents`. -/
def eventEntry (eventType data : JsVal) : JsVal :=
  .obj [("eventType", eventType), ("args", data)]

/-- The method `pubwiseAnalytics.handleEvent(eventType, data)`: the state it
leaves and whether it returned or raised.  `recorded` is the object the four
`enrichWith…` functions build at this call from the configuration, the session,
the page address and local storage, none of which is part of `State`. -/
def handleEvent (EVENTS : Events) (recorded eventType data : JsVal) (st : State) :
    State × Except JsError Unit :=
  let flushIfDue (s : State) : State :=
    if Buzzoola.strictEqStr eventType EVENTS.AUCTION_END ||
        Buzzoola.strictEqStr eventType EVENTS.BID_WON then flushEvents s
    else s
  if isIngestedEvent EVENTS eventType then
    let st := { st with metaData := recorded }
    match filterData EVENTS eventType data with
    | .error e => (st, .error e)
    | .ok data =>
      (flushIfDue { st with pwEvents := st.pwEvents ++ [eventEntry eventType data] }, .ok ())
  else (flushIfDue st, .ok ())

/-- What happens to the adapter after `markEnabled`: an event is tracked, or
the interval set by `setInterval(flushEvents, 100)` fires. -/
inductive Op where
  | track (recorded eventType data : JsVal) : Op
  | interval : Op

/-- One step; an exception raised by `handleEvent` leaves the state as it was
when it was raised. -/
def step (EVENTS : Events) (st : State) : Op → State
  | .track recorded eventType data => (handleEvent EVENTS recorded eventType data st).1
  | .interval => flushEvents st

def run (EVENTS : Events) (ops : List Op) (st : State) : State :=
  ops.foldl (step EVENTS) st

/-- The claim's words for "its type is one of the seven ingested types". -/
def specIngested (EVENTS : Events) (eventType : JsVal) : Prop :=
  eventType = .str EVENTS.AUCTION_INIT ∨ eventType = .str EVENTS.BID_REQUESTED ∨
  eventType = .str EVENTS.BID_RESPONSE ∨ eventType = .str EVENTS.BID_WON ∨
  eventType = .str EVENTS.BID_TIMEOUT ∨ eventType = .str EVENTS.AD_RENDER_FAILED ∨
  eventType = .str EVENTS.TCF2_ENFORCEMENT

/-- The claim's words for "the type is AUCTION_END or BID_WON". -/
def specFlushes (EVENTS : Events) (eventType : JsVal) : Prop :=
  eventType = .str EVENTS.AUCTION_END ∨ eventType = .str EVENTS.BID_WON

/-- The shape of the data of an `AUCTION_INIT` event: `bidderRequests` is
absent or an array, its first element (if any) is an object, and the
`refererInfo` of that object is absent or an object. -/
def InitData (data : JsVal) : Prop :=
  data.get "bidderRequests" = .undefined ∨
  ∃ items, data.get "bidderRequests" = .arr items ∧
    ∀ r, items.head? = some r → ∃ fields, r = .obj fields ∧
      (JsVal.lookupField fields "refererInfo" = .undefined ∨
        ∃ info, JsVal.lookupField fields "refererInfo" = .obj info)

/-- The claim's words for the data of a queued `BID_RESPONSE` event: a copy of
the event's data in which `ad`, `adUrl`, `adserverTargeting` and `ts` are
blanked when they are defined, the status message of an empty response is
shortened to `eoe`, `auctionEnded` is `false`, and every other property is as
it was. -/
def SpecBidResponseCopy (data args : JsVal) : Prop :=
  (∀ key, key ∉ ["ad", "adUrl", "adserverTargeting", "ts", "statusMessage", "auctionEnded"] →
    args.get key = data.get key) ∧
  (∀ key ∈ ["ad", "adUrl", "adserverTargeting", "ts"],
    (data.get key = .undefined → args.get key = .undefined) ∧
    (data.get key ≠ .undefined → args.get key = .str "")) ∧
  (data.get "statusMessage" = .str "Bid returned empty or error response" →
    args.get "statusMessage" = .str "eoe") ∧
  (data.get "statusMessage" ≠ .str "Bid returned empty or error response" →
    args.get "statusMessage" = data.get "statusMessage") ∧
  args.get "auctionEnded" = .bool false

/-- The claim's words for the data of a queued `AUCTION_INIT` event: a copy of
the event's data without `adUnitCodes`, `adUnits`, `bidderRequests`,
`bidsReceived`, `config`, `noBids` and `winningBids`, whose `refererInfo` is
`refererInfo.legacy` of the first bidder request when that request has a
`refererInfo` and the empty object otherwise; every other property is as it
was. -/
def SpecAuctionInitCopy (data args : JsVal) : Prop :=
  (∀ key, key ∉ ["refererInfo", "adUnitCodes", "adUnits", "bidderRequests", "bidsReceived",
      "config", "noBids", "winningBids"] → args.get key = data.get key) ∧
  (∀ key ∈ ["adUnitCodes", "adUnits", "bidderRequests", "bidsReceived", "config", "noBids",
      "winningBids"], args.get key = .undefined) ∧
  (data.get "bidderRequests" = .undefined → args.get "refererInfo" = .obj []) ∧
  (∀ items, data.get "bidderRequests" = .arr items →
    (items.head? = none → args.get "refererInfo" = .obj []) ∧
    (∀ fields, items.head? = some (.obj fields) →
      (JsVal.lookupField fields "refererInfo" = .undefined →
        args.get "refererInfo" = .obj []) ∧
      (∀ info, JsVal.lookupField fields "refererInfo" = .obj info →
        args.get "refererInfo" = JsVal.lookupField info "legacy")))

/-- The events of the requests sent so far, oldest first. -/
def sentEvents : List JsVal → List JsVal
  | [] => []
  | bag :: rest =>
    (match bag.get "eventList" with
      | .arr events => events
      | _ => []) ++ sentEvents rest

/-- The tracked operations whose type is ingested, in arrival order. -/
def ingestedOps (EVENTS : Events) : List Op → List Op
  | [] => []
  | .track recorded eventType data :: rest =>
    if isIngestedEvent EVENTS eventType then
      .track recorded eventType data :: ingestedOps EVENTS rest
    else ingestedOps EVENTS rest
  | .interval :: rest => ingestedOps EVENTS rest

/-- The entry `entry` is the one `handleEvent` queues for the operation. -/
def EntryOf (EVENTS : Events) : Op → JsVal → Prop
  | .track _ eventType data, entry =>
    ∃ args, filterData EVENTS eventType data = .ok args ∧
      entry = .obj [("eventType", eventType), ("args", args)]
  | .interval, _ => False

/-- The operation is an interval tick or tracks an event whose data has the shape
`InitData` when its type is `AUCTION_INIT`. -/
def WellFormed (EVENTS : Events) : Op → Prop
  | .track _ eventType data => eventType = .str EVENTS.AUCTION_INIT → InitData data
  | .interval => True

end Pubwise

/-! # Proofs: the USP consent module -/

namespace UspConsent

/-! ## Basic facts about sessions and traces -/

theorem sessionAt_append_length (l : List Session) (s : Session) :
    World.sessionAt (l ++ [s]) l.length = s := by
  induction l with
  | nil => rfl
  | cons a l ih => simpa [World.sessionAt] using ih

theorem setSessionAt_append_length (l : List Session) (s s1 : Session) :
    World.setSessionAt (l ++ [s]) l.length s1 = l ++ [s1] := by
  induction l with
  | nil => rfl
  | cons a l ih => simp [World.setSessionAt, ih]

theorem sessionAt_setSessionAt (l : List Session) (i : Nat) (s : Session) (h : i < l.length) :
    World.sessionAt (World.setSessionAt l i s) i = s := by
  induction l generalizing i with
  | nil => simp at h
  | cons a l ih =>
    cases i with
    | zero => rfl
    | succ i => simpa [World.setSessionAt, World.sessionAt] using ih i (by simpa using h)

theorem length_setSessionAt (l : List Session) (i : Nat) (s : Session) :
    (World.setSessionAt l i s).length = l.length := by
  induction l generalizing i with
  | nil => rfl
  | cons a l ih => cases i <;> simp [World.setSessionAt, ih]

theorem session_setSession (w : World) (sid : Nat) (s : Session) (h : sid < w.sessions.length) :
    (w.setSession sid s).session sid = s := by
  simp [World.setSession, World.session, sessionAt_setSessionAt _ _ _ h]

theorem cbCalls_append (sid : Nat) (a b : List Event) :
    cbCalls sid (a ++ b) = cbCalls sid a ++ cbCalls sid b := by
  induction a with
  | nil => rfl
  | cons e a ih =>
    cases e <;> simp [cbCalls, ih]
    split <;> simp

theorem timersStarted_append (sid : Nat) (a b : List Event) :
    timersStarted sid (a ++ b) = timersStarted sid a ++ timersStarted sid b := by
  induction a with
  | nil => rfl
  | cons e a ih =>
    cases e <;> simp [timersStarted, ih]
    split <;> simp

theorem doneCalls_append (sid : Nat) (a b : List Event) :
    doneCalls sid (a ++ b) = doneCalls sid a ++ doneCalls sid b := by
  induction a with
  | nil => rfl
  | cons e a ih =>
    cases e <;> simp [doneCalls, ih]
    split <;> simp

theorem eventsSince_append (w w1 : World) (evs : List Event) (h : w1.trace = w.trace ++ evs) :
    eventsSince w w1 = evs := by
  simp [eventsSince, h]

/-! ## What `done` does -/

/-- Normal form of `done` on an existing session. -/
theorem done_eq (sid : Nat) (v e : JsVal) (x : List JsVal) (w : World)
    (h : sid < w.sessions.length) :
    done sid v e x w = { w with
      trace := w.trace ++ doneEvents sid (w.session sid) v e x
      timers := match (w.session sid).timer with
        | some tid => w.timers.filter (fun t => t.id != tid)
        | none => w.timers
      sessions := World.setSessionAt w.sessions sid { w.session sid with isDone := true }
      uspDataHandler := w.uspDataHandler.setConsentData v } := by
  cases hs : w.session sid with
  | mk cb timer isDone uspResponse =>
    have h1 : World.sessionAt w.sessions sid = ⟨cb, timer, isDone, uspResponse⟩ := hs
    cases timer <;> cases cb with
    | none =>
      simp [done, doneEvents, World.emit, World.session, World.setSession, h1, clearTimeout,
        sessionAt_setSessionAt _ _ _ h]
    | some c =>
      cases c <;>
      simp [done, doneEvents, World.emit, World.session, World.setSession, h1, clearTimeout,
        sessionAt_setSessionAt _ _ _ h, invokeCb]
      all_goals split <;> simp


theorem cbCalls_doneEvents (sid : Nat) (s : Session) (cb : Callback) (v e : JsVal)
    (x : List JsVal) (h : s.cb = some cb) :
    cbCalls sid (doneEvents sid s v e x) = [(e, x)] := by
  cases hs : s.timer <;> cases cb <;> simp [doneEvents, h, hs, cbCalls]
  all_goals split <;> simp [cbCalls]

theorem timersStarted_doneEvents (sid : Nat) (s : Session) (v e : JsVal) (x : List JsVal) :
    timersStarted sid (doneEvents sid s v e x) = [] := by
  cases hs : s.timer <;> cases hc : s.cb with
  | none => simp [doneEvents, hc, hs, timersStarted]
  | some c =>
    cases c <;> simp [doneEvents, hc, hs, timersStarted]
    all_goals split <;> simp [timersStarted]

theorem doneCalls_doneEvents (sid : Nat) (s : Session) (v e : JsVal) (x : List JsVal) :
    doneCalls sid (doneEvents sid s v e x) = [(v, e, x)] := by
  cases hs : s.timer <;> cases hc : s.cb with
  | none => simp [doneEvents, hc, hs, doneCalls]
  | some c =>
    cases c <;> simp [doneEvents, hc, hs, doneCalls]
    all_goals split <;> simp [doneCalls]

theorem done_trace (sid : Nat) (v e : JsVal) (x : List JsVal) (w : World)
    (h : sid < w.sessions.length) :
    (done sid v e x w).trace = w.trace ++ doneEvents sid (w.session sid) v e x := by
  rw [done_eq sid v e x w h]

theorem done_store (sid : Nat) (v e : JsVal) (x : List JsVal) (w : World)
    (h : sid < w.sessions.length) :
    (done sid v e x w).uspDataHandler.getConsentData = v := by
  rw [done_eq sid v e x w h]; rfl

theorem done_session (sid : Nat) (v e : JsVal) (x : List JsVal) (w : World)
    (h : sid < w.sessions.length) :
    (done sid v e x w).session sid = { w.session sid with isDone := true } := by
  rw [done_eq sid v e x w h]
  simp [World.session, sessionAt_setSessionAt _ _ _ h]

theorem done_length (sid : Nat) (v e : JsVal) (x : List JsVal) (w : World)
    (h : sid < w.sessions.length) :
    (done sid v e x w).sessions.length = w.sessions.length := by
  rw [done_eq sid v e x w h]
  simp [length_setSessionAt]

theorem done_timers (sid : Nat) (v e : JsVal) (x : List JsVal) (w : World)
    (h : sid < w.sessions.length) :
    (done sid v e x w).timers = match (w.session sid).timer with
      | some tid => w.timers.filter (fun t => t.id != tid)
      | none => w.timers := by
  rw [done_eq sid v e x w h]

theorem find_filter_ne (l : List Timer) (tid : Nat) :
    (l.filter (fun t => t.id != tid)).find? (fun t => t.id == tid) = none := by
  rw [List.find?_eq_none]
  intro t ht
  simp only [List.mem_filter] at ht
  simpa using ht.2

/-! ## What a CMP response does -/

theorem lookupField_setField (fields : List (String × JsVal)) (key : String) (v : JsVal) :
    JsVal.lookupField (JsVal.setField fields key v) key = v := by
  induction fields with
  | nil => simp [JsVal.setField, JsVal.lookupField]
  | cons a l ih =>
    obtain ⟨k, x⟩ := a
    by_cases h : k = key
    · simp [JsVal.setField, JsVal.lookupField, h]
    · simp [JsVal.setField, JsVal.lookupField, h, ih]

theorem truthy_of_get_truthy (v : JsVal) (key : String) (h : (v.get key).truthy = true) :
    v.truthy = true := by
  cases v <;> simp_all [JsVal.get, JsVal.truthy]

theorem Frame.refl (sid : Nat) (w : World) : Frame sid w w :=
  ⟨rfl, rfl, rfl, rfl, rfl, rfl, rfl, id⟩

theorem processUspData_callbacks (sid : Nat) (consentObject : JsVal) (w : World) :
    processUspData consentObject (callbacks sid) w =
      if consentObject.truthy && (consentObject.get "usPrivacy").truthy then
        done sid (consentObject.get "usPrivacy") .undefined []
          { w with consentData := consentObject.get "usPrivacy" }
      else
        done sid .null (.str ("USPAPI returned unexpected value during lookup process." ++
          " Resuming auction without consent data as per consentManagement config."))
          [consentObject] w := by
  by_cases h : (consentObject.truthy && (consentObject.get "usPrivacy").truthy) = true
  · simp [processUspData, validConsent, callbacks, storeUspConsentData, h]
  · simp [processUspData, validConsent, callbacks, storeUspConsentData, h]

theorem afterEach_done (sid : Nat) (w : World) :
    ∃ w0 v e x, afterEach sid (callbacks sid) w = done sid v e x w0 ∧ Frame sid w w0 := by
  by_cases h : (((w.session sid).uspResponse).get "usPrivacy").truthy = true
  · have h1 := truthy_of_get_truthy _ _ h
    refine ⟨{ w with consentData := ((w.session sid).uspResponse).get "usPrivacy" },
      ((w.session sid).uspResponse).get "usPrivacy", .undefined, [], ?_,
      ⟨rfl, rfl, rfl, rfl, rfl, rfl, rfl, id⟩⟩
    simp [afterEach, h, processUspData_callbacks, h1]
  · refine ⟨w, .null, .str ("Unable to get USP consent string." ++
      " Resuming auction without consent data as per consentManagement config."), [], ?_,
      Frame.refl sid w⟩
    simp [afterEach, h, callbacks]

/-- A CMP response either raises (truthy `success` with a `null` or `undefined`
response) and changes nothing, or runs `done` exactly once. -/
theorem consentDataCallback_done (sid : Nat) (r s : JsVal) (w : World)
    (h : sid < w.sessions.length) :
    (s.truthy = true ∧ r.isNullish = true ∧
      ∃ err, consentDataCallback sid (callbacks sid) r s w = .error err) ∨
    (¬ (s.truthy = true ∧ r.isNullish = true) ∧
      ∃ w0 v e x, consentDataCallback sid (callbacks sid) r s w = .ok (done sid v e x w0) ∧
        Frame sid w w0) := by
  by_cases hs : s.truthy = true
  · by_cases hr : r.isNullish = true
    · left
      exact ⟨hs, hr, .typeError ("Cannot read properties of " ++ r.toStr),
        by simp [consentDataCallback, hs, getOrThrow, hr]⟩
    · right
      refine ⟨fun hh => hr hh.2, ?_⟩
      by_cases hu : (r.get "uspString").truthy = true
      · obtain ⟨w0, v, e, x, h1, h2⟩ := afterEach_done sid
          (w.setSession sid { w.session sid with uspResponse :=
            match (w.session sid).uspResponse with
            | .obj fields => JsVal.obj (JsVal.setField fields "usPrivacy" (r.get "uspString"))
            | other => other })
        refine ⟨w0, v, e, x, ?_, ?_⟩
        · simp [consentDataCallback, hs, getOrThrow, hr, hu, h1]
        · have hf : Frame sid w (w.setSession sid { w.session sid with uspResponse :=
              match (w.session sid).uspResponse with
              | .obj fields => JsVal.obj (JsVal.setField fields "usPrivacy" (r.get "uspString"))
              | other => other }) := by
            refine ⟨rfl, rfl, rfl, ?_, ?_, ?_, ?_, ?_⟩
            · simp [World.setSession, length_setSessionAt]
            · rw [session_setSession _ _ _ h]
            · rw [session_setSession _ _ _ h]
            · rw [session_setSession _ _ _ h]
            · rintro ⟨f, hf⟩
              rw [session_setSession _ _ _ h, hf]
              exact ⟨_, rfl⟩
          exact ⟨h2.trace.trans hf.trace, h2.timers.trans hf.timers,
            h2.nextTimer.trans hf.nextTimer, h2.length.trans hf.length, h2.cb.trans hf.cb,
            h2.timer.trans hf.timer, h2.isDone.trans hf.isDone, fun hh => h2.resp (hf.resp hh)⟩
      · obtain ⟨w0, v, e, x, h1, h2⟩ := afterEach_done sid w
        exact ⟨w0, v, e, x, by simp [consentDataCallback, hs, getOrThrow, hr, hu, h1], h2⟩
  · right
    refine ⟨fun hh => hs hh.1, ?_⟩
    obtain ⟨w0, v, e, x, h1, h2⟩ := afterEach_done sid w
    exact ⟨w0, v, e, x, by simp [consentDataCallback, hs, h1], h2⟩

/-- A CMP response with a truthy `success` and a non-empty `uspString` runs
`done` with that string and no error. -/
theorem consentDataCallback_success (sid : Nat) (fields f : List (String × JsVal)) (u : String)
    (success : JsVal) (w : World) (h : sid < w.sessions.length)
    (hresp : (w.session sid).uspResponse = .obj f)
    (hu : JsVal.lookupField fields "uspString" = .str u) (hne : u ≠ "")
    (hs : success.truthy = true) :
    consentDataCallback sid (callbacks sid) (.obj fields) success w =
      .ok (done sid (.str u) .undefined []
        { w.setSession sid { w.session sid with
            uspResponse := .obj (JsVal.setField f "usPrivacy" (.str u)) } with
          consentData := .str u }) := by
  have hlt : sid < (w.setSession sid { w.session sid with
      uspResponse := .obj (JsVal.setField f "usPrivacy" (.str u)) }).sessions.length := by
    simpa [World.setSession, length_setSessionAt] using h
  have hr : (w.setSession sid { w.session sid with
      uspResponse := .obj (JsVal.setField f "usPrivacy" (.str u)) }).session sid =
      { w.session sid with uspResponse := .obj (JsVal.setField f "usPrivacy" (.str u)) } :=
    session_setSession _ _ _ h
  have hut : (JsVal.str u).truthy = true := by simp [JsVal.truthy, hne]
  have hgu : (JsVal.obj fields).get "uspString" = .str u := hu
  have hg : (JsVal.obj (JsVal.setField f "usPrivacy" (.str u))).get "usPrivacy" = .str u :=
    lookupField_setField f "usPrivacy" (.str u)
  have hot : (JsVal.obj (JsVal.setField f "usPrivacy" (.str u))).truthy = true := rfl
  simp [consentDataCallback, hs, getOrThrow, JsVal.isNullish, hgu, hut, hresp, afterEach, hr,
    hg, hot, processUspData_callbacks]

/-! ## Sessions that wait for the CMP and the timer -/

theorem done_awaiting (sid tid : Nat) (cb : Option Callback) (v e : JsVal) (x : List JsVal)
    (w : World) (hlt : sid < w.sessions.length) (hcb : (w.session sid).cb = cb)
    (htimer : (w.session sid).timer = some tid)
    (hresp : ∃ f, (w.session sid).uspResponse = .obj f) :
    Awaiting sid tid cb false (done sid v e x w) := by
  refine ⟨?_, ?_, ?_, ?_, ?_, ?_, ?_⟩
  · rw [done_length _ _ _ _ _ hlt]; exact hlt
  · rw [done_session _ _ _ _ _ hlt]; exact hcb
  · rw [done_session _ _ _ _ _ hlt]; exact htimer
  · rw [done_session _ _ _ _ _ hlt]; rfl
  · intro h; cases h
  · intro _
    rw [done_timers _ _ _ _ _ hlt, htimer]
    exact find_filter_ne _ _
  · rw [done_session _ _ _ _ _ hlt]; exact hresp

theorem fireTimer_pending (sid tid : Nat) (cb : Option Callback) (w : World)
    (inv : Awaiting sid tid cb true w) :
    fireTimer tid w = done sid .null
      (.str ("USPAPI workflow exceeded timeout threshold." ++
        " Resuming auction without consent data as per consentManagement config.")) []
      { w with timers := w.timers.filter (fun t => t.id != tid) } := by
  obtain ⟨t, ht, hsid⟩ := inv.queued rfl
  simp [fireTimer, ht, callbacks, hsid]

theorem fireTimer_cleared (sid tid : Nat) (cb : Option Callback) (w : World)
    (inv : Awaiting sid tid cb false w) : fireTimer tid w = w := by
  simp [fireTimer, inv.cleared rfl]

theorem deliver_timer_cleared (sid tid : Nat) (cb : Option Callback) (w : World)
    (inv : Awaiting sid tid cb false w) : deliver sid .timerExpiry w = w := by
  simp only [deliver, inv.timer]
  exact fireTimer_cleared sid tid cb w inv

/-- One signal: the session keeps waiting or is done afterwards, and `cb` has
been invoked `callsOf` more times. -/
theorem deliver_awaiting (sid tid : Nat) (cb : Callback) (pending : Bool) (sig : Signal)
    (w : World) (inv : Awaiting sid tid (some cb) pending w) :
    Awaiting sid tid (some cb) (pendingAfter pending sig) (deliver sid sig w) ∧
    ∃ evs, (deliver sid sig w).trace = w.trace ++ evs ∧
      (cbCalls sid evs).length = callsOf pending sig := by
  cases sig with
  | timerExpiry =>
    cases pending with
    | true =>
      have hf := fireTimer_pending sid tid (some cb) w inv
      have hlt : sid < ({ w with timers := w.timers.filter (fun t => t.id != tid) } : World).sessions.length :=
        inv.lt
      simp only [deliver, inv.timer, hf, pendingAfter, callsOf, if_true]
      refine ⟨done_awaiting sid tid (some cb) _ _ _ _ hlt inv.cb inv.timer inv.resp, _,
        done_trace _ _ _ _ _ hlt, ?_⟩
      exact congrArg List.length (cbCalls_doneEvents _ _ cb _ _ _ inv.cb)
    | false =>
      have hf := fireTimer_cleared sid tid (some cb) w inv
      simp only [deliver, inv.timer, hf, pendingAfter, callsOf]
      exact ⟨inv, [], by simp, rfl⟩
  | cmpResponse r s =>
    rcases consentDataCallback_done sid r s w inv.lt with ⟨hs, hr, err, herr⟩ | ⟨hno, w0, v, e, x, hok, hfr⟩
    · simp only [deliver, herr, pendingAfter, callsOf, hs, hr, Bool.and_self, if_true]
      exact ⟨inv, [], by simp, rfl⟩
    · have hc : (s.truthy && r.isNullish) = false := by
        cases h1 : s.truthy <;> cases h2 : r.isNullish <;> simp_all
      have hlt : sid < w0.sessions.length := by rw [hfr.length]; exact inv.lt
      have hcb : (w0.session sid).cb = some cb := by rw [hfr.cb]; exact inv.cb
      have htm : (w0.session sid).timer = some tid := by rw [hfr.timer]; exact inv.timer
      simp only [deliver, hok, pendingAfter, callsOf, hc]
      refine ⟨done_awaiting sid tid (some cb) _ _ _ _ hlt hcb htm (hfr.resp inv.resp), _,
        (done_trace _ _ _ _ _ hlt).trans (by rw [hfr.trace]), ?_⟩
      exact congrArg List.length (cbCalls_doneEvents _ _ cb _ _ _ hcb)

/-- Any sequence of signals. -/
theorem deliverAll_awaiting (sid tid : Nat) (cb : Callback) (sigs : List Signal) :
    ∀ (pending : Bool) (w : World), Awaiting sid tid (some cb) pending w →
      (∃ p, Awaiting sid tid (some cb) p (deliverAll sid sigs w)) ∧
      ∃ evs, (deliverAll sid sigs w).trace = w.trace ++ evs ∧
        (cbCalls sid evs).length = expectedCalls pending sigs := by
  induction sigs with
  | nil => intro pending w inv; exact ⟨⟨pending, inv⟩, [], by simp [deliverAll], rfl⟩
  | cons sig rest ih =>
    intro pending w inv
    obtain ⟨h1, evs1, ht1, hc1⟩ := deliver_awaiting sid tid cb pending sig w inv
    obtain ⟨h3, evs2, ht2, hc2⟩ := ih _ _ h1
    refine ⟨h3, evs1 ++ evs2, ?_, ?_⟩
    · simp only [deliverAll, ht2, ht1, List.append_assoc]
    · simp only [cbCalls_append, List.length_append, expectedCalls, hc1, hc2]

/-- A CMP success with a non-empty `uspString`, delivered to a session that
waits or is already done: `done` runs with that string and no error, cancels
the timer, writes the store and invokes `cb`. -/
theorem deliver_success (sid tid : Nat) (cb : Callback) (p : Bool) (w : World)
    (inv : Awaiting sid tid (some cb) p w) (fields : List (String × JsVal)) (u : String)
    (success : JsVal) (hu : JsVal.lookupField fields "uspString" = .str u) (hne : u ≠ "")
    (hs : success.truthy = true) :
    Awaiting sid tid (some cb) false (deliver sid (.cmpResponse (.obj fields) success) w) ∧
    (deliver sid (.cmpResponse (.obj fields) success) w).uspDataHandler.getConsentData = .str u ∧
    ∃ evs, (deliver sid (.cmpResponse (.obj fields) success) w).trace = w.trace ++ evs ∧
      cbCalls sid evs = [(.undefined, [])] ∧
      doneCalls sid evs = [(.str u, .undefined, [])] ∧
      timersStarted sid evs = [] := by
  obtain ⟨f, hf⟩ := inv.resp
  have hsess : (w.setSession sid { w.session sid with
      uspResponse := .obj (JsVal.setField f "usPrivacy" (.str u)) }).session sid =
      { w.session sid with uspResponse := .obj (JsVal.setField f "usPrivacy" (.str u)) } :=
    session_setSession _ _ _ inv.lt
  generalize hw0 : ({ w.setSession sid { w.session sid with
      uspResponse := .obj (JsVal.setField f "usPrivacy" (.str u)) } with
      consentData := .str u } : World) = w0
  have hlt : sid < w0.sessions.length := by
    rw [← hw0]
    simpa [World.setSession, length_setSessionAt] using inv.lt
  have hs0 : w0.session sid =
      { w.session sid with uspResponse := .obj (JsVal.setField f "usPrivacy" (.str u)) } := by
    rw [← hw0]; exact hsess
  have htr0 : w0.trace = w.trace := by rw [← hw0]; rfl
  have hcb : (w0.session sid).cb = some cb := by rw [hs0]; exact inv.cb
  have htm : (w0.session sid).timer = some tid := by rw [hs0]; exact inv.timer
  have hd : deliver sid (.cmpResponse (.obj fields) success) w =
      done sid (.str u) .undefined [] w0 := by
    simp only [deliver, consentDataCallback_success sid fields f u success w inv.lt hf hu hne hs,
      hw0]
  have htr : (done sid (.str u) .undefined [] w0).trace =
      w.trace ++ doneEvents sid (w0.session sid) (.str u) .undefined [] := by
    rw [done_trace _ _ _ _ _ hlt, htr0]
  rw [hd]
  exact ⟨done_awaiting sid tid (some cb) _ _ _ _ hlt hcb htm ⟨_, by rw [hs0]⟩,
    done_store _ _ _ _ _ hlt, _, htr, cbCalls_doneEvents _ _ cb _ _ _ hcb,
    doneCalls_doneEvents _ _ _ _ _, timersStarted_doneEvents _ _ _ _ _⟩

/-- The state `loadConsentData` returns for the `iab` strategy, a CMP that does
not answer during the call and a non-zero timeout. -/
theorem loadConsentData_iab_pending (w : World) (cb : Option Callback) (c : Cmp) (t : Int)
    (hapi : w.consentAPI = .str "iab") (hcmp : w.cmp = some c) (hsync : c.syncResponses = [])
    (ht : w.consentTimeout = .num t) (h0 : t ≠ 0) :
    loadConsentData cb w = .ok { w with
      sessions := w.sessions ++ [⟨cb, some w.nextTimer, false, .obj []⟩]
      timers := w.timers ++ [⟨w.nextTimer, w.sessions.length, .num t⟩]
      nextTimer := w.nextTimer + 1
      trace := w.trace ++ [.strategyCall w.sessions.length "iab",
        .cmpCommand w.sessions.length "getUSPData",
        .cmpCommand w.sessions.length "registerDeletion",
        .setTimeout w.nextTimer w.sessions.length (.num t)] } := by
  have hz : isZero (.num t) = false := by
    cases t with
    | ofNat n => cases n with
      | zero => exact absurd rfl h0
      | succ n => rfl
    | negSucc n => rfl
  simp [loadConsentData, hapi, JsVal.toStr, uspCallMap, callStrategy, lookupUspConsent,
    World.emit, World.setSession, World.session, hcmp, hsync, deliverSync, afterStrategy,
    sessionAt_append_length, setSessionAt_append_length, ht, hz, setTimeout]

theorem find_append_fresh (l : List Timer) (t : Timer) (h : ∀ x ∈ l, x.id < t.id) :
    (l ++ [t]).find? (fun x => x.id == t.id) = some t := by
  induction l with
  | nil => simp [List.find?]
  | cons a l ih =>
    have ha : (a.id == t.id) = false := by
      simpa using Nat.ne_of_lt (h a (List.mem_cons_self _ _))
    have h1 := ih (fun x hx => h x (List.mem_cons_of_mem _ hx))
    rw [List.cons_append, List.find?_cons, ha]
    exact h1

theorem loadConsentData_iab_awaiting (w : World) (cb : Option Callback) (c : Cmp) (t : Int)
    (hwf : w.WF) (hapi : w.consentAPI = .str "iab") (hcmp : w.cmp = some c)
    (hsync : c.syncResponses = []) (ht : w.consentTimeout = .num t) (h0 : t ≠ 0) :
    ∃ w1, loadConsentData cb w = .ok w1 ∧
      Awaiting w.sessions.length w.nextTimer cb true w1 ∧
      w1.trace = w.trace ++ [.strategyCall w.sessions.length "iab",
        .cmpCommand w.sessions.length "getUSPData",
        .cmpCommand w.sessions.length "registerDeletion",
        .setTimeout w.nextTimer w.sessions.length (.num t)] := by
  refine ⟨_, loadConsentData_iab_pending w cb c t hapi hcmp hsync ht h0, ?_, rfl⟩
  refine ⟨?_, ?_, ?_, ?_, ?_, ?_, ?_⟩
  · simp
  · simp [World.session, sessionAt_append_length]
  · simp [World.session, sessionAt_append_length]
  · simp [World.session, sessionAt_append_length]
  · intro _
    exact ⟨⟨w.nextTimer, w.sessions.length, .num t⟩,
      find_append_fresh w.timers ⟨w.nextTimer, w.sessions.length, .num t⟩ hwf, rfl⟩
  · intro h; cases h
  · exact ⟨[], by simp [World.session, sessionAt_append_length]⟩

/-! ## The claims -/

/-- C1, counterexample: with the `iab` strategy and the default timeout of 50 the
timer expires first and the CMP then answers with success; `cb` is invoked
twice, once with the timeout message and once with no error. -/
theorem cb_invoked_twice_when_cmp_answers_late :
    (loadConsentData (some .probe) (World.init (some ⟨true, []⟩))).toOption.map
      (fun w1 => cbCalls 0 (deliverAll 0
        [.timerExpiry, .cmpResponse (.obj [("uspString", .str "1YNY")]) (.bool true)] w1).trace) =
    some [(.str ("USPAPI workflow exceeded timeout threshold." ++
            " Resuming auction without consent data as per consentManagement config."), []),
          (.undefined, [])] := by
  rfl

theorem expectedCalls_expiries (n : Nat) :
    expectedCalls false (List.replicate n .timerExpiry) = 0 := by
  induction n with
  | zero => rfl
  | succ n ih => simpa [List.replicate, expectedCalls, callsOf, pendingAfter] using ih

/-- C1, as amended: for the `iab` strategy with a timeout `t > 0` and a CMP that
does not answer during the call, `loadConsentData` returns without invoking
`cb`.  Afterwards `cb` is invoked exactly once when the timer expires and the
CMP never answers, and exactly once when the CMP answers once, without
raising, before the timer expires: the cancelled timer's expiry is dropped.  In
general, after any sequence of signals, `cb` has been invoked once for the
timer expiry if that came before every CMP response, plus once for every CMP
response whose handling does not raise, be it the first or a repeated one,
before or after the timeout. -/
theorem loadConsentData_cb_count (w : World) (cb : Callback) (c : Cmp) (t : Int)
    (hwf : w.WF) (hapi : w.consentAPI = .str "iab")
    (hcmp : w.cmp = some c) (hsync : c.syncResponses = [])
    (ht : w.consentTimeout = .num t) (h0 : 0 < t) :
    ∃ w1, loadConsentData (some cb) w = .ok w1 ∧
      cbCalls w.sessions.length (eventsSince w w1) = [] ∧
      (∀ sigs, (cbCalls w.sessions.length
        (eventsSince w (deliverAll w.sessions.length sigs w1))).length =
          expectedCalls true sigs) ∧
      (∀ n, expectedCalls true (List.replicate (n + 1) .timerExpiry) = 1) ∧
      (∀ n consentResponse success, (success.truthy && consentResponse.isNullish) = false →
        expectedCalls true
          (.cmpResponse consentResponse success :: List.replicate n .timerExpiry) = 1) := by
  obtain ⟨w1, h1, inv, htr⟩ :=
    loadConsentData_iab_awaiting w (some cb) c t hwf hapi hcmp hsync ht (Int.ne_of_gt h0)
  refine ⟨w1, h1, ?_, ?_, ?_, ?_⟩
  · rw [eventsSince_append w w1 _ htr]
    simp [cbCalls]
  · intro sigs
    obtain ⟨_, evs, hev, hcount⟩ :=
      deliverAll_awaiting w.sessions.length w.nextTimer cb sigs true w1 inv
    have hfull : (deliverAll w.sessions.length sigs w1).trace = w.trace ++
        ([.strategyCall w.sessions.length "iab", .cmpCommand w.sessions.length "getUSPData",
          .cmpCommand w.sessions.length "registerDeletion",
          .setTimeout w.nextTimer w.sessions.length (.num t)] ++ evs) := by
      rw [hev, htr, List.append_assoc]
    rw [eventsSince_append w _ _ hfull, cbCalls_append, List.length_append, hcount]
    simp [cbCalls]
  · intro n
    simp [List.replicate, expectedCalls, callsOf, pendingAfter, expectedCalls_expiries]
  · intro n r s hrs
    simp [expectedCalls, callsOf, pendingAfter, hrs, expectedCalls_expiries]

theorem init_WF (cmp : Option Cmp) : (World.init cmp).WF := by
  intro t ht
  simp [World.init] at ht

/-- C1, witness: one CMP success followed by a timer expiry gives one `cb` call. -/
theorem loadConsentData_cb_count_witness :
    ∃ w1, loadConsentData (some .probe) (World.init (some ⟨true, []⟩)) = .ok w1 ∧
      (cbCalls 0 (eventsSince (World.init (some ⟨true, []⟩)) (deliverAll 0
        [.cmpResponse (.obj [("uspString", .str "1YNY")]) (.bool true), .timerExpiry] w1))).length =
        1 := by
  obtain ⟨w1, h1, _, h2, _, _⟩ :=
    loadConsentData_cb_count (World.init (some ⟨true, []⟩)) .probe ⟨true, []⟩ 50
      (init_WF _) rfl rfl rfl rfl (by decide)
  exact ⟨w1, h1, h2 [.cmpResponse (.obj [("uspString", .str "1YNY")]) (.bool true), .timerExpiry]⟩

/-- C2, counterexample: the timer expires, which resolves the session with the
store set to `null`; the CMP's success then arrives, `done` runs a second time
and the store holds the late string. -/
theorem late_cmp_success_overwrites_store :
    (loadConsentData (some .probe) (World.init (some ⟨true, []⟩))).toOption.map
      (fun w1 =>
        (((deliver 0 .timerExpiry w1).session 0).isDone,
         (deliver 0 .timerExpiry w1).uspDataHandler.getConsentData,
         (deliverAll 0 [.timerExpiry,
            .cmpResponse (.obj [("uspString", .str "1YNY")]) (.bool true)]
            w1).uspDataHandler.getConsentData,
         doneCalls 0 (deliverAll 0 [.timerExpiry,
            .cmpResponse (.obj [("uspString", .str "1YNY")]) (.bool true)] w1).trace)) =
    some (true, .null, .str "1YNY",
      [(.null, .str ("USPAPI workflow exceeded timeout threshold." ++
          " Resuming auction without consent data as per consentManagement config."), []),
       (.str "1YNY", .undefined, [])]) := by
  rfl

/-- C2, as amended: once a lookup session of `loadConsentData` has resolved, a
later expiry of its timer is dropped, because `done` has cancelled the timer:
the world stays as it is.  A CMP response is not dropped: after any earlier
signals, resolved or not, a success with a non-empty `uspString` runs the
completion path again, writes that string to the consent store and invokes
`cb` with no error. -/
theorem resolved_session_drops_timer_only (w : World) (cb : Callback) (c : Cmp) (t : Int)
    (sigs : List Signal) (hwf : w.WF) (hapi : w.consentAPI = .str "iab")
    (hcmp : w.cmp = some c) (hsync : c.syncResponses = [])
    (ht : w.consentTimeout = .num t) (h0 : 0 < t) :
    ∃ w1, loadConsentData (some cb) w = .ok w1 ∧
      (((deliverAll w.sessions.length sigs w1).session w.sessions.length).isDone = true →
        deliver w.sessions.length .timerExpiry (deliverAll w.sessions.length sigs w1) =
          deliverAll w.sessions.length sigs w1) ∧
      ∀ (fields : List (String × JsVal)) (u : String) (success : JsVal),
        JsVal.lookupField fields "uspString" = .str u → u ≠ "" → success.truthy = true →
        (deliver w.sessions.length (.cmpResponse (.obj fields) success)
          (deliverAll w.sessions.length sigs w1)).uspDataHandler.getConsentData = .str u ∧
        cbCalls w.sessions.length (eventsSince (deliverAll w.sessions.length sigs w1)
          (deliver w.sessions.length (.cmpResponse (.obj fields) success)
            (deliverAll w.sessions.length sigs w1))) = [(.undefined, [])] := by
  obtain ⟨w1, h1, inv, _⟩ :=
    loadConsentData_iab_awaiting w (some cb) c t hwf hapi hcmp hsync ht (Int.ne_of_gt h0)
  obtain ⟨⟨p, inv2⟩, _⟩ := deliverAll_awaiting w.sessions.length w.nextTimer cb sigs true w1 inv
  refine ⟨w1, h1, ?_, ?_⟩
  · intro hdone
    have hp : p = false := by
      have h := inv2.isDone
      rw [hdone] at h
      cases p
      · rfl
      · exact absurd h (by decide)
    subst hp
    exact deliver_timer_cleared _ _ _ _ inv2
  · intro fields u success hu hne hs
    obtain ⟨_, h2, evs, h3, h4, _, _⟩ :=
      deliver_success _ _ cb p _ inv2 fields u success hu hne hs
    exact ⟨h2, by rw [eventsSince_append _ _ _ h3, h4]⟩

/-- C2, witness: the session is resolved by the timer; a second expiry changes
nothing, a late CMP success rewrites the store. -/
theorem resolved_session_drops_timer_only_witness :
    ∃ w1, loadConsentData (some .probe) (World.init (some ⟨true, []⟩)) = .ok w1 ∧
      (((deliverAll 0 [.timerExpiry] w1).session 0).isDone = true →
        deliver 0 .timerExpiry (deliverAll 0 [.timerExpiry] w1) =
          deliverAll 0 [.timerExpiry] w1) ∧
      ∀ (fields : List (String × JsVal)) (u : String) (success : JsVal),
        JsVal.lookupField fields "uspString" = .str u → u ≠ "" → success.truthy = true →
        (deliver 0 (.cmpResponse (.obj fields) success)
          (deliverAll 0 [.timerExpiry] w1)).uspDataHandler.getConsentData = .str u ∧
        cbCalls 0 (eventsSince (deliverAll 0 [.timerExpiry] w1)
          (deliver 0 (.cmpResponse (.obj fields) success)
            (deliverAll 0 [.timerExpiry] w1))) = [(.undefined, [])] :=
  resolved_session_drops_timer_only (World.init (some ⟨true, []⟩)) .probe ⟨true, []⟩ 50
    [.timerExpiry] (init_WF _) rfl rfl rfl rfl (by decide)

theorem strategyCalls_append (sid : Nat) (a b : List Event) :
    strategyCalls sid (a ++ b) = strategyCalls sid a ++ strategyCalls sid b := by
  induction a with
  | nil => rfl
  | cons e a ih =>
    cases e <;> simp [strategyCalls, ih]
    split <;> simp

theorem strategyCalls_doneEvents (sid : Nat) (s : Session) (v e : JsVal) (x : List JsVal) :
    strategyCalls sid (doneEvents sid s v e x) = [] := by
  cases hs : s.timer <;> cases hc : s.cb with
  | none => simp [doneEvents, hc, hs, strategyCalls]
  | some c =>
    cases c <;> simp [doneEvents, hc, hs, strategyCalls]
    all_goals split <;> simp [strategyCalls]

/-- The unsupported-framework branch of `loadConsentData`: taken exactly when
the read `uspCallMap[consentAPI]` yields `undefined`. -/
theorem loadConsentData_unsupported (w : World) (cb : Callback)
    (h : uspCallMap w.consentAPI.toStr = none) :
    ∃ w1, loadConsentData (some cb) w = .ok w1 ∧
      cbCalls w.sessions.length (eventsSince w w1) =
        [(.str ("USP framework (" ++ w.consentAPI.toStr ++
          ") is not a supported framework. Aborting consentManagement module and resuming auction."),
          [])] ∧
      w1.uspDataHandler.getConsentData = .null ∧
      strategyCalls w.sessions.length (eventsSince w w1) = [] ∧
      timersStarted w.sessions.length (eventsSince w w1) = [] ∧
      w1.timers = w.timers := by
  generalize hw0 : ({ w with sessions := w.sessions ++
    [{ cb := some cb, timer := none, isDone := false, uspResponse := .obj [] }] } : World) = w0
  have hlt : w.sessions.length < w0.sessions.length := by rw [← hw0]; simp
  have hs0 : w0.session w.sessions.length = ⟨some cb, none, false, .obj []⟩ := by
    rw [← hw0]; exact sessionAt_append_length _ _
  have htr0 : w0.trace = w.trace := by rw [← hw0]
  refine ⟨done w.sessions.length .null (.str ("USP framework (" ++ w.consentAPI.toStr ++
      ") is not a supported framework. Aborting consentManagement module and resuming auction."))
      [] w0, by simp only [loadConsentData, h, hw0], ?_, done_store _ _ _ _ _ hlt, ?_, ?_, ?_⟩
  · rw [eventsSince_append w _ _ ((done_trace _ _ _ _ _ hlt).trans (by rw [htr0]))]
    exact cbCalls_doneEvents _ _ cb _ _ _ (by rw [hs0])
  · rw [eventsSince_append w _ _ ((done_trace _ _ _ _ _ hlt).trans (by rw [htr0]))]
    exact strategyCalls_doneEvents _ _ _ _ _
  · rw [eventsSince_append w _ _ ((done_trace _ _ _ _ _ hlt).trans (by rw [htr0]))]
    exact timersStarted_doneEvents _ _ _ _ _
  · rw [done_timers _ _ _ _ _ hlt, hs0, ← hw0]

/-- C3, the code at the failing input: `cmpApi: 'toString'` is not a key of
`uspCallMap`, yet `uspCallMap['toString']` is the function inherited from
`Object.prototype`, so the guard lets it pass: the lookup calls it as a
strategy, `cb` is not invoked, and a timer of 50 ms is started. -/
theorem inherited_key_passes_unsupported_guard :
    (Except.bind
      (setConsentConfig (.obj [("usp", .obj [("cmpApi", .str "toString")])]) (World.init none))
      (loadConsentData (some .probe))).toOption.map
      (fun w => (uspCallMapKeys.contains w.consentAPI.toStr, cbCalls 1 w.trace,
        strategyCalls 1 w.trace, timersStarted 1 w.trace, (w.session 1).isDone)) =
    some (false, [], ["toString"], [(1, .num 50)], false) := by
  rfl

/-- C4: for the `iab` strategy with a timeout `t > 0` and a CMP that is present
but never invokes the consent callback, `loadConsentData` returns with `cb` not
invoked and one timer of `t` ms started; when that timer expires `cb` is
invoked once, with the timeout message, the consent store holds `null`, and a
further expiry changes nothing. -/
theorem iab_silent_cmp_times_out (w : World) (cb : Callback) (c : Cmp) (t : Int)
    (hwf : w.WF) (hapi : w.consentAPI = .str "iab") (hcmp : w.cmp = some c)
    (hsync : c.syncResponses = []) (ht : w.consentTimeout = .num t) (h0 : 0 < t) :
    ∃ w1, loadConsentData (some cb) w = .ok w1 ∧
      cbCalls w.sessions.length (eventsSince w w1) = [] ∧
      timersStarted w.sessions.length (eventsSince w w1) = [(w.nextTimer, .num t)] ∧
      (w1.session w.sessions.length).isDone = false ∧
      cbCalls w.sessions.length (eventsSince w (deliver w.sessions.length .timerExpiry w1)) =
        [(.str ("USPAPI workflow exceeded timeout threshold." ++
          " Resuming auction without consent data as per consentManagement config."), [])] ∧
      (deliver w.sessions.length .timerExpiry w1).uspDataHandler.getConsentData = .null ∧
      ((deliver w.sessions.length .timerExpiry w1).session w.sessions.length).isDone = true ∧
      deliver w.sessions.length .timerExpiry (deliver w.sessions.length .timerExpiry w1) =
        deliver w.sessions.length .timerExpiry w1 := by
  obtain ⟨w1, h1, inv, htr⟩ :=
    loadConsentData_iab_awaiting w (some cb) c t hwf hapi hcmp hsync ht (Int.ne_of_gt h0)
  have hf := fireTimer_pending _ _ _ w1 inv
  generalize hw0 : ({ w1 with timers := w1.timers.filter (fun x => x.id != w.nextTimer) } : World)
    = w0 at hf
  have hlt : w.sessions.length < w0.sessions.length := by rw [← hw0]; exact inv.lt
  have hs0 : w0.session w.sessions.length = w1.session w.sessions.length := by rw [← hw0]; rfl
  have htr0 : w0.trace = w1.trace := by rw [← hw0]
  have hd : deliver w.sessions.length .timerExpiry w1 = done w.sessions.length .null
      (.str ("USPAPI workflow exceeded timeout threshold." ++
        " Resuming auction without consent data as per consentManagement config.")) [] w0 := by
    simp only [deliver, inv.timer, hf]
  have inv2 := done_awaiting w.sessions.length w.nextTimer (some cb) .null
    (.str ("USPAPI workflow exceeded timeout threshold." ++
      " Resuming auction without consent data as per consentManagement config.")) [] w0 hlt
    (by rw [hs0]; exact inv.cb) (by rw [hs0]; exact inv.timer) (by rw [hs0]; exact inv.resp)
  refine ⟨w1, h1, ?_, ?_, ?_, ?_, ?_, ?_, ?_⟩
  · rw [eventsSince_append w w1 _ htr]; simp [cbCalls]
  · rw [eventsSince_append w w1 _ htr]; simp [timersStarted]
  · rw [inv.isDone]; rfl
  · rw [hd, eventsSince_append w _ _ ((done_trace _ _ _ _ _ hlt).trans
      (by rw [htr0, htr, List.append_assoc])), cbCalls_append,
      cbCalls_doneEvents _ _ cb _ _ _ (by rw [hs0]; exact inv.cb)]
    simp [cbCalls]
  · rw [hd]; exact done_store _ _ _ _ _ hlt
  · rw [hd, inv2.isDone]; rfl
  · rw [hd]
    exact deliver_timer_cleared _ _ _ _ inv2

/-- C4, witness: the freshly loaded module with the default timeout of 50. -/
theorem iab_silent_cmp_times_out_witness :
    ∃ w1, loadConsentData (some .probe) (World.init (some ⟨false, []⟩)) = .ok w1 ∧
      cbCalls 0 (eventsSince (World.init (some ⟨false, []⟩)) w1) = [] ∧
      timersStarted 0 (eventsSince (World.init (some ⟨false, []⟩)) w1) = [(0, .num 50)] ∧
      (w1.session 0).isDone = false ∧
      cbCalls 0 (eventsSince (World.init (some ⟨false, []⟩)) (deliver 0 .timerExpiry w1)) =
        [(.str ("USPAPI workflow exceeded timeout threshold." ++
          " Resuming auction without consent data as per consentManagement config."), [])] ∧
      (deliver 0 .timerExpiry w1).uspDataHandler.getConsentData = .null ∧
      ((deliver 0 .timerExpiry w1).session 0).isDone = true ∧
      deliver 0 .timerExpiry (deliver 0 .timerExpiry w1) = deliver 0 .timerExpiry w1 :=
  iab_silent_cmp_times_out (World.init (some ⟨false, []⟩)) .probe ⟨false, []⟩ 50
    (init_WF _) rfl rfl rfl rfl (by decide)

/-- C6: for the `iab` strategy with a timeout `t > 0`, a CMP success with a
non-empty `uspString` that arrives while the timer is pending invokes `cb` once
with no error, leaves that string in the consent store and cancels the timer:
the timer is no longer queued and a later expiry changes nothing. -/
theorem iab_success_cancels_timer (w : World) (cb : Callback) (c : Cmp) (t : Int)
    (fields : List (String × JsVal)) (u : String) (success : JsVal)
    (hwf : w.WF) (hapi : w.consentAPI = .str "iab") (hcmp : w.cmp = some c)
    (hsync : c.syncResponses = []) (ht : w.consentTimeout = .num t) (h0 : 0 < t)
    (hu : JsVal.lookupField fields "uspString" = .str u) (hne : u ≠ "")
    (hs : success.truthy = true) :
    ∃ w1, loadConsentData (some cb) w = .ok w1 ∧
      (∃ x, w1.timers.find? (fun x => x.id == w.nextTimer) = some x ∧
        x.sid = w.sessions.length) ∧
      cbCalls w.sessions.length
        (eventsSince w (deliver w.sessions.length (.cmpResponse (.obj fields) success) w1)) =
        [(.undefined, [])] ∧
      (deliver w.sessions.length (.cmpResponse (.obj fields) success)
        w1).uspDataHandler.getConsentData = .str u ∧
      (deliver w.sessions.length (.cmpResponse (.obj fields) success) w1).timers.find?
        (fun x => x.id == w.nextTimer) = none ∧
      deliver w.sessions.length .timerExpiry
        (deliver w.sessions.length (.cmpResponse (.obj fields) success) w1) =
        deliver w.sessions.length (.cmpResponse (.obj fields) success) w1 := by
  obtain ⟨w1, h1, inv, htr⟩ :=
    loadConsentData_iab_awaiting w (some cb) c t hwf hapi hcmp hsync ht (Int.ne_of_gt h0)
  obtain ⟨inv2, hstore, evs, hev, hcb, _, _⟩ :=
    deliver_success _ _ cb true w1 inv fields u success hu hne hs
  refine ⟨w1, h1, inv.queued rfl, ?_, hstore, inv2.cleared rfl, ?_⟩
  · rw [eventsSince_append w _ _ (hev.trans (by rw [htr, List.append_assoc])), cbCalls_append,
      hcb]
    simp [cbCalls]
  · exact deliver_timer_cleared _ _ _ _ inv2

/-- C6, witness: the CMP answers `1YNY` within the default timeout of 50. -/
theorem iab_success_cancels_timer_witness :
    ∃ w1, loadConsentData (some .probe) (World.init (some ⟨true, []⟩)) = .ok w1 ∧
      (∃ x, w1.timers.find? (fun x => x.id == 0) = some x ∧ x.sid = 0) ∧
      cbCalls 0 (eventsSince (World.init (some ⟨true, []⟩)) (deliver 0
        (.cmpResponse (.obj [("uspString", .str "1YNY")]) (.bool true)) w1)) =
        [(.undefined, [])] ∧
      (deliver 0 (.cmpResponse (.obj [("uspString", .str "1YNY")]) (.bool true))
        w1).uspDataHandler.getConsentData = .str "1YNY" ∧
      (deliver 0 (.cmpResponse (.obj [("uspString", .str "1YNY")]) (.bool true)) w1).timers.find?
        (fun x => x.id == 0) = none ∧
      deliver 0 .timerExpiry
        (deliver 0 (.cmpResponse (.obj [("uspString", .str "1YNY")]) (.bool true)) w1) =
        deliver 0 (.cmpResponse (.obj [("uspString", .str "1YNY")]) (.bool true)) w1 :=
  iab_success_cancels_timer (World.init (some ⟨true, []⟩)) .probe ⟨true, []⟩ 50
    [("uspString", .str "1YNY")] "1YNY" (.bool true) (init_WF _) rfl rfl rfl rfl (by decide)
    rfl (by decide) rfl

/-! ## Strategies that return before the lookup has completed -/

theorem deliverSync_isDone (sid : Nat) (rs : List (JsVal × JsVal)) :
    ∀ (w w1 : World), sid < w.sessions.length → (w.session sid).isDone = true →
      deliverSync sid (callbacks sid) rs w = .ok w1 →
      sid < w1.sessions.length ∧ (w1.session sid).isDone = true := by
  induction rs with
  | nil =>
    intro w w1 hlt hd h
    simp only [deliverSync, Except.ok.injEq] at h
    subst h
    exact ⟨hlt, hd⟩
  | cons a rest ih =>
    obtain ⟨r, s⟩ := a
    intro w w1 hlt hd h
    rcases consentDataCallback_done sid r s w hlt with ⟨_, _, err, herr⟩ | ⟨_, w0, v, e, x, hok, hfr⟩
    · simp [deliverSync, herr] at h
    · simp only [deliverSync, hok] at h
      have hlt0 : sid < w0.sessions.length := by rw [hfr.length]; exact hlt
      refine ih _ _ ?_ ?_ h
      · rw [done_length _ _ _ _ _ hlt0]; exact hlt0
      · rw [done_session _ _ _ _ _ hlt0]

theorem processUspData_isDone (sid : Nat) (consentObject : JsVal) (w : World)
    (hlt : sid < w.sessions.length) :
    ((processUspData consentObject (callbacks sid) w).session sid).isDone = true := by
  rw [processUspData_callbacks]
  split
  · have hlt1 : sid < ({ w with consentData := consentObject.get "usPrivacy" } :
        World).sessions.length := hlt
    rw [done_session _ _ _ _ _ hlt1]
  · rw [done_session _ _ _ _ _ hlt]

/-- A strategy call that returns with the session not yet done has only
recorded events: no `cb` call, no timer, and the closure variables `cb` and
`timer` are untouched. -/
theorem callStrategy_pending (key : String) (strategy : Strategy) (sid : Nat) (w0 w1 : World)
    (hlt : sid < w0.sessions.length) (hcall : callStrategy key strategy sid w0 = .ok w1)
    (hnd : (w1.session sid).isDone = false) :
    sid < w1.sessions.length ∧ (w1.session sid).cb = (w0.session sid).cb ∧
    (w1.session sid).timer = (w0.session sid).timer ∧ w1.timers = w0.timers ∧
    w1.consentTimeout = w0.consentTimeout ∧
    ∃ evs, w1.trace = w0.trace ++ evs ∧ cbCalls sid evs = [] ∧ timersStarted sid evs = [] := by
  cases strategy with
  | lookupStaticConsentData =>
    simp only [callStrategy, Except.ok.injEq] at hcall
    subst hcall
    have := processUspData_isDone sid (w0.emit (.strategyCall sid key)).staticConsentData
      (w0.emit (.strategyCall sid key)) hlt
    simp only [lookupStaticConsentData] at hnd
    rw [this] at hnd
    cases hnd
  | inherited throws =>
    cases throws with
    | true => simp [callStrategy] at hcall
    | false =>
      simp only [callStrategy, Except.ok.injEq] at hcall
      subst hcall
      exact ⟨hlt, rfl, rfl, rfl, rfl, [.strategyCall sid key], rfl, rfl, rfl⟩
  | lookupUspConsent =>
    generalize hwA : ((w0.emit (.strategyCall sid key)).setSession sid
      { (w0.emit (.strategyCall sid key)).session sid with uspResponse := .obj [] }) = wA
    have hltA : sid < wA.sessions.length := by
      rw [← hwA]; simpa [World.setSession, length_setSessionAt, World.emit] using hlt
    have hsA : wA.session sid = { w0.session sid with uspResponse := .obj [] } := by
      rw [← hwA]; exact session_setSession _ _ _ hlt
    have htrA : wA.trace = w0.trace ++ [.strategyCall sid key] := by rw [← hwA]; rfl
    have htmA : wA.timers = w0.timers := by rw [← hwA]; rfl
    have hctA : wA.consentTimeout = w0.consentTimeout := by rw [← hwA]; rfl
    simp only [callStrategy, lookupUspConsent, hwA] at hcall
    cases hcmp : wA.cmp with
    | none =>
      simp only [hcmp, Except.ok.injEq] at hcall
      subst hcall
      have : ((done sid .null (.str ("USP CMP not found." ++
          " Resuming auction without consent data as per consentManagement config.")) []
          wA).session sid).isDone = true := by rw [done_session _ _ _ _ _ hltA]
      simp only [callbacks] at hnd
      rw [this] at hnd
      cases hnd
    | some c =>
      simp only [hcmp] at hcall
      cases hsync : c.syncResponses with
      | nil =>
        simp only [hsync, deliverSync, Except.ok.injEq] at hcall
        subst hcall
        refine ⟨hltA, ?_, ?_, htmA, hctA, [.strategyCall sid key, .cmpCommand sid "getUSPData",
          .cmpCommand sid "registerDeletion"], ?_, rfl, rfl⟩
        · show (wA.session sid).cb = _
          rw [hsA]
        · show (wA.session sid).timer = _
          rw [hsA]
        · simp [World.emit, htrA]
      | cons a rest =>
        obtain ⟨r, s⟩ := a
        exfalso
        have hltB : sid < (wA.emit (.cmpCommand sid "getUSPData")).sessions.length := hltA
        rcases consentDataCallback_done sid r s (wA.emit (.cmpCommand sid "getUSPData")) hltB
          with ⟨_, _, err, herr⟩ | ⟨_, wC, v, e, x, hok, hfr⟩
        · simp [hsync, deliverSync, herr] at hcall
        · simp only [hsync, deliverSync, hok] at hcall
          have hltC : sid < wC.sessions.length := by rw [hfr.length]; exact hltB
          cases hrest : deliverSync sid (callbacks sid) rest (done sid v e x wC) with
          | error err => simp [hrest] at hcall
          | ok wD =>
            simp only [hrest, Except.ok.injEq] at hcall
            subst hcall
            have := (deliverSync_isDone sid rest _ wD
              (by rw [done_length _ _ _ _ _ hltC]; exact hltC)
              (by rw [done_session _ _ _ _ _ hltC]) hrest).2
            have h2 : ((wD.emit (.cmpCommand sid "registerDeletion")).session sid).isDone =
              (wD.session sid).isDone := rfl
            rw [h2, this] at hnd
            cases hnd

/-- C5: when `consentTimeout` is 0 and the selected strategy returns without
having completed the lookup, `loadConsentData` resolves before it returns:
`cb` is invoked once, with an error message, the consent store is set to
`null`, the session is done and no timer has been created. -/
theorem zero_timeout_resolves_immediately (w : World) (cb : Callback) (strategy : Strategy)
    (w1 : World) (ht : w.consentTimeout = .num 0)
    (hmap : uspCallMap w.consentAPI.toStr = some strategy)
    (hcall : callStrategy w.consentAPI.toStr strategy w.sessions.length
      { w with sessions := w.sessions ++
        [{ cb := some cb, timer := none, isDone := false, uspResponse := .obj [] }] } = .ok w1)
    (hpending : (w1.session w.sessions.length).isDone = false) :
    ∃ w2, loadConsentData (some cb) w = .ok w2 ∧
      cbCalls w.sessions.length (eventsSince w w2) =
        [(.str ("USPAPI returned unexpected value during lookup process." ++
          " Resuming auction without consent data as per consentManagement config."),
          [.undefined])] ∧
      w2.uspDataHandler.getConsentData = .null ∧
      (w2.session w.sessions.length).isDone = true ∧
      timersStarted w.sessions.length (eventsSince w w2) = [] ∧
      w2.timers = w.timers := by
  generalize hw0 : ({ w with sessions := w.sessions ++
    [{ cb := some cb, timer := none, isDone := false, uspResponse := .obj [] }] } : World) = w0
    at hcall
  have hlt0 : w.sessions.length < w0.sessions.length := by rw [← hw0]; simp
  have hs0 : w0.session w.sessions.length = ⟨some cb, none, false, .obj []⟩ := by
    rw [← hw0]; exact sessionAt_append_length _ _
  obtain ⟨hlt1, hcb1, htm1, htimers1, hct1, evs, htr1, hcb_evs, htm_evs⟩ :=
    callStrategy_pending _ strategy _ w0 w1 hlt0 hcall hpending
  have hz : isZero w1.consentTimeout = true := by
    rw [hct1, ← hw0]; simp only [ht]; rfl
  have hload : loadConsentData (some cb) w = .ok (done w.sessions.length .null
      (.str ("USPAPI returned unexpected value during lookup process." ++
        " Resuming auction without consent data as per consentManagement config."))
      [.undefined] w1) := by
    simp only [loadConsentData, hmap, hw0, hcall, afterStrategy, hpending, hz,
      processUspData_callbacks]
    rfl
  have hcb : (w1.session w.sessions.length).cb = some cb := by rw [hcb1, hs0]
  have htm : (w1.session w.sessions.length).timer = none := by rw [htm1, hs0]
  have htr : (done w.sessions.length .null
      (.str ("USPAPI returned unexpected value during lookup process." ++
        " Resuming auction without consent data as per consentManagement config."))
      [.undefined] w1).trace = w.trace ++ (evs ++ doneEvents w.sessions.length
        (w1.session w.sessions.length) .null
        (.str ("USPAPI returned unexpected value during lookup process." ++
          " Resuming auction without consent data as per consentManagement config."))
        [.undefined]) := by
    rw [done_trace _ _ _ _ _ hlt1, htr1, ← hw0, List.append_assoc]
  refine ⟨_, hload, ?_, done_store _ _ _ _ _ hlt1, ?_, ?_, ?_⟩
  · rw [eventsSince_append w _ _ htr, cbCalls_append, hcb_evs,
      cbCalls_doneEvents _ _ cb _ _ _ hcb]
    rfl
  · rw [done_session _ _ _ _ _ hlt1]
  · rw [eventsSince_append w _ _ htr, timersStarted_append, htm_evs,
      timersStarted_doneEvents]
    rfl
  · rw [done_timers _ _ _ _ _ hlt1, htm, htimers1, ← hw0]

/-- C5, witness: the `iab` strategy with a CMP that does not answer during the
call, and `consentTimeout` 0. -/
theorem zero_timeout_resolves_immediately_witness :
    ∃ w2, loadConsentData (some .probe)
        { World.init (some ⟨true, []⟩) with consentTimeout := .num 0 } = .ok w2 ∧
      cbCalls 0 (eventsSince { World.init (some ⟨true, []⟩) with consentTimeout := .num 0 } w2) =
        [(.str ("USPAPI returned unexpected value during lookup process." ++
          " Resuming auction without consent data as per consentManagement config."),
          [.undefined])] ∧
      w2.uspDataHandler.getConsentData = .null ∧
      (w2.session 0).isDone = true ∧
      timersStarted 0
        (eventsSince { World.init (some ⟨true, []⟩) with consentTimeout := .num 0 } w2) = [] ∧
      w2.timers = [] :=
  zero_timeout_resolves_immediately { World.init (some ⟨true, []⟩) with consentTimeout := .num 0 }
    .probe .lookupUspConsent _ rfl rfl rfl rfl

/-- C7: `processUspData` calls `onSuccess`, with the `usPrivacy` value, exactly
when the consent object is truthy and its `usPrivacy` is truthy, which for a
string field means non-empty; otherwise it calls `onError` alone, with the
rejected object as extra argument.  `undefined`, `null`, the empty object and
an empty `usPrivacy` are rejected.  With the callbacks of a lookup session a
rejection runs `done(null, message, consentObject)`: the consent store holds
`null` afterwards whatever it held before, and `cb` gets the message. -/
theorem processUspData_success_iff_usPrivacy (consentObject : JsVal) (cbs : Callbacks)
    (w : World) (sid : Nat) (cb : Callback) (hlt : sid < w.sessions.length)
    (hcb : (w.session sid).cb = some cb) :
    processUspData consentObject cbs w =
      (if validConsent consentObject then
        cbs.onSuccess (consentObject.get "usPrivacy")
          { w with consentData := consentObject.get "usPrivacy" }
      else
        cbs.onError "USPAPI returned unexpected value during lookup process." [consentObject] w) ∧
    (∀ fields u, consentObject = .obj fields → JsVal.lookupField fields "usPrivacy" = .str u →
      (validConsent consentObject = true ↔ u ≠ "")) ∧
    (validConsent .undefined = false ∧ validConsent .null = false ∧
      validConsent (.obj []) = false ∧ validConsent (.obj [("usPrivacy", .str "")]) = false) ∧
    (validConsent consentObject = false →
      (processUspData consentObject (callbacks sid) w).uspDataHandler.getConsentData = .null ∧
      doneCalls sid (eventsSince w (processUspData consentObject (callbacks sid) w)) =
        [(.null, .str ("USPAPI returned unexpected value during lookup process." ++
          " Resuming auction without consent data as per consentManagement config."),
          [consentObject])] ∧
      cbCalls sid (eventsSince w (processUspData consentObject (callbacks sid) w)) =
        [(.str ("USPAPI returned unexpected value during lookup process." ++
          " Resuming auction without consent data as per consentManagement config."),
          [consentObject])]) := by
  refine ⟨?_, ?_, ⟨rfl, rfl, rfl, rfl⟩, ?_⟩
  · by_cases h : validConsent consentObject = true
    · have h2 : consentObject.truthy = true ∧ (consentObject.get "usPrivacy").truthy = true := by
        simpa [validConsent] using h
      simp [processUspData, storeUspConsentData, h, h2.1, h2.2]
    · simp [processUspData, h]
  · intro fields u ho hu
    subst ho
    simp [validConsent, JsVal.truthy, JsVal.get, hu]
  · intro hv
    have hv1 : (consentObject.truthy && (consentObject.get "usPrivacy").truthy) = false := hv
    rw [processUspData_callbacks, hv1]
    simp only [Bool.false_eq_true, if_false]
    refine ⟨done_store _ _ _ _ _ hlt, ?_, ?_⟩
    · rw [eventsSince_append w _ _ (done_trace _ _ _ _ _ hlt)]
      exact doneCalls_doneEvents _ _ _ _ _
    · rw [eventsSince_append w _ _ (done_trace _ _ _ _ _ hlt)]
      exact cbCalls_doneEvents _ _ cb _ _ _ hcb

/-- C7, witness: a session whose store holds `1YNY` receives the empty object. -/
theorem processUspData_success_iff_usPrivacy_witness :
    validConsent (.obj []) = false ∧
    (processUspData (.obj []) (callbacks 0)
      { World.init none with
        sessions := [⟨some .probe, none, false, .obj []⟩]
        uspDataHandler := ⟨.str "1YNY", true⟩ }).uspDataHandler.getConsentData = .null :=
  ⟨rfl, ((processUspData_success_iff_usPrivacy (.obj []) (callbacks 0)
      { World.init none with
        sessions := [⟨some .probe, none, false, .obj []⟩]
        uspDataHandler := ⟨.str "1YNY", true⟩ } 0 .probe (by decide) rfl).2.2.2 rfl).1⟩

/-- C8: with the static strategy and a payload whose `usPrivacy` is the
non-empty string `s`, `loadConsentData` completes before it returns, whatever
the timeout: the completion callback `done`, which is the strategy's
`onSuccess`, is called once with the resolved value `s` and no error, `cb` is
called once with an `undefined` error message and no extra argument, the
consent store returns `s`, and no timer is started. -/
theorem static_lookup_resolves_synchronously (w : World) (cb : Callback)
    (fields : List (String × JsVal)) (u : String)
    (hapi : w.consentAPI = .str "static") (hdata : w.staticConsentData = .obj fields)
    (hu : JsVal.lookupField fields "usPrivacy" = .str u) (hne : u ≠ "") :
    ∃ w1, loadConsentData (some cb) w = .ok w1 ∧
      doneCalls w.sessions.length (eventsSince w w1) = [(.str u, .undefined, [])] ∧
      cbCalls w.sessions.length (eventsSince w w1) = [(.undefined, [])] ∧
      w1.uspDataHandler.getConsentData = .str u ∧
      (w1.session w.sessions.length).isDone = true ∧
      timersStarted w.sessions.length (eventsSince w w1) = [] ∧
      w1.timers = w.timers := by
  generalize hwE : World.emit ({ w with sessions := w.sessions ++
      [{ cb := some cb, timer := none, isDone := false, uspResponse := .obj [] }] } : World)
      (.strategyCall w.sessions.length "static") = wE
  have hltE : w.sessions.length < wE.sessions.length := by rw [← hwE]; simp [World.emit]
  have hsE : wE.session w.sessions.length = ⟨some cb, none, false, .obj []⟩ := by
    rw [← hwE]; exact sessionAt_append_length _ _
  have htrE : wE.trace = w.trace ++ [.strategyCall w.sessions.length "static"] := by
    rw [← hwE]; rfl
  have htmE : wE.timers = w.timers := by rw [← hwE]; rfl
  have hdataE : wE.staticConsentData = .obj fields := by rw [← hwE]; exact hdata
  have hmap : uspCallMap "static" = some .lookupStaticConsentData := rfl
  have hg : (JsVal.obj fields).get "usPrivacy" = .str u := hu
  have hut : (JsVal.str u).truthy = true := by simp [JsVal.truthy, hne]
  have hot : (JsVal.obj fields).truthy = true := rfl
  generalize hw0 : ({ wE with consentData := .str u } : World) = w0
  have hlt : w.sessions.length < w0.sessions.length := by rw [← hw0]; exact hltE
  have hs0 : w0.session w.sessions.length = ⟨some cb, none, false, .obj []⟩ := by
    rw [← hw0]; exact hsE
  have hd : ((done w.sessions.length (.str u) .undefined [] w0).session
      w.sessions.length).isDone = true := by rw [done_session _ _ _ _ _ hlt]
  have hp : processUspData wE.staticConsentData (callbacks w.sessions.length) wE =
      done w.sessions.length (.str u) .undefined [] w0 := by
    have hgE : wE.staticConsentData.get "usPrivacy" = .str u := by rw [hdataE]; exact hg
    have hv : (wE.staticConsentData.truthy && (wE.staticConsentData.get "usPrivacy").truthy) =
        true := by rw [hgE, hut, hdataE, hot]; rfl
    rw [processUspData_callbacks, if_pos hv, hgE, hw0]
  have hkey : w.consentAPI.toStr = "static" := by rw [hapi]; rfl
  have hload : loadConsentData (some cb) w = .ok (done w.sessions.length (.str u)
      .undefined [] w0) := by
    simp only [loadConsentData, hkey, hmap, callStrategy, lookupStaticConsentData,
      hwE, hp, afterStrategy, hd]
    rfl
  have htr : (done w.sessions.length (.str u) .undefined [] w0).trace = w.trace ++
      ([.strategyCall w.sessions.length "static"] ++ doneEvents w.sessions.length
        (w0.session w.sessions.length) (.str u) .undefined []) := by
    rw [done_trace _ _ _ _ _ hlt, ← hw0, ← List.append_assoc, ← htrE]
  refine ⟨_, hload, ?_, ?_, done_store _ _ _ _ _ hlt, hd, ?_, ?_⟩
  · rw [eventsSince_append w _ _ htr, doneCalls_append, doneCalls_doneEvents]; rfl
  · rw [eventsSince_append w _ _ htr, cbCalls_append,
      cbCalls_doneEvents _ _ cb _ _ _ (by rw [hs0])]
    rfl
  · rw [eventsSince_append w _ _ htr, timersStarted_append, timersStarted_doneEvents]; rfl
  · rw [done_timers _ _ _ _ _ hlt, hs0, ← hw0]
    exact htmE

/-- C8, witness: the payload `{usPrivacy: '1YNY'}` with a timeout of 50. -/
theorem static_lookup_resolves_synchronously_witness :
    ∃ w1, loadConsentData (some .probe)
        { World.init none with
          consentAPI := .str "static"
          staticConsentData := .obj [("usPrivacy", .str "1YNY")] } = .ok w1 ∧
      doneCalls 0 (eventsSince (World.init none) w1) = [(.str "1YNY", .undefined, [])] ∧
      cbCalls 0 (eventsSince (World.init none) w1) = [(.undefined, [])] ∧
      w1.uspDataHandler.getConsentData = .str "1YNY" ∧
      (w1.session 0).isDone = true ∧
      timersStarted 0 (eventsSince (World.init none) w1) = [] ∧
      w1.timers = [] :=
  static_lookup_resolves_synchronously
    { World.init none with
      consentAPI := .str "static"
      staticConsentData := .obj [("usPrivacy", .str "1YNY")] }
    .probe [("usPrivacy", .str "1YNY")] "1YNY" rfl rfl rfl (by decide)

/-! ## The static strategy and `setConsentConfig` -/

theorem done_config (sid : Nat) (v e : JsVal) (x : List JsVal) (w : World)
    (h : sid < w.sessions.length) :
    (done sid v e x w).consentAPI = w.consentAPI ∧
    (done sid v e x w).consentTimeout = w.consentTimeout ∧
    (done sid v e x w).staticConsentData = w.staticConsentData := by
  rw [done_eq sid v e x w h]
  exact ⟨rfl, rfl, rfl⟩

/-- With the static strategy `loadConsentData` is done when it returns: it
starts no timer and leaves the configuration variables alone. -/
theorem loadConsentData_static (w : World) (cb : Option Callback)
    (hapi : w.consentAPI = .str "static") :
    ∃ w1, loadConsentData cb w = .ok w1 ∧
      (w1.session w.sessions.length).isDone = true ∧
      w1.timers = w.timers ∧ w1.consentAPI = w.consentAPI ∧
      w1.consentTimeout = w.consentTimeout ∧
      ∃ evs, w1.trace = w.trace ++ evs ∧ timersStarted w.sessions.length evs = [] := by
  generalize hwE : World.emit ({ w with sessions := w.sessions ++
      [{ cb := cb, timer := none, isDone := false, uspResponse := .obj [] }] } : World)
      (.strategyCall w.sessions.length "static") = wE
  have hltE : w.sessions.length < wE.sessions.length := by rw [← hwE]; simp [World.emit]
  have hsE : wE.session w.sessions.length = ⟨cb, none, false, .obj []⟩ := by
    rw [← hwE]; exact sessionAt_append_length _ _
  have htrE : wE.trace = w.trace ++ [.strategyCall w.sessions.length "static"] := by
    rw [← hwE]; rfl
  have htmE : wE.timers = w.timers := by rw [← hwE]; rfl
  have hapiE : wE.consentAPI = w.consentAPI := by rw [← hwE]; rfl
  have hctE : wE.consentTimeout = w.consentTimeout := by rw [← hwE]; rfl
  have hmap : uspCallMap "static" = some .lookupStaticConsentData := rfl
  have hkey : w.consentAPI.toStr = "static" := by rw [hapi]; rfl
  have hd := processUspData_isDone w.sessions.length wE.staticConsentData wE hltE
  have hload : loadConsentData cb w =
      .ok (processUspData wE.staticConsentData (callbacks w.sessions.length) wE) := by
    simp only [loadConsentData, hkey, hmap, callStrategy, lookupStaticConsentData,
      hwE, afterStrategy, hd]
    rfl
  refine ⟨_, hload, hd, ?_⟩
  rw [processUspData_callbacks]
  split
  · generalize hw0 : ({ wE with consentData := wE.staticConsentData.get "usPrivacy" } : World)
      = w0
    have hlt : w.sessions.length < w0.sessions.length := by rw [← hw0]; exact hltE
    have hs0 : w0.session w.sessions.length = ⟨cb, none, false, .obj []⟩ := by
      rw [← hw0]; exact hsE
    obtain ⟨h1, h2, _⟩ := done_config w.sessions.length (wE.staticConsentData.get "usPrivacy")
      .undefined [] w0 hlt
    refine ⟨?_, ?_, ?_, [.strategyCall w.sessions.length "static"] ++
      doneEvents w.sessions.length (w0.session w.sessions.length)
        (wE.staticConsentData.get "usPrivacy") .undefined [], ?_, ?_⟩
    · rw [done_timers _ _ _ _ _ hlt, hs0, ← hw0]; exact htmE
    · rw [h1, ← hw0]; exact hapiE
    · rw [h2, ← hw0]; exact hctE
    · rw [done_trace _ _ _ _ _ hlt, ← List.append_assoc, ← htrE, ← hw0]
    · rw [timersStarted_append, timersStarted_doneEvents]; rfl
  · obtain ⟨h1, h2, _⟩ := done_config w.sessions.length .null
      (.str ("USPAPI returned unexpected value during lookup process." ++
        " Resuming auction without consent data as per consentManagement config."))
      [wE.staticConsentData] wE hltE
    refine ⟨?_, ?_, ?_, [.strategyCall w.sessions.length "static"] ++
      doneEvents w.sessions.length (wE.session w.sessions.length) .null
        (.str ("USPAPI returned unexpected value during lookup process." ++
          " Resuming auction without consent data as per consentManagement config."))
        [wE.staticConsentData], ?_, ?_⟩
    · rw [done_timers _ _ _ _ _ hltE, hsE]; exact htmE
    · rw [h1]; exact hapiE
    · rw [h2]; exact hctE
    · rw [done_trace _ _ _ _ _ hltE, htrE, List.append_assoc]
    · rw [timersStarted_append, timersStarted_doneEvents]; rfl

/-- The assignments of `setConsentConfig` for a static configuration. -/
theorem applyConsentConfig_static (config : JsVal) (w : World)
    (hstatic : (config.get "usp").get "cmpApi" = .str "static") :
    ∃ w0 logs, applyConsentConfig config w = .ok w0 ∧
      w0.consentAPI = .str "static" ∧
      w0.consentTimeout = staticTimeout (config.get "usp") ∧
      w0.sessions = w.sessions ∧ w0.timers = w.timers ∧
      w0.trace = w.trace ++ logs ∧ ∀ sid, timersStarted sid logs = [] := by
  cases config with
  | obj fields =>
    cases husp : JsVal.lookupField fields "usp" with
    | obj ufields =>
      have hcfg : (JsVal.obj fields).get "usp" = .obj ufields := husp
      rw [hcfg] at hstatic
      have hapi : (JsVal.obj ufields).get "cmpApi" = .str "static" := hstatic
      have hto : (JsVal.obj fields).truthy = true := rfl
      have htu : (JsVal.obj ufields).truthy = true := rfl
      have hty : typeofNotObject (JsVal.obj ufields) = false := rfl
      have hstr : isStr (JsVal.str "static") = true := rfl
      have hst : isStatic (JsVal.str "static") = true := rfl
      have hnl : (JsVal.obj ufields).isNullish = false := rfl
      simp only [hcfg]
      by_cases hplain : (isPlainObject ((JsVal.obj ufields).get "consentData") &&
          isPlainObject (((JsVal.obj ufields).get "consentData").get "getUSPData")) = true
      · by_cases htr : ((((JsVal.obj ufields).get "consentData").get "getUSPData").get
            "uspString").truthy = true <;>
        by_cases hnum : isNumber ((JsVal.obj ufields).get "timeout") = true <;>
        · simp only [applyConsentConfig, hcfg, hto, htu, hty, hapi, hstr, hst,
            getOrThrow, hnl, hplain, htr, hnum,
            if_true, if_false, Bool.not_true, Bool.not_false, Bool.or_self, Bool.and_self,
            Bool.true_and, Bool.false_eq_true]
          refine ⟨_, [], rfl, rfl, ?_, rfl, rfl, ?_, fun _ => rfl⟩
          · simp [staticTimeout, hplain]
          · simp
      · by_cases hnum : isNumber ((JsVal.obj ufields).get "timeout") = true <;>
        · simp only [applyConsentConfig, hcfg, hto, htu, hty, hapi, hstr, hst,
            getOrThrow, hnl, hplain, hnum,
            if_true, if_false, Bool.not_true, Bool.not_false, Bool.or_self, Bool.and_self,
            Bool.true_and, Bool.false_eq_true, World.emit]
          refine ⟨_, [.log .error "consentManagement config with cmpApi: 'static' did not specify consentData. No consents will be available to adapters."],
            rfl, rfl, ?_, rfl, rfl, rfl, fun _ => rfl⟩
          simp [staticTimeout, hplain, hnum]
    | _ => simp [husp, JsVal.get] at hstatic
  | _ => simp [JsVal.get] at hstatic

theorem enableConsentManagement_static (w : World) (hapi : w.consentAPI = .str "static") :
    ∃ w1, enableConsentManagement w = .ok w1 ∧
      (w1.session w.sessions.length).isDone = true ∧
      w1.timers = w.timers ∧ w1.consentAPI = w.consentAPI ∧
      w1.consentTimeout = w.consentTimeout ∧
      ∃ evs, w1.trace = w.trace ++ evs ∧ timersStarted w.sessions.length evs = [] := by
  by_cases hen : w.enabled = true
  · simp only [enableConsentManagement, hen, Bool.not_true, Bool.false_eq_true, if_false]
    exact loadConsentData_static w none hapi
  · simp only [enableConsentManagement, hen, Bool.not_false, if_true]
    exact loadConsentData_static
      { w with enabled := true, uspDataHandler := w.uspDataHandler.enable } none hapi

/-- C9, counterexample: a static configuration without `consentData` and with
`timeout: 100`; the lookup is done when `setConsentConfig` returns, but
`consentTimeout` is 100, not 0. -/
theorem static_config_without_consentData_keeps_timeout :
    (setConsentConfig (.obj [("usp", .obj [("cmpApi", .str "static"), ("timeout", .num 100)])])
      (World.init none)).toOption.map
      (fun w => (w.consentTimeout, isZero w.consentTimeout, (w.session 0).isDone)) =
    some (.num 100, false, true) := by
  rfl

/-- C9, as amended: for every configuration with `cmpApi: 'static'` the lookup
that `setConsentConfig` triggers is done before `setConsentConfig` returns and
starts no timer, whatever the timeout and whether or not `consentData` is well
formed; `consentTimeout` is 0 afterwards when `consentData` and
`consentData.getUSPData` are plain objects, and otherwise the configured
timeout, or 50 when none is configured. -/
theorem setConsentConfig_static_synchronous (config : JsVal) (w : World)
    (hstatic : (config.get "usp").get "cmpApi" = .str "static") :
    ∃ w1, setConsentConfig config w = .ok w1 ∧
      w1.consentAPI = .str "static" ∧
      w1.consentTimeout = staticTimeout (config.get "usp") ∧
      (w1.session w.sessions.length).isDone = true ∧
      timersStarted w.sessions.length (eventsSince w w1) = [] ∧
      w1.timers = w.timers := by
  obtain ⟨w0, logs, h0, hapi, hct, hsess, htm, htr, hlogs⟩ :=
    applyConsentConfig_static config w hstatic
  obtain ⟨w1, h1, hd, htm1, hapi1, hct1, evs, htr1, hevs⟩ :=
    enableConsentManagement_static w0 hapi
  rw [hsess] at hd hevs
  refine ⟨w1, by simp only [setConsentConfig, h0, h1], hapi1.trans hapi, hct1.trans hct, hd,
    ?_, htm1.trans htm⟩
  rw [eventsSince_append w w1 (logs ++ evs) (by rw [htr1, htr, List.append_assoc]),
    timersStarted_append, hlogs, hevs]
  rfl

/-- C9, witness: a well-formed static configuration with `timeout: 100`. -/
theorem setConsentConfig_static_synchronous_witness :
    ∃ w1, setConsentConfig (.obj [("usp", .obj [("cmpApi", .str "static"), ("timeout", .num 100),
        ("consentData", .obj [("getUSPData", .obj [("uspString", .str "1YNY")])])])])
        (World.init none) = .ok w1 ∧
      w1.consentAPI = .str "static" ∧
      w1.consentTimeout = .num 0 ∧
      (w1.session 0).isDone = true ∧
      timersStarted 0 (eventsSince (World.init none) w1) = [] ∧
      w1.timers = [] :=
  setConsentConfig_static_synchronous
    (.obj [("usp", .obj [("cmpApi", .str "static"), ("timeout", .num 100),
      ("consentData", .obj [("getUSPData", .obj [("uspString", .str "1YNY")])])])])
    (World.init none) rfl

/-- C10, the code at the failing input: a static configuration with
`uspString: '1YNY'`, then `resetConsentData`, then a static configuration
without `consentData`.  The second call logs that no consents will be
available, yet `staticConsentData` still holds the first payload and the
consent store ends up with `1YNY`. -/
theorem stale_static_consent_survives_reconfiguration :
    (Except.bind
      (setConsentConfig (.obj [("usp", .obj [("cmpApi", .str "static"),
        ("consentData", .obj [("getUSPData", .obj [("uspString", .str "1YNY")])])])])
        (World.init none))
      (fun w => setConsentConfig (.obj [("usp", .obj [("cmpApi", .str "static")])])
        (resetConsentData w))).toOption.map
      (fun w => (w.uspDataHandler.getConsentData, w.staticConsentData,
        doneCalls 1 w.trace)) =
    some (.str "1YNY", .obj [("usPrivacy", .str "1YNY")],
      [(.str "1YNY", .undefined, [])]) := by
  rfl


/-! ## Further claims on the consent lookup -/

theorem cmpCommands_append (sid : Nat) (a b : List Event) :
    cmpCommands sid (a ++ b) = cmpCommands sid a ++ cmpCommands sid b := by
  induction a with
  | nil => rfl
  | cons e a ih =>
    cases e <;> simp [cmpCommands, ih]
    split <;> simp

theorem cmpCommands_doneEvents (sid : Nat) (s : Session) (v e : JsVal) (x : List JsVal) :
    cmpCommands sid (doneEvents sid s v e x) = [] := by
  cases hs : s.timer <;> cases hc : s.cb with
  | none => simp [doneEvents, hc, hs, cmpCommands]
  | some c =>
    cases c <;> simp [doneEvents, hc, hs, cmpCommands]
    all_goals split <;> simp [cmpCommands]

theorem nextCalls_append (a b : List Event) :
    nextCalls (a ++ b) = nextCalls a ++ nextCalls b := by
  induction a with
  | nil => rfl
  | cons e a ih => cases e <;> simp [nextCalls, ih]

/-- The state in which `loadConsentData` calls `done` when the CMP client
locator finds no CMP. -/
theorem loadConsentData_cmp_missing (w : World) (cb : Option Callback)
    (hapi : w.consentAPI = .str "iab") (hcmp : w.cmp = none) :
    ∃ w0, loadConsentData cb w = .ok (done w.sessions.length .null
        (.str ("USP CMP not found." ++
          " Resuming auction without consent data as per consentManagement config.")) [] w0) ∧
      w.sessions.length < w0.sessions.length ∧
      w0.session w.sessions.length = ⟨cb, none, false, .obj []⟩ ∧
      w0.trace = w.trace ++ [.strategyCall w.sessions.length "iab"] ∧
      w0.timers = w.timers := by
  generalize hwA : World.setSession (World.emit ({ w with sessions := w.sessions ++
      [{ cb := cb, timer := none, isDone := false, uspResponse := .obj [] }] } : World)
      (.strategyCall w.sessions.length "iab")) w.sessions.length
      { (World.emit ({ w with sessions := w.sessions ++
          [{ cb := cb, timer := none, isDone := false, uspResponse := .obj [] }] } : World)
          (.strategyCall w.sessions.length "iab")).session w.sessions.length with
        uspResponse := .obj [] } = wA
  have hltA : w.sessions.length < wA.sessions.length := by
    rw [← hwA]; simp [World.emit, World.setSession, length_setSessionAt]
  have hsA : wA.session w.sessions.length = ⟨cb, none, false, .obj []⟩ := by
    rw [← hwA]
    simp [World.emit, World.setSession, World.session, sessionAt_append_length,
      setSessionAt_append_length]
  have hcmpA : wA.cmp = none := by rw [← hwA]; exact hcmp
  have hkey : w.consentAPI.toStr = "iab" := by rw [hapi]; rfl
  have hmap : uspCallMap "iab" = some .lookupUspConsent := rfl
  have hd : ((done w.sessions.length .null (.str ("USP CMP not found." ++
      " Resuming auction without consent data as per consentManagement config.")) []
      wA).session w.sessions.length).isDone = true := by
    rw [done_session _ _ _ _ _ hltA]
  refine ⟨wA, ?_, hltA, hsA, by rw [← hwA]; rfl, by rw [← hwA]; rfl⟩
  simp only [loadConsentData, hkey, hmap, callStrategy, lookupUspConsent, hwA, hcmpA, callbacks,
    afterStrategy, hd]
  rfl

/-- C14: when the CMP client locator returns nothing, the `iab` lookup sends
no command to a CMP and `loadConsentData` returns normally with the session
done: `cb` has been invoked once, with the message that no CMP was found, the
consent store holds `null`, and no timer has been started. -/
theorem cmp_missing_resolves_with_error (w : World) (cb : Callback)
    (hapi : w.consentAPI = .str "iab") (hcmp : w.cmp = none) :
    ∃ w1, loadConsentData (some cb) w = .ok w1 ∧
      cmpCommands w.sessions.length (eventsSince w w1) = [] ∧
      cbCalls w.sessions.length (eventsSince w w1) =
        [(.str ("USP CMP not found." ++
          " Resuming auction without consent data as per consentManagement config."), [])] ∧
      w1.uspDataHandler.getConsentData = .null ∧
      (w1.session w.sessions.length).isDone = true ∧
      timersStarted w.sessions.length (eventsSince w w1) = [] ∧
      w1.timers = w.timers := by
  obtain ⟨w0, hload, hlt, hs0, htr0, htm0⟩ := loadConsentData_cmp_missing w (some cb) hapi hcmp
  have htr : (done w.sessions.length .null (.str ("USP CMP not found." ++
      " Resuming auction without consent data as per consentManagement config.")) []
      w0).trace = w.trace ++ ([.strategyCall w.sessions.length "iab"] ++
        doneEvents w.sessions.length (w0.session w.sessions.length) .null
          (.str ("USP CMP not found." ++
            " Resuming auction without consent data as per consentManagement config.")) []) := by
    rw [done_trace _ _ _ _ _ hlt, htr0, List.append_assoc]
  refine ⟨_, hload, ?_, ?_, done_store _ _ _ _ _ hlt, ?_, ?_, ?_⟩
  · rw [eventsSince_append w _ _ htr, cmpCommands_append, cmpCommands_doneEvents]; rfl
  · rw [eventsSince_append w _ _ htr, cbCalls_append,
      cbCalls_doneEvents _ _ cb _ _ _ (by rw [hs0])]
    rfl
  · rw [done_session _ _ _ _ _ hlt]
  · rw [eventsSince_append w _ _ htr, timersStarted_append, timersStarted_doneEvents]; rfl
  · rw [done_timers _ _ _ _ _ hlt, hs0]; exact htm0

/-- C14, witness: the freshly loaded module on a page without a CMP. -/
theorem cmp_missing_resolves_with_error_witness :
    ∃ w1, loadConsentData (some .probe) (World.init none) = .ok w1 ∧
      cmpCommands 0 (eventsSince (World.init none) w1) = [] ∧
      cbCalls 0 (eventsSince (World.init none) w1) =
        [(.str ("USP CMP not found." ++
          " Resuming auction without consent data as per consentManagement config."), [])] ∧
      w1.uspDataHandler.getConsentData = .null ∧
      (w1.session 0).isDone = true ∧
      timersStarted 0 (eventsSince (World.init none) w1) = [] ∧
      w1.timers = [] :=
  cmp_missing_resolves_with_error (World.init none) .probe rfl rfl

/-- C13, counterexample: the CMP first answers with success and `1YNY`, then
with a failure that carries no `uspString`; the second response is declared a
success as well, with the string of the first. -/
theorem failure_after_success_declared_success :
    (loadConsentData (some .probe) (World.init (some ⟨true, []⟩))).toOption.map
      (fun w1 => doneCalls 0 (deliverAll 0
        [.cmpResponse (.obj [("uspString", .str "1YNY")]) (.bool true),
         .cmpResponse (.obj []) (.bool false)] w1).trace) =
    some [(.str "1YNY", .undefined, []), (.str "1YNY", .undefined, [])] := by
  rfl

/-- What one CMP response does to a lookup whose `uspResponse` is `f`: `done`
runs once, with the arguments `declaredOutcome` names, and `uspResponse` keeps
a new non-empty `uspString`. -/
theorem consentDataCallback_outcome (sid : Nat) (f : List (String × JsVal))
    (consentResponse success : JsVal) (w : World) (hlt : sid < w.sessions.length)
    (hresp : (w.session sid).uspResponse = .obj f)
    (hok : (success.truthy && consentResponse.isNullish) = false) :
    ∃ w1, consentDataCallback sid (callbacks sid) consentResponse success w = .ok w1 ∧
      doneCalls sid (eventsSince w w1) =
        [declaredOutcome (JsVal.lookupField f "usPrivacy") consentResponse success] ∧
      (w1.session sid).uspResponse =
        (if success.truthy && (consentResponse.get "uspString").truthy then
          .obj (JsVal.setField f "usPrivacy" (consentResponse.get "uspString"))
        else .obj f) := by
  by_cases hfresh : (success.truthy && (consentResponse.get "uspString").truthy) = true
  · have hs : success.truthy = true := by
      cases h : success.truthy <;> simp_all
    have hu : (consentResponse.get "uspString").truthy = true := by
      cases h : (consentResponse.get "uspString").truthy <;> simp_all
    have hr : consentResponse.isNullish = false := by
      cases h : consentResponse.isNullish <;> simp_all
    generalize hwS : w.setSession sid { w.session sid with
      uspResponse := JsVal.obj (JsVal.setField f "usPrivacy"
        (consentResponse.get "uspString")) } = wS
    have hsS : wS.session sid = { w.session sid with
        uspResponse := JsVal.obj (JsVal.setField f "usPrivacy"
          (consentResponse.get "uspString")) } := by
      rw [← hwS]; exact session_setSession _ _ _ hlt
    have hltS : sid < wS.sessions.length := by
      rw [← hwS]; simpa [World.setSession, length_setSessionAt] using hlt
    have htrS : wS.trace = w.trace := by rw [← hwS]; rfl
    have hg : (JsVal.obj (JsVal.setField f "usPrivacy" (consentResponse.get "uspString"))).get
        "usPrivacy" = consentResponse.get "uspString" := lookupField_setField _ _ _
    have hot : (JsVal.obj (JsVal.setField f "usPrivacy"
        (consentResponse.get "uspString"))).truthy = true := rfl
    generalize hw0 : ({ wS with consentData := consentResponse.get "uspString" } : World) = w0
    have hlt0 : sid < w0.sessions.length := by rw [← hw0]; exact hltS
    have hs0 : w0.session sid = wS.session sid := by rw [← hw0]; rfl
    have hcall : consentDataCallback sid (callbacks sid) consentResponse success w =
        .ok (done sid (consentResponse.get "uspString") .undefined [] w0) := by
      simp only [consentDataCallback, hs, getOrThrow, hr, hu, hresp, hwS, afterEach, hsS, hg,
        processUspData_callbacks, hot, Bool.and_self, if_true, Bool.false_eq_true, if_false,
        hw0]
    refine ⟨_, hcall, ?_, ?_⟩
    · rw [eventsSince_append w _ _ ((done_trace _ _ _ _ _ hlt0).trans
        (by rw [← hw0]; exact congrArg (· ++ _) htrS)), doneCalls_doneEvents]
      simp [declaredOutcome, hfresh]
    · rw [done_session _ _ _ _ _ hlt0, hs0, hsS, hfresh]
      rfl
  · have hcall : consentDataCallback sid (callbacks sid) consentResponse success w =
        .ok (afterEach sid (callbacks sid) w) := by
      by_cases hs : success.truthy = true
      · have hr : consentResponse.isNullish = false := by
          cases h : consentResponse.isNullish <;> simp_all
        have hu : (consentResponse.get "uspString").truthy = false := by
          cases h : (consentResponse.get "uspString").truthy <;> simp_all
        simp [consentDataCallback, hs, getOrThrow, hr, hu]
      · simp [consentDataCallback, hs]
    have hff : (success.truthy && (consentResponse.get "uspString").truthy) = false := by
      cases h : (success.truthy && (consentResponse.get "uspString").truthy) <;> simp_all
    by_cases hst : (JsVal.lookupField f "usPrivacy").truthy = true
    · have hg : (JsVal.obj f).get "usPrivacy" = JsVal.lookupField f "usPrivacy" := rfl
      have hot : (JsVal.obj f).truthy = true := rfl
      generalize hw0 : ({ w with consentData := JsVal.lookupField f "usPrivacy" } : World) = w0
      have hlt0 : sid < w0.sessions.length := by rw [← hw0]; exact hlt
      have hs0 : w0.session sid = w.session sid := by rw [← hw0]; rfl
      have hae : afterEach sid (callbacks sid) w =
          done sid (JsVal.lookupField f "usPrivacy") .undefined [] w0 := by
        simp only [afterEach, hresp, hg, hst, processUspData_callbacks, hot, Bool.and_self,
          if_true, hw0]
      refine ⟨_, hcall.trans (congrArg Except.ok hae), ?_, ?_⟩
      · rw [eventsSince_append w _ _ ((done_trace _ _ _ _ _ hlt0).trans
          (by rw [← hw0])), doneCalls_doneEvents]
        simp [declaredOutcome, hff, hst]
      · rw [done_session _ _ _ _ _ hlt0, hs0, hff]
        simpa using hresp
    · have hg : (JsVal.obj f).get "usPrivacy" = JsVal.lookupField f "usPrivacy" := rfl
      have hae : afterEach sid (callbacks sid) w =
          done sid .null (.str ("Unable to get USP consent string." ++
            " Resuming auction without consent data as per consentManagement config.")) []
            w := by
        simp [afterEach, hresp, hg, hst, callbacks]
      refine ⟨_, hcall.trans (congrArg Except.ok hae), ?_, ?_⟩
      · rw [eventsSince_append w _ _ (done_trace _ _ _ _ _ hlt), doneCalls_doneEvents]
        simp [declaredOutcome, hff, hst]
      · rw [done_session _ _ _ _ _ hlt, hff]
        simpa using hresp

/-- C13, as amended: `uspResponse` lives as long as the lookup, so a response is
judged together with the earlier ones.  A response that does not raise runs
`done` once: with its own `uspString` and no error when `success` is truthy
and the `uspString` non-empty; otherwise with the `usPrivacy` kept from an
earlier successful response, again with no error; and with the error `Unable
to get USP consent string.` only when there is neither.  So for the first
response, and as long as no response has succeeded, success is declared if
and only if the response has a truthy `success` and a non-empty `uspString`;
after a successful response every later response is declared a success. -/
theorem consentDataCallback_declares (sid : Nat) (f : List (String × JsVal))
    (consentResponse success : JsVal) (w : World) (hlt : sid < w.sessions.length)
    (hresp : (w.session sid).uspResponse = .obj f)
    (hok : (success.truthy && consentResponse.isNullish) = false) :
    (∃ w1, consentDataCallback sid (callbacks sid) consentResponse success w = .ok w1 ∧
      doneCalls sid (eventsSince w w1) =
        [declaredOutcome (JsVal.lookupField f "usPrivacy") consentResponse success] ∧
      (w1.session sid).uspResponse =
        (if success.truthy && (consentResponse.get "uspString").truthy then
          .obj (JsVal.setField f "usPrivacy" (consentResponse.get "uspString"))
        else .obj f)) ∧
    ((JsVal.lookupField f "usPrivacy").truthy = false →
      ((declaredOutcome (JsVal.lookupField f "usPrivacy") consentResponse success).2.1 =
          .undefined ↔
        (success.truthy = true ∧ (consentResponse.get "uspString").truthy = true))) ∧
    ((JsVal.lookupField f "usPrivacy").truthy = true →
      (declaredOutcome (JsVal.lookupField f "usPrivacy") consentResponse success).2.1 =
        .undefined) := by
  refine ⟨consentDataCallback_outcome sid f consentResponse success w hlt hresp hok, ?_, ?_⟩
  · intro hst
    by_cases hfresh : (success.truthy && (consentResponse.get "uspString").truthy) = true
    · simp only [declaredOutcome, hfresh, if_true, true_iff]
      exact ⟨by cases h : success.truthy <;> simp_all,
        by cases h : (consentResponse.get "uspString").truthy <;> simp_all⟩
    · have hff : (success.truthy && (consentResponse.get "uspString").truthy) = false := by
        cases h : (success.truthy && (consentResponse.get "uspString").truthy) <;> simp_all
      constructor
      · intro h
        simp [declaredOutcome, hff, hst] at h
      · rintro ⟨h1, h2⟩
        rw [h1, h2] at hff
        cases hff
  · intro hst
    by_cases hfresh : (success.truthy && (consentResponse.get "uspString").truthy) = true
    · simp [declaredOutcome, hfresh]
    · simp [declaredOutcome, hfresh, hst]

/-- C13, witness: a first response without `uspString` is declared an error. -/
theorem consentDataCallback_declares_witness :
    ∃ w1, consentDataCallback 0 (callbacks 0) (.obj []) (.bool true)
        { World.init none with sessions := [⟨some .probe, none, false, .obj []⟩] } = .ok w1 ∧
      doneCalls 0 (eventsSince
        { World.init none with sessions := [⟨some .probe, none, false, .obj []⟩] } w1) =
        [(.null, .str ("Unable to get USP consent string." ++
          " Resuming auction without consent data as per consentManagement config."), [])] ∧
      (w1.session 0).uspResponse = .obj [] :=
  (consentDataCallback_declares 0 [] (.obj []) (.bool true)
    { World.init none with sessions := [⟨some .probe, none, false, .obj []⟩] }
    (by decide) rfl rfl).1

/-! ## What a lookup leaves alone -/

theorem invokeCb_config (sid : Nat) (cb : Callback) (e : JsVal) (x : List JsVal) (w : World) :
    (invokeCb sid cb e x w).config = w.config := by
  cases cb with
  | probe => rfl
  | hook o =>
    simp only [invokeCb]
    split <;> rfl

theorem done_config_eq (sid : Nat) (v e : JsVal) (x : List JsVal) (w : World) :
    (done sid v e x w).config = w.config := by
  unfold done
  simp only []
  split <;> split <;> (try rw [invokeCb_config]) <;> rfl

theorem processUspData_config (sid : Nat) (consentObject : JsVal) (w : World) :
    (processUspData consentObject (callbacks sid) w).config = w.config := by
  rw [processUspData_callbacks]
  split
  · rw [done_config_eq]; rfl
  · rw [done_config_eq]

theorem afterEach_config (sid : Nat) (w : World) :
    (afterEach sid (callbacks sid) w).config = w.config := by
  unfold afterEach
  simp only []
  split
  · exact processUspData_config _ _ _
  · exact done_config_eq _ _ _ _ _

theorem consentDataCallback_config (sid : Nat) (r s : JsVal) (w w1 : World)
    (h : consentDataCallback sid (callbacks sid) r s w = .ok w1) : w1.config = w.config := by
  unfold consentDataCallback at h
  split at h
  · split at h
    · cases h
    · split at h
      · simp only [Except.ok.injEq] at h
        rw [← h, afterEach_config]
        rfl
      · simp only [Except.ok.injEq] at h
        rw [← h, afterEach_config]
  · simp only [Except.ok.injEq] at h
    rw [← h, afterEach_config]

theorem deliverSync_config (sid : Nat) (rs : List (JsVal × JsVal)) :
    ∀ (w w1 : World), deliverSync sid (callbacks sid) rs w = .ok w1 → w1.config = w.config := by
  induction rs with
  | nil =>
    intro w w1 h
    simp only [deliverSync, Except.ok.injEq] at h
    rw [h]
  | cons a rest ih =>
    obtain ⟨r, s⟩ := a
    intro w w1 h
    simp only [deliverSync] at h
    cases hc : consentDataCallback sid (callbacks sid) r s w with
    | error err => simp [hc] at h
    | ok w2 =>
      simp only [hc] at h
      rw [ih _ _ h, consentDataCallback_config _ _ _ _ _ hc]

theorem callStrategy_config (key : String) (strategy : Strategy) (sid : Nat) (w w1 : World)
    (h : callStrategy key strategy sid w = .ok w1) : w1.config = w.config := by
  cases strategy with
  | lookupStaticConsentData =>
    simp only [callStrategy, lookupStaticConsentData, Except.ok.injEq] at h
    rw [← h, processUspData_config]
    rfl
  | inherited throws =>
    cases throws with
    | true => simp [callStrategy] at h
    | false =>
      simp only [callStrategy, Except.ok.injEq] at h
      rw [← h]
      rfl
  | lookupUspConsent =>
    simp only [callStrategy, lookupUspConsent] at h
    split at h
    · simp only [Except.ok.injEq] at h
      rw [← h]
      exact (done_config_eq _ _ _ _ _).trans rfl
    · split at h
      · cases h
      · rename_i w2 hd
        simp only [Except.ok.injEq] at h
        rw [← h]
        exact (deliverSync_config _ _ _ _ hd).trans rfl

theorem afterStrategy_config (sid : Nat) (w : World) :
    (afterStrategy sid w).config = w.config := by
  unfold afterStrategy
  split
  · split
    · exact processUspData_config _ _ _
    · rfl
  · rfl

theorem loadConsentData_config (cb : Option Callback) (w w1 : World)
    (h : loadConsentData cb w = .ok w1) : w1.config = w.config := by
  unfold loadConsentData at h
  simp only [] at h
  split at h
  · simp only [Except.ok.injEq] at h
    rw [← h]
    exact (done_config_eq _ _ _ _ _).trans rfl
  · split at h
    · cases h
    · rename_i w2 hc
      simp only [Except.ok.injEq] at h
      rw [← h, afterStrategy_config]
      exact (callStrategy_config _ _ _ _ _ hc).trans rfl

theorem enableConsentManagement_config (w w1 : World)
    (h : enableConsentManagement w = .ok w1) : w1.config = w.config := by
  unfold enableConsentManagement at h
  simp only [] at h
  rw [loadConsentData_config _ _ _ h]
  split <;> rfl

theorem get_of_falsy (v : JsVal) (key : String) (h : v.truthy = false) :
    v.get key = .undefined := by
  cases v <;> first | rfl | cases h

theorem isNullish_of_truthy (v : JsVal) (h : v.truthy = true) : v.isNullish = false := by
  cases v <;> first | rfl | cases h

theorem isStr_of_isStatic (v : JsVal) (h : isStatic v = true) : isStr v = true := by
  cases v <;> first | rfl | cases h

/-- The assignments of `setConsentConfig` never raise; they leave the provider
name and timeout that `specConsentAPI` and `specConsentTimeout` describe, and
they do not touch the page's CMP. -/
theorem applyConsentConfig_values (c : JsVal) (w : World) :
    ∃ w0, applyConsentConfig c w = .ok w0 ∧ w0.consentAPI = specConsentAPI c ∧
      w0.consentTimeout = specConsentTimeout c ∧ w0.cmp = w.cmp := by
  have hu : ∀ k, JsVal.undefined.get k = .undefined := fun _ => rfl
  have hiab : isStatic (.str "iab") = false := rfl
  have hsu : isStr .undefined = false := rfl
  have hnu : isNumber .undefined = false := rfl
  have hstu : isStatic .undefined = false := rfl
  have key : ∀ (cfg : JsVal) (w1 : World), (∀ k, cfg.get k = (c.get "usp").get k) →
      (cfg.truthy = true ∨ ∀ k, cfg.get k = .undefined) →
      ∃ w0, (
        let w2 : World := if cfg.truthy && isStr (cfg.get "cmpApi") then
            { w1 with consentAPI := cfg.get "cmpApi" }
          else { w1 with consentAPI := .str "iab" }
        let w3 : World := if cfg.truthy && isNumber (cfg.get "timeout") then
            { w2 with consentTimeout := cfg.get "timeout" }
          else { w2 with consentTimeout := .num 50 }
        if isStatic w3.consentAPI then
          match getOrThrow cfg "consentData" with
          | .error e => .error e
          | .ok consentData =>
            if isPlainObject consentData && isPlainObject (consentData.get "getUSPData") then
              let uspString := (consentData.get "getUSPData").get "uspString"
              let w4 : World := if uspString.truthy then
                  { w3 with staticConsentData := .obj [("usPrivacy", uspString)] }
                else w3
              .ok { w4 with consentTimeout := .num 0 }
            else
              .ok (w3.emit (.log .error
                "consentManagement config with cmpApi: 'static' did not specify consentData. No consents will be available to adapters."))
        else .ok w3) = Except.ok w0 ∧ w0.consentAPI = specConsentAPI c ∧
        w0.consentTimeout = specConsentTimeout c ∧ w0.cmp = w1.cmp := by
    intro cfg w1 hget htr
    unfold specConsentAPI specConsentTimeout
    rw [← hget "cmpApi", ← hget "timeout", ← hget "consentData"]
    rcases htr with htr | hg
    · have hnl := isNullish_of_truthy cfg htr
      cases hs : isStr (cfg.get "cmpApi") <;> cases hn : isNumber (cfg.get "timeout")
      all_goals
        cases hst : isStatic (cfg.get "cmpApi") <;>
        cases hp : (isPlainObject (cfg.get "consentData") &&
          isPlainObject ((cfg.get "consentData").get "getUSPData"))
      all_goals
        first
        | exact absurd (isStr_of_isStatic _ hst) (by rw [hs]; decide)
        | (simp only [htr, hs, hn, hst, hp, hiab, getOrThrow, hnl, Bool.true_and, Bool.and_true,
            Bool.false_and, Bool.and_false, Bool.false_eq_true, if_true, if_false]
           refine ⟨_, rfl, ?_, ?_, ?_⟩ <;> (repeat' split) <;> rfl)
    · have htf : (cfg.truthy && isStr (cfg.get "cmpApi")) = false := by
        rw [hg, hsu, Bool.and_false]
      have htn : (cfg.truthy && isNumber (cfg.get "timeout")) = false := by
        rw [hg, hnu, Bool.and_false]
      simp only [htf, htn, hg, hu, hsu, hnu, hstu, hiab, Bool.false_eq_true, if_false,
        Bool.false_and, Bool.and_false]
      exact ⟨_, rfl, rfl, rfl, rfl⟩
  cases hc : c.truthy
  · have hg : ∀ k, c.get k = .undefined := fun k => get_of_falsy c k hc
    obtain ⟨w0, h0, h1, h2, h3⟩ := key c (if !c.truthy || typeofNotObject c then
        w.emit (.log .warn "consentManagement.usp config not defined, using defaults")
      else w) (fun k => by rw [hg, hg, hu]) (Or.inr hg)
    refine ⟨w0, ?_, h1, h2, h3.trans (by split <;> rfl)⟩
    simpa only [applyConsentConfig, hc, Bool.false_eq_true, if_false] using h0
  · cases htr : (c.get "usp").truthy
    · obtain ⟨w0, h0, h1, h2, h3⟩ := key (c.get "usp")
        (if !(c.get "usp").truthy || typeofNotObject (c.get "usp") then
          w.emit (.log .warn "consentManagement.usp config not defined, using defaults")
        else w) (fun _ => rfl) (Or.inr (fun k => get_of_falsy _ k htr))
      refine ⟨w0, ?_, h1, h2, h3.trans (by split <;> rfl)⟩
      simpa only [applyConsentConfig, hc, if_true] using h0
    · obtain ⟨w0, h0, h1, h2, h3⟩ := key (c.get "usp")
        (if !(c.get "usp").truthy || typeofNotObject (c.get "usp") then
          w.emit (.log .warn "consentManagement.usp config not defined, using defaults")
        else w) (fun _ => rfl) (Or.inl htr)
      refine ⟨w0, ?_, h1, h2, h3.trans (by split <;> rfl)⟩
      simpa only [applyConsentConfig, hc, if_true] using h0

/-! ## `fn` is called in step with `done` -/

theorem doneCalls_doneEvents_ne (sid s : Nat) (sess : Session) (v e : JsVal) (x : List JsVal)
    (h : s ≠ sid) : doneCalls s (doneEvents sid sess v e x) = [] := by
  have h1 : ¬ sid = s := fun hh => h hh.symm
  cases hs : sess.timer <;> cases hc : sess.cb with
  | none => simp [doneEvents, hc, hs, doneCalls, h1]
  | some c =>
    cases c <;> simp [doneEvents, hc, hs, doneCalls, h1]
    all_goals split <;> simp [doneCalls]

theorem nextCalls_doneEvents (sid : Nat) (sess : Session) (v e : JsVal) (x : List JsVal) :
    nextCalls (doneEvents sid sess v e x) = expectedNext sess.cb 1 := by
  cases hs : sess.timer <;> cases hc : sess.cb with
  | none => simp [doneEvents, hc, hs, nextCalls, expectedNext]
  | some c =>
    cases c <;> simp [doneEvents, hc, hs, nextCalls, expectedNext]
    all_goals split <;> simp [nextCalls]

theorem expectedNext_add (cb : Option Callback) (m n : Nat) :
    expectedNext cb (m + n) = expectedNext cb m ++ expectedNext cb n := by
  cases cb with
  | none => rfl
  | some c =>
    cases c with
    | probe => rfl
    | hook o => exact List.replicate_add m n o

theorem Lockstep.nil (sid : Nat) (cb : Option Callback) : Lockstep sid cb [] := by
  refine ⟨?_, fun _ _ => rfl⟩
  cases cb with
  | none => rfl
  | some c => cases c <;> rfl

theorem Lockstep.append {sid : Nat} {cb : Option Callback} {a b : List Event}
    (ha : Lockstep sid cb a) (hb : Lockstep sid cb b) : Lockstep sid cb (a ++ b) := by
  refine ⟨?_, fun s hs => ?_⟩
  · rw [nextCalls_append, doneCalls_append, List.length_append, expectedNext_add, ha.1, hb.1]
  · rw [doneCalls_append, ha.2 s hs, hb.2 s hs]
    rfl

theorem Lockstep.doneEvents (sid : Nat) (sess : Session) (v e : JsVal) (x : List JsVal) :
    Lockstep sid sess.cb (doneEvents sid sess v e x) := by
  refine ⟨?_, fun s hs => doneCalls_doneEvents_ne sid s sess v e x hs⟩
  rw [nextCalls_doneEvents, doneCalls_doneEvents]
  rfl

/-! ## The values `setConsentConfig` assigns -/

theorem setConsentConfig_static_returns (config : JsVal) (w : World)
    (hstatic : (config.get "usp").get "cmpApi" = .str "static") :
    ∃ w1, setConsentConfig config w = .ok w1 := by
  obtain ⟨w0, logs, h0, hapi, _⟩ := applyConsentConfig_static config w hstatic
  obtain ⟨w1, h1, _⟩ := enableConsentManagement_static w0 hapi
  exact ⟨w1, by simp only [setConsentConfig, h0, h1]⟩

theorem get_of_typeofNotObject (v : JsVal) (key : String) (h : typeofNotObject v = true) :
    v.get key = .undefined := by
  cases v <;> simp_all [typeofNotObject, JsVal.get]

/-- C11: the assignments of `setConsentConfig(c)` never raise and leave
`consentAPI` equal to `c.usp.cmpApi` when that is a string and to `'iab'`
otherwise, and `consentTimeout` equal to 0 for a static configuration whose
`consentData` and `consentData.getUSPData` are plain objects, and otherwise to
`c.usp.timeout` when that is a number and to 50 when it is not; the lookup that
`setConsentConfig` then starts changes neither, so they hold when it returns;
when `c.usp` is missing or not an object the values are `'iab'` and 50. -/
theorem setConsentConfig_sets_api_and_timeout (c : JsVal) (w : World) :
    (∃ w0, applyConsentConfig c w = .ok w0 ∧
      w0.consentAPI = specConsentAPI c ∧ w0.consentTimeout = specConsentTimeout c) ∧
    (∀ w1, setConsentConfig c w = .ok w1 →
      w1.consentAPI = specConsentAPI c ∧ w1.consentTimeout = specConsentTimeout c) ∧
    ((c.get "usp").truthy = false ∨ typeofNotObject (c.get "usp") = true →
      specConsentAPI c = .str "iab" ∧ specConsentTimeout c = .num 50) := by
  obtain ⟨w0, h0, hapi, hct, _⟩ := applyConsentConfig_values c w
  refine ⟨⟨w0, h0, hapi, hct⟩, ?_, ?_⟩
  · intro w1 h1
    simp only [setConsentConfig, h0] at h1
    have hc := enableConsentManagement_config w0 w1 h1
    simp only [World.config, Prod.mk.injEq] at hc
    exact ⟨hc.1.trans hapi, hc.2.1.trans hct⟩
  · intro h
    have hg : ∀ k, (c.get "usp").get k = .undefined := by
      intro k
      rcases h with h | h
      · exact get_of_falsy _ _ h
      · exact get_of_typeofNotObject _ _ h
    simp only [specConsentAPI, specConsentTimeout, hg]
    exact ⟨rfl, rfl⟩

/-- C11, witness: a static configuration with well-formed `consentData` and
`timeout: 100` ends with `consentAPI = 'static'` and `consentTimeout = 0`. -/
theorem setConsentConfig_sets_api_and_timeout_witness :
    ∃ w1, setConsentConfig (.obj [("usp", .obj [("cmpApi", .str "static"), ("timeout", .num 100),
        ("consentData", .obj [("getUSPData", .obj [("uspString", .str "1YNY")])])])])
        (World.init none) = .ok w1 ∧
      w1.consentAPI = .str "static" ∧ w1.consentTimeout = .num 0 := by
  obtain ⟨w1, h1⟩ := setConsentConfig_static_returns
    (.obj [("usp", .obj [("cmpApi", .str "static"), ("timeout", .num 100),
      ("consentData", .obj [("getUSPData", .obj [("uspString", .str "1YNY")])])])])
    (World.init none) rfl
  exact ⟨w1, h1, (setConsentConfig_sets_api_and_timeout _ _).2.1 w1 h1⟩

/-! ## Which operations raise -/

theorem consentDataCallback_ok_iff (sid : Nat) (cbs : Callbacks) (r s : JsVal) (w : World) :
    (∃ w1, consentDataCallback sid cbs r s w = .ok w1) ↔ (s.truthy && r.isNullish) = false := by
  cases hs : s.truthy
  · simp [consentDataCallback, hs]
  · cases hr : r.isNullish
    · by_cases hu : (r.get "uspString").truthy = true <;>
        simp [consentDataCallback, hs, hr, getOrThrow, hu]
    · simp [consentDataCallback, hs, hr, getOrThrow]

theorem deliverSync_ok (sid : Nat) (cbs : Callbacks) (rs : List (JsVal × JsVal)) :
    ∀ w : World, (∀ p ∈ rs, (p.2.truthy && p.1.isNullish) = false) →
      ∃ w1, deliverSync sid cbs rs w = .ok w1 := by
  induction rs with
  | nil => intro w _; exact ⟨w, rfl⟩
  | cons p rest ih =>
    intro w h
    obtain ⟨r, s⟩ := p
    obtain ⟨w1, h1⟩ := (consentDataCallback_ok_iff sid cbs r s w).2
      (h (r, s) (List.mem_cons_self _ _))
    obtain ⟨w2, h2⟩ := ih w1 (fun p hp => h p (List.mem_cons_of_mem _ hp))
    exact ⟨w2, by simp only [deliverSync, h1, h2]⟩

theorem deliverSync_ne_error (sid : Nat) (cbs : Callbacks) (rs : List (JsVal × JsVal))
    (w : World) (h : ∀ p ∈ rs, (p.2.truthy && p.1.isNullish) = false) (e : JsError) :
    deliverSync sid cbs rs w ≠ .error e := by
  obtain ⟨w1, h1⟩ := deliverSync_ok sid cbs rs w h
  rw [h1]
  exact fun hh => Except.noConfusion hh

theorem callStrategy_ne_error (key : String) (strategy : Strategy) (sid : Nat) (w : World)
    (hkey : strategy ≠ .inherited true)
    (hsync : ∀ cmp, w.cmp = some cmp →
      ∀ p ∈ cmp.syncResponses, (p.2.truthy && p.1.isNullish) = false) (e : JsError) :
    callStrategy key strategy sid w ≠ .error e := by
  cases strategy with
  | lookupUspConsent =>
    unfold callStrategy lookupUspConsent
    simp only []
    split
    · exact fun hh => Except.noConfusion hh
    · rename_i cmp hcmp
      split
      · rename_i e1 heq
        exact absurd heq (deliverSync_ne_error _ _ _ _ (hsync cmp hcmp) e1)
      · exact fun hh => Except.noConfusion hh
  | lookupStaticConsentData => exact fun hh => Except.noConfusion hh
  | inherited throws =>
    cases throws with
    | true => exact absurd rfl hkey
    | false => exact fun hh => Except.noConfusion hh

/-- A lookup returns unless the strategy is an inherited member that rejects
its argument, or the CMP answers during the call with a truthy `success` and a
`null` or `undefined` response. -/
theorem loadConsentData_ok (cb : Option Callback) (w : World)
    (hkey : uspCallMap w.consentAPI.toStr ≠ some (.inherited true))
    (hsync : ∀ cmp, w.cmp = some cmp →
      ∀ p ∈ cmp.syncResponses, (p.2.truthy && p.1.isNullish) = false) :
    ∃ w1, loadConsentData cb w = .ok w1 := by
  unfold loadConsentData
  simp only []
  generalize hw0 : ({ w with sessions := w.sessions ++
    [{ cb := cb, timer := none, isDone := false, uspResponse := .obj [] }] } : World) = w0
  have hcmp0 : w0.cmp = w.cmp := by rw [← hw0]
  split
  · exact ⟨_, rfl⟩
  · rename_i strategy hk
    have hs : strategy ≠ .inherited true := fun hh => hkey (hk.trans (congrArg some hh))
    split
    · rename_i e heq
      exact absurd heq (callStrategy_ne_error w.consentAPI.toStr strategy w.sessions.length w0
        hs (by rw [hcmp0]; exact hsync) e)
    · exact ⟨_, rfl⟩

theorem enableConsentManagement_ok (w : World)
    (hkey : uspCallMap w.consentAPI.toStr ≠ some (.inherited true))
    (hsync : ∀ cmp, w.cmp = some cmp →
      ∀ p ∈ cmp.syncResponses, (p.2.truthy && p.1.isNullish) = false) :
    ∃ w1, enableConsentManagement w = .ok w1 := by
  unfold enableConsentManagement
  simp only []
  split
  · exact loadConsentData_ok none
      { w with enabled := true, uspDataHandler := w.uspDataHandler.enable } hkey hsync
  · exact loadConsentData_ok none w hkey hsync

/-- C15, counterexample: a CMP response `(null, true)` makes
`consentDataCallback` raise, both when it arrives after `loadConsentData` has
returned and when the CMP delivers it during `setConsentConfig`, which then
raises as well. -/
theorem null_response_with_success_raises :
    (loadConsentData (some .probe) (World.init (some ⟨true, []⟩))).toOption.map
      (fun w1 => (consentDataCallback 0 (callbacks 0) .null (.bool true) w1).toOption.isSome) =
      some false ∧
    (setConsentConfig (.obj [("usp", .obj [("cmpApi", .str "iab")])])
      (World.init (some ⟨true, [(.null, .bool true)]⟩))).toOption.isSome = false := by
  exact ⟨rfl, rfl⟩

/-- C15, as amended: `consentDataCallback(consentResponse, success)` returns
normally exactly when `success` is falsy or `consentResponse` is neither `null`
nor `undefined`, and it then runs `done` once; `setConsentConfig(c)` returns
normally for every `c` whose provider name does not select a member inherited
from `Object.prototype`, provided the CMP delivers no response with a truthy
`success` and a `null` or `undefined` payload during the call. -/
theorem consent_subsystem_raises_only_on_nullish_success (sid : Nat) (r s : JsVal)
    (w : World) (c : JsVal) :
    ((∃ w1, consentDataCallback sid (callbacks sid) r s w = .ok w1) ↔
      (s.truthy && r.isNullish) = false) ∧
    (sid < w.sessions.length → (s.truthy && r.isNullish) = false →
      ∃ w1, consentDataCallback sid (callbacks sid) r s w = .ok w1 ∧
        (doneCalls sid (eventsSince w w1)).length = 1) ∧
    ((∀ t, uspCallMap (specConsentAPI c).toStr ≠ some (.inherited t)) →
      (∀ cmp, w.cmp = some cmp →
        ∀ p ∈ cmp.syncResponses, (p.2.truthy && p.1.isNullish) = false) →
      ∃ w1, setConsentConfig c w = .ok w1) := by
  refine ⟨consentDataCallback_ok_iff sid (callbacks sid) r s w, ?_, ?_⟩
  · intro hlt hno
    rcases consentDataCallback_done sid r s w hlt with ⟨hs, hr, _⟩ | ⟨_, w0, v, e, x, hok, hfr⟩
    · rw [hs, hr] at hno
      cases hno
    · have hlt0 : sid < w0.sessions.length := by rw [hfr.length]; exact hlt
      refine ⟨_, hok, ?_⟩
      rw [eventsSince_append w _ (doneEvents sid (w0.session sid) v e x)
        (by rw [done_trace _ _ _ _ _ hlt0, hfr.trace]), doneCalls_doneEvents]
      rfl
  · intro hkey hsync
    obtain ⟨w0, h0, hapi, _, hcmp⟩ := applyConsentConfig_values c w
    obtain ⟨w1, h1⟩ := enableConsentManagement_ok w0 (by rw [hapi]; exact hkey true)
      (by rw [hcmp]; exact hsync)
    exact ⟨w1, by simp only [setConsentConfig, h0, h1]⟩

/-- C15, witness: an `iab` configuration on a page whose CMP stays silent
during the call. -/
theorem consent_subsystem_raises_only_on_nullish_success_witness :
    ∃ w1, setConsentConfig (.obj [("usp", .obj [("cmpApi", .str "iab")])])
      (World.init (some ⟨true, []⟩)) = .ok w1 :=
  (consent_subsystem_raises_only_on_nullish_success 0 (.obj []) (.bool false)
    (World.init (some ⟨true, []⟩)) (.obj [("usp", .obj [("cmpApi", .str "iab")])])).2.2
    (by
      intro t h
      have h2 : some Strategy.lookupUspConsent = some (Strategy.inherited t) := h
      cases h2)
    (by
      intro cmp h p hp
      have h2 : some (⟨true, []⟩ : Cmp) = some cmp := h
      cases h2
      cases hp)

/-! ## The messages of the error outcomes -/

/-- What a `done` call reports: `cb` receives its message and extra arguments,
and the consent store its value. -/
theorem done_reports (sid : Nat) (cb : Callback) (v e : JsVal) (x : List JsVal)
    (w0 w : World) (pre : List Event) (hlt : sid < w0.sessions.length)
    (hcb : (w0.session sid).cb = some cb) (htr : w0.trace = w.trace ++ pre)
    (hpre : cbCalls sid pre = []) :
    cbCalls sid (eventsSince w (done sid v e x w0)) = [(e, x)] ∧
    (done sid v e x w0).uspDataHandler.getConsentData = v := by
  refine ⟨?_, done_store _ _ _ _ _ hlt⟩
  rw [eventsSince_append w _ (pre ++ doneEvents sid (w0.session sid) v e x)
    (by rw [done_trace _ _ _ _ _ hlt, htr, List.append_assoc]),
    cbCalls_append, hpre, cbCalls_doneEvents _ _ cb _ _ _ hcb]
  rfl

/-- A CMP response that does not raise runs `done` once, with the arguments
`declaredOutcome` names. -/
theorem consentDataCallback_resolves (sid : Nat) (f : List (String × JsVal))
    (r s : JsVal) (w : World) (hlt : sid < w.sessions.length)
    (hresp : (w.session sid).uspResponse = .obj f)
    (hok : (s.truthy && r.isNullish) = false) :
    ∃ w0, Frame sid w w0 ∧ consentDataCallback sid (callbacks sid) r s w =
      .ok (done sid (declaredOutcome (JsVal.lookupField f "usPrivacy") r s).1
        (declaredOutcome (JsVal.lookupField f "usPrivacy") r s).2.1
        (declaredOutcome (JsVal.lookupField f "usPrivacy") r s).2.2 w0) := by
  obtain ⟨w1, h1, hdc, _⟩ := consentDataCallback_outcome sid f r s w hlt hresp hok
  rcases consentDataCallback_done sid r s w hlt with ⟨hs, hr, _⟩ | ⟨_, w0, v, e, x, h2, hfr⟩
  · rw [hs, hr] at hok
    cases hok
  · have hlt0 : sid < w0.sessions.length := by rw [hfr.length]; exact hlt
    have hw : w1 = done sid v e x w0 := Except.ok.inj (h1.symm.trans h2)
    rw [hw, eventsSince_append w _ (doneEvents sid (w0.session sid) v e x)
      (by rw [done_trace _ _ _ _ _ hlt0, hfr.trace]), doneCalls_doneEvents] at hdc
    have hv := List.head_eq_of_cons_eq hdc
    refine ⟨w0, hfr, ?_⟩
    rw [h2, ← hv]

theorem unsupportedMsg_take (api : String) :
    (unsupportedMsg api).data.take 5 = ['U', 'S', 'P', ' ', 'f'] := by
  simp only [unsupportedMsg, String.data_append]
  rfl

theorem errorMessages_nodup (api : String) :
    [unsupportedMsg api, cmpNotFoundMsg, noConsentStringMsg, unexpectedValueMsg,
      timeoutMsg].Nodup := by
  have hne : ∀ m : String, m.data.take 5 ≠ ['U', 'S', 'P', ' ', 'f'] → unsupportedMsg api ≠ m := by
    intro m hm h
    exact hm (by rw [← h]; exact unsupportedMsg_take api)
  have h1 := hne cmpNotFoundMsg (by decide)
  have h2 := hne noConsentStringMsg (by decide)
  have h3 := hne unexpectedValueMsg (by decide)
  have h4 := hne timeoutMsg (by decide)
  have h5 : cmpNotFoundMsg ≠ noConsentStringMsg := by decide
  have h6 : cmpNotFoundMsg ≠ unexpectedValueMsg := by decide
  have h7 : cmpNotFoundMsg ≠ timeoutMsg := by decide
  have h8 : noConsentStringMsg ≠ unexpectedValueMsg := by decide
  have h9 : noConsentStringMsg ≠ timeoutMsg := by decide
  have h10 : unexpectedValueMsg ≠ timeoutMsg := by decide
  simp [h1, h2, h3, h4, h5, h6, h7, h8, h9, h10]

/-- The state in which `loadConsentData` calls `done` when the static consent
data holds no `usPrivacy`. -/
theorem loadConsentData_static_invalid (w : World) (cb : Option Callback)
    (hapi : w.consentAPI = .str "static") (hinv : validConsent w.staticConsentData = false) :
    ∃ w0, loadConsentData cb w = .ok (done w.sessions.length .null (.str unexpectedValueMsg)
        [w.staticConsentData] w0) ∧
      w.sessions.length < w0.sessions.length ∧
      w0.session w.sessions.length = ⟨cb, none, false, .obj []⟩ ∧
      w0.trace = w.trace ++ [.strategyCall w.sessions.length "static"] := by
  generalize hwE : World.emit ({ w with sessions := w.sessions ++
      [{ cb := cb, timer := none, isDone := false, uspResponse := .obj [] }] } : World)
      (.strategyCall w.sessions.length "static") = wE
  have hltE : w.sessions.length < wE.sessions.length := by rw [← hwE]; simp [World.emit]
  have hsE : wE.session w.sessions.length = ⟨cb, none, false, .obj []⟩ := by
    rw [← hwE]; exact sessionAt_append_length _ _
  have htrE : wE.trace = w.trace ++ [.strategyCall w.sessions.length "static"] := by
    rw [← hwE]; rfl
  have hstE : wE.staticConsentData = w.staticConsentData := by rw [← hwE]; rfl
  have hmap : uspCallMap "static" = some .lookupStaticConsentData := rfl
  have hkey : w.consentAPI.toStr = "static" := by rw [hapi]; rfl
  have hd := processUspData_isDone w.sessions.length wE.staticConsentData wE hltE
  have hload : loadConsentData cb w =
      .ok (processUspData wE.staticConsentData (callbacks w.sessions.length) wE) := by
    simp only [loadConsentData, hkey, hmap, callStrategy, lookupStaticConsentData,
      hwE, afterStrategy, hd]
    rfl
  have hinv2 : (w.staticConsentData.truthy &&
      (w.staticConsentData.get "usPrivacy").truthy) = false := hinv
  refine ⟨wE, ?_, hltE, hsE, htrE⟩
  rw [hload, processUspData_callbacks, hstE, hinv2]
  rfl

/-- C16, counterexample: with a timeout of 0 and a silent CMP the lookup ends
with the text that `processUspData` also gives for malformed consent data (here
a static configuration without consent data); `cb` receives the same message,
and the same extra argument, in both cases. -/
theorem zero_timeout_shares_malformed_data_message :
    (loadConsentData (some .probe)
        { World.init (some ⟨true, []⟩) with consentTimeout := .num 0 }).toOption.map
      (fun w1 => cbCalls 0 w1.trace) =
      some [(.str unexpectedValueMsg, [.undefined])] ∧
    (loadConsentData (some .probe)
        { World.init none with consentAPI := .str "static" }).toOption.map
      (fun w1 => cbCalls 0 w1.trace) =
      some [(.str unexpectedValueMsg, [.undefined])] := by
  exact ⟨rfl, rfl⟩

/-- C16, as amended: the five texts with which a lookup reports an error (the
provider name is unknown, no CMP is found, the CMP's response holds no consent
string, the consent object holds no `usPrivacy`, the timer expires) are pairwise
distinct for every provider name.  A lookup with an unknown provider name, with
no CMP, or with static consent data lacking `usPrivacy` gives `cb` the
respective text before `loadConsentData` returns; a CMP response without a
consent string, on a lookup that has stored none, gives the third; and with a
non-zero timeout and a silent CMP the expiry of the timer gives the last.  Each
leaves `null` in the consent store. -/
theorem lookup_errors_have_distinct_messages :
    (∀ api, [unsupportedMsg api, cmpNotFoundMsg, noConsentStringMsg, unexpectedValueMsg,
      timeoutMsg].Nodup) ∧
    (∀ (w : World) (cb : Callback), uspCallMap w.consentAPI.toStr = none →
      ∃ w1, loadConsentData (some cb) w = .ok w1 ∧
        cbCalls w.sessions.length (eventsSince w w1) =
          [(.str (unsupportedMsg w.consentAPI.toStr), [])] ∧
        w1.uspDataHandler.getConsentData = .null) ∧
    (∀ (w : World) (cb : Callback), w.consentAPI = .str "iab" → w.cmp = none →
      ∃ w1, loadConsentData (some cb) w = .ok w1 ∧
        cbCalls w.sessions.length (eventsSince w w1) = [(.str cmpNotFoundMsg, [])] ∧
        w1.uspDataHandler.getConsentData = .null) ∧
    (∀ (w : World) (cb : Callback), w.consentAPI = .str "static" →
      validConsent w.staticConsentData = false →
      ∃ w1, loadConsentData (some cb) w = .ok w1 ∧
        cbCalls w.sessions.length (eventsSince w w1) =
          [(.str unexpectedValueMsg, [w.staticConsentData])] ∧
        w1.uspDataHandler.getConsentData = .null) ∧
    (∀ (sid : Nat) (cb : Callback) (f : List (String × JsVal)) (r s : JsVal) (w : World),
      sid < w.sessions.length → (w.session sid).cb = some cb →
      (w.session sid).uspResponse = .obj f → (JsVal.lookupField f "usPrivacy").truthy = false →
      (s.truthy && (r.get "uspString").truthy) = false → (s.truthy && r.isNullish) = false →
      ∃ w1, consentDataCallback sid (callbacks sid) r s w = .ok w1 ∧
        cbCalls sid (eventsSince w w1) = [(.str noConsentStringMsg, [])] ∧
        w1.uspDataHandler.getConsentData = .null) ∧
    (∀ (w : World) (cb : Callback) (c : Cmp) (t : Int), w.WF → w.consentAPI = .str "iab" →
      w.cmp = some c → c.syncResponses = [] → w.consentTimeout = .num t → t ≠ 0 →
      ∃ w1, loadConsentData (some cb) w = .ok w1 ∧
        cbCalls w.sessions.length (eventsSince w w1) = [] ∧
        cbCalls w.sessions.length (eventsSince w1 (deliver w.sessions.length .timerExpiry w1)) =
          [(.str timeoutMsg, [])] ∧
        (deliver w.sessions.length .timerExpiry w1).uspDataHandler.getConsentData = .null) := by
  refine ⟨errorMessages_nodup, ?_, ?_, ?_, ?_, ?_⟩
  · intro w cb h
    obtain ⟨w1, h1, h2, h3, _⟩ := loadConsentData_unsupported w cb h
    exact ⟨w1, h1, h2, h3⟩
  · intro w cb hapi hcmp
    obtain ⟨w0, h1, hlt, hs0, htr, _⟩ := loadConsentData_cmp_missing w (some cb) hapi hcmp
    obtain ⟨h2, h3⟩ := done_reports w.sessions.length cb .null (.str cmpNotFoundMsg) [] w0 w
      [.strategyCall w.sessions.length "iab"] hlt (by rw [hs0]) htr rfl
    exact ⟨_, h1, h2, h3⟩
  · intro w cb hapi hinv
    obtain ⟨w0, h1, hlt, hs0, htr⟩ := loadConsentData_static_invalid w (some cb) hapi hinv
    obtain ⟨h2, h3⟩ := done_reports w.sessions.length cb .null (.str unexpectedValueMsg)
      [w.staticConsentData] w0 w [.strategyCall w.sessions.length "static"] hlt (by rw [hs0])
      htr rfl
    exact ⟨_, h1, h2, h3⟩
  · intro sid cb f r s w hlt hcb hresp hstored hfresh hok
    obtain ⟨w0, hfr, h1⟩ := consentDataCallback_resolves sid f r s w hlt hresp hok
    have ho : declaredOutcome (JsVal.lookupField f "usPrivacy") r s =
        (.null, .str noConsentStringMsg, []) := by
      simp only [declaredOutcome, hfresh, hstored, Bool.false_eq_true, if_false]
      rfl
    rw [ho] at h1
    obtain ⟨h2, h3⟩ := done_reports sid cb .null (.str noConsentStringMsg) [] w0 w []
      (by rw [hfr.length]; exact hlt) (by rw [hfr.cb]; exact hcb)
      (by rw [hfr.trace, List.append_nil]) rfl
    exact ⟨_, h1, h2, h3⟩
  · intro w cb c t hwf hapi hcmp hsync ht h0
    obtain ⟨w1, h1, inv, htr⟩ := loadConsentData_iab_awaiting w (some cb) c t hwf hapi hcmp hsync
      ht h0
    have hd : deliver w.sessions.length .timerExpiry w1 = done w.sessions.length .null
        (.str timeoutMsg) [] { w1 with timers := w1.timers.filter (fun t => t.id != w.nextTimer) } := by
      simp only [deliver, inv.timer]
      exact fireTimer_pending _ _ _ w1 inv
    obtain ⟨h2, h3⟩ := done_reports w.sessions.length cb .null (.str timeoutMsg) []
      { w1 with timers := w1.timers.filter (fun t => t.id != w.nextTimer) } w1 []
      inv.lt inv.cb (List.append_nil _).symm rfl
    refine ⟨w1, h1, ?_, ?_, ?_⟩
    · rw [eventsSince_append w w1 _ htr]
      rfl
    · rw [hd]; exact h2
    · rw [hd]; exact h3

/-- C16, witness: the default configuration on a page with a silent CMP; the
timer's expiry gives `cb` the timeout text. -/
theorem lookup_errors_have_distinct_messages_witness :
    ∃ w1, loadConsentData (some .probe) (World.init (some ⟨true, []⟩)) = .ok w1 ∧
      cbCalls 0 (eventsSince (World.init (some ⟨true, []⟩)) w1) = [] ∧
      cbCalls 0 (eventsSince w1 (deliver 0 .timerExpiry w1)) = [(.str timeoutMsg, [])] ∧
      (deliver 0 .timerExpiry w1).uspDataHandler.getConsentData = .null :=
  lookup_errors_have_distinct_messages.2.2.2.2.2 (World.init (some ⟨true, []⟩)) .probe
    ⟨true, []⟩ 50 (init_WF _) rfl rfl rfl rfl (by decide)

theorem done_nextTimer (sid : Nat) (v e : JsVal) (x : List JsVal) (w : World)
    (h : sid < w.sessions.length) : (done sid v e x w).nextTimer = w.nextTimer := by
  rw [done_eq sid v e x w h]

theorem Sync.start (w : World) (cb : Option Callback) :
    Sync w.sessions.length cb
      { w with sessions := w.sessions ++
        [{ cb := cb, timer := none, isDone := false, uspResponse := .obj [] }] }
      { w with sessions := w.sessions ++
        [{ cb := cb, timer := none, isDone := false, uspResponse := .obj [] }] } := by
  have hs : World.session ({ w with sessions := w.sessions ++
      [{ cb := cb, timer := none, isDone := false, uspResponse := .obj [] }] } : World)
      w.sessions.length = ⟨cb, none, false, .obj []⟩ := sessionAt_append_length _ _
  refine ⟨by simp, rfl, by rw [hs], by rw [hs], rfl, rfl, [], by simp, Lockstep.nil _ _, ?_⟩
  rw [hs]
  simp [doneCalls]

theorem Sync.done_step {sid : Nat} {cb : Option Callback} {w0 w : World}
    (h : Sync sid cb w0 w) (v e : JsVal) (x : List JsVal) :
    Sync sid cb w0 (done sid v e x w) := by
  obtain ⟨evs, htr, hl, _⟩ := h.trace
  refine ⟨?_, ?_, ?_, ?_, ?_, ?_, evs ++ doneEvents sid (w.session sid) v e x, ?_, ?_, ?_⟩
  · rw [done_length _ _ _ _ _ h.lt]; exact h.lt
  · rw [done_length _ _ _ _ _ h.lt]; exact h.len
  · rw [done_session _ _ _ _ _ h.lt]; exact h.callback
  · rw [done_session _ _ _ _ _ h.lt]; exact h.timer
  · rw [done_timers _ _ _ _ _ h.lt, h.timer]; exact h.timers
  · rw [done_nextTimer _ _ _ _ _ h.lt]; exact h.nextTimer
  · rw [done_trace _ _ _ _ _ h.lt, htr, List.append_assoc]
  · have hd := Lockstep.doneEvents sid (w.session sid) v e x
    rw [h.callback] at hd
    exact Lockstep.append hl hd
  · rw [done_session _ _ _ _ _ h.lt, doneCalls_append, doneCalls_doneEvents]
    simp

theorem Sync.frame {sid : Nat} {cb : Option Callback} {w0 w w1 : World}
    (h : Sync sid cb w0 w) (hf : Frame sid w w1) : Sync sid cb w0 w1 := by
  refine ⟨?_, ?_, ?_, ?_, ?_, ?_, ?_⟩
  · rw [hf.length]; exact h.lt
  · rw [hf.length]; exact h.len
  · rw [hf.cb]; exact h.callback
  · rw [hf.timer]; exact h.timer
  · rw [hf.timers]; exact h.timers
  · rw [hf.nextTimer]; exact h.nextTimer
  · rw [hf.trace, hf.isDone]; exact h.trace

theorem Sync.emit {sid : Nat} {cb : Option Callback} {w0 w : World}
    (h : Sync sid cb w0 w) (e : Event) (hn : nextCalls [e] = [])
    (hd : ∀ s, doneCalls s [e] = []) : Sync sid cb w0 (w.emit e) := by
  obtain ⟨evs, htr, hl, hi⟩ := h.trace
  refine ⟨h.lt, h.len, h.callback, h.timer, h.timers, h.nextTimer, evs ++ [e], ?_, ?_, ?_⟩
  · show w.trace ++ [e] = w0.trace ++ (evs ++ [e])
    rw [htr, List.append_assoc]
  · refine Lockstep.append hl ⟨?_, fun s _ => hd s⟩
    rw [hn, hd]
    cases cb with
    | none => rfl
    | some c => cases c <;> rfl
  · rw [doneCalls_append, hd, List.append_nil]
    exact hi

theorem Frame.setResp (sid : Nat) (w : World) (v : List (String × JsVal))
    (h : sid < w.sessions.length) :
    Frame sid w (w.setSession sid { w.session sid with uspResponse := .obj v }) := by
  refine ⟨rfl, rfl, rfl, ?_, ?_, ?_, ?_, ?_⟩
  · simp [World.setSession, length_setSessionAt]
  · rw [session_setSession _ _ _ h]
  · rw [session_setSession _ _ _ h]
  · rw [session_setSession _ _ _ h]
  · intro _
    rw [session_setSession _ _ _ h]
    exact ⟨_, rfl⟩

theorem processUspData_sync {sid : Nat} {cb : Option Callback} {w0 w : World}
    (h : Sync sid cb w0 w) (consentObject : JsVal) :
    Sync sid cb w0 (processUspData consentObject (callbacks sid) w) := by
  rw [processUspData_callbacks]
  split
  · have hf : Frame sid w { w with consentData := consentObject.get "usPrivacy" } :=
      ⟨rfl, rfl, rfl, rfl, rfl, rfl, rfl, id⟩
    exact Sync.done_step (Sync.frame h hf) _ _ _
  · exact Sync.done_step h _ _ _

theorem consentDataCallback_sync {sid : Nat} {cb : Option Callback} {w0 w w1 : World}
    (h : Sync sid cb w0 w) (r s : JsVal)
    (hok : consentDataCallback sid (callbacks sid) r s w = .ok w1) : Sync sid cb w0 w1 := by
  rcases consentDataCallback_done sid r s w h.lt with ⟨_, _, err, herr⟩ | ⟨_, w2, v, e, x, h2, hfr⟩
  · rw [herr] at hok
    cases hok
  · rw [h2] at hok
    cases hok
    exact Sync.done_step (Sync.frame h hfr) v e x

theorem deliverSync_sync {sid : Nat} {cb : Option Callback} {w0 : World}
    (rs : List (JsVal × JsVal)) :
    ∀ (w w1 : World), Sync sid cb w0 w → deliverSync sid (callbacks sid) rs w = .ok w1 →
      Sync sid cb w0 w1 := by
  induction rs with
  | nil =>
    intro w w1 h hok
    simp only [deliverSync, Except.ok.injEq] at hok
    subst hok
    exact h
  | cons p rest ih =>
    intro w w1 h hok
    obtain ⟨r, s⟩ := p
    simp only [deliverSync] at hok
    split at hok
    · cases hok
    · rename_i w2 h2
      exact ih w2 w1 (consentDataCallback_sync h r s h2) hok

theorem callStrategy_sync {sid : Nat} {cb : Option Callback} {w0 w w1 : World}
    (h : Sync sid cb w0 w) (key : String) (strategy : Strategy)
    (hok : callStrategy key strategy sid w = .ok w1) : Sync sid cb w0 w1 := by
  have hE : Sync sid cb w0 (w.emit (.strategyCall sid key)) :=
    Sync.emit h _ rfl (fun _ => rfl)
  cases strategy with
  | lookupUspConsent =>
    have hR : Sync sid cb w0 ((w.emit (.strategyCall sid key)).setSession sid
        { (w.emit (.strategyCall sid key)).session sid with uspResponse := .obj [] }) :=
      Sync.frame hE (Frame.setResp sid _ [] hE.lt)
    generalize hwR : (w.emit (.strategyCall sid key)).setSession sid
        { (w.emit (.strategyCall sid key)).session sid with uspResponse := .obj [] } = wR
        at hR
    simp only [callStrategy, lookupUspConsent, hwR] at hok
    split at hok
    · simp only [Except.ok.injEq] at hok
      subst hok
      exact Sync.done_step hR _ _ _
    · split at hok
      · cases hok
      · rename_i w2 h2
        simp only [Except.ok.injEq] at hok
        subst hok
        exact Sync.emit (deliverSync_sync _ _ _
          (Sync.emit hR (.cmpCommand sid "getUSPData") rfl (fun _ => rfl)) h2)
          (.cmpCommand sid "registerDeletion") rfl (fun _ => rfl)
  | lookupStaticConsentData =>
    simp only [callStrategy, lookupStaticConsentData, Except.ok.injEq] at hok
    subst hok
    exact processUspData_sync hE _
  | inherited throws =>
    cases throws with
    | true => simp only [callStrategy] at hok; cases hok
    | false =>
      simp only [callStrategy, Except.ok.injEq] at hok
      subst hok
      exact hE

theorem Sync.toLive {sid : Nat} {cb : Option Callback} {w0 w : World}
    (h : Sync sid cb w0 w) : Live sid cb w0.trace w := by
  refine ⟨h.lt, h.callback, ?_, h.trace⟩
  intro tid t ht
  rw [h.timer] at ht
  cases ht

theorem Sync.wf {sid : Nat} {cb : Option Callback} {w0 w : World}
    (h : Sync sid cb w0 w) (hwf : w0.WF) : w.WF := by
  intro t ht
  rw [h.timers] at ht
  rw [h.nextTimer]
  exact hwf t ht

/-- The world `loadConsentData` returns: the session is live, and it is done or
its timer is queued. -/
theorem afterStrategy_live {sid : Nat} {cb : Option Callback} {w0 w : World}
    (h : Sync sid cb w0 w) (hwf : w0.WF) :
    Live sid cb w0.trace (afterStrategy sid w) ∧ (afterStrategy sid w).WF ∧
    Pending sid (afterStrategy sid w) ∧
    (afterStrategy sid w).sessions.length = w0.sessions.length := by
  cases hd : (w.session sid).isDone
  · cases hz : isZero w.consentTimeout
    · have hw := h.wf hwf
      obtain ⟨evs, htr, hl, hi⟩ := h.trace
      have hs : (setTimeout sid w.consentTimeout w).session sid =
          { w.session sid with timer := some w.nextTimer } := by
        simp only [setTimeout, World.emit]
        exact session_setSession _ _ _ h.lt
      have htm : (setTimeout sid w.consentTimeout w).timers =
          w.timers ++ [⟨w.nextTimer, sid, w.consentTimeout⟩] := rfl
      have hnt : (setTimeout sid w.consentTimeout w).nextTimer = w.nextTimer + 1 := rfl
      have htr2 : (setTimeout sid w.consentTimeout w).trace =
          w.trace ++ [.setTimeout w.nextTimer sid w.consentTimeout] := rfl
      have hlen : (setTimeout sid w.consentTimeout w).sessions.length = w.sessions.length := by
        simp [setTimeout, World.emit, World.setSession, length_setSessionAt]
      simp only [afterStrategy, hd, hz, Bool.not_false, if_true, Bool.false_eq_true, if_false]
      refine ⟨⟨?_, ?_, ?_, ?_⟩, ?_, ?_, ?_⟩
      · rw [hlen]; exact h.lt
      · rw [hs]; exact h.callback
      · intro tid t ht hmem hid
        rw [hs] at ht
        simp only [Option.some.injEq] at ht
        rw [htm, List.mem_append, List.mem_singleton] at hmem
        rcases hmem with hmem | hmem
        · have := hw t hmem
          omega
        · rw [hmem]
      · refine ⟨evs ++ [.setTimeout w.nextTimer sid w.consentTimeout], ?_, ?_, ?_⟩
        · rw [htr2, htr, List.append_assoc]
        · refine Lockstep.append hl ⟨?_, fun _ _ => rfl⟩
          cases cb with
          | none => rfl
          | some c => cases c <;> rfl
        · rw [hs, doneCalls_append]
          simpa [doneCalls] using hi
      · intro t ht
        rw [htm, List.mem_append, List.mem_singleton] at ht
        rw [hnt]
        rcases ht with ht | ht
        · exact Nat.lt_succ_of_lt (hw t ht)
        · rw [ht]; exact Nat.lt_succ_self _
      · right
        exact ⟨w.nextTimer, ⟨w.nextTimer, sid, w.consentTimeout⟩, by rw [hs],
          by rw [htm]; exact find_append_fresh w.timers ⟨w.nextTimer, sid, w.consentTimeout⟩ hw⟩
      · rw [hlen]; exact h.len
    · have hp := processUspData_sync h .undefined
      simp only [afterStrategy, hd, hz, Bool.not_false, if_true]
      exact ⟨hp.toLive, hp.wf hwf, Or.inl (processUspData_isDone sid .undefined w h.lt), hp.len⟩
  · simp only [afterStrategy, hd, Bool.not_true, Bool.false_eq_true, if_false]
    exact ⟨h.toLive, h.wf hwf, Or.inl hd, h.len⟩

theorem loadConsentData_live (cb : Option Callback) (w w1 : World) (hwf : w.WF)
    (hok : loadConsentData cb w = .ok w1) :
    Live w.sessions.length cb w.trace w1 ∧ w1.WF ∧ Pending w.sessions.length w1 ∧
    w1.sessions.length = w.sessions.length + 1 := by
  have hS := Sync.start w cb
  generalize hw0 : ({ w with sessions := w.sessions ++
    [{ cb := cb, timer := none, isDone := false, uspResponse := .obj [] }] } : World) = w0
    at hS
  have htr0 : w0.trace = w.trace := by rw [← hw0]
  have hlen0 : w0.sessions.length = w.sessions.length + 1 := by rw [← hw0]; simp
  have hwf0 : w0.WF := by rw [← hw0]; exact hwf
  have hapi0 : w0.consentAPI = w.consentAPI := by rw [← hw0]
  unfold loadConsentData at hok
  simp only [hw0, hapi0] at hok
  split at hok
  · simp only [Except.ok.injEq] at hok
    subst hok
    have hD := Sync.done_step hS .null (.str ("USP framework (" ++ w.consentAPI.toStr ++
      ") is not a supported framework. Aborting consentManagement module and resuming auction."))
      []
    refine ⟨?_, hD.wf hwf0, Or.inl ?_, hD.len.trans hlen0⟩
    · rw [← htr0]; exact hD.toLive
    · rw [done_session _ _ _ _ _ hS.lt]
  · split at hok
    · cases hok
    · rename_i w2 h2
      simp only [Except.ok.injEq] at hok
      subst hok
      obtain ⟨h3, h4, h5, h6⟩ := afterStrategy_live (callStrategy_sync hS _ _ h2) hwf0
      refine ⟨?_, h4, h5, h6.trans hlen0⟩
      rw [← htr0]; exact h3

theorem Live.after_done {sid : Nat} {cb : Option Callback} {base : List Event} {w : World}
    (h : Live sid cb base w) (v e : JsVal) (x : List JsVal) :
    Live sid cb base (done sid v e x w) := by
  obtain ⟨evs, htr, hl, _⟩ := h.trace
  refine ⟨?_, ?_, ?_, evs ++ doneEvents sid (w.session sid) v e x, ?_, ?_, ?_⟩
  · rw [done_length _ _ _ _ _ h.lt]; exact h.lt
  · rw [done_session _ _ _ _ _ h.lt]; exact h.callback
  · intro tid t ht hmem hid
    rw [done_session _ _ _ _ _ h.lt] at ht
    have ht2 : (w.session sid).timer = some tid := ht
    rw [done_timers _ _ _ _ _ h.lt, ht2] at hmem
    simp only [List.mem_filter] at hmem
    exact absurd hid (by simpa using hmem.2)
  · rw [done_trace _ _ _ _ _ h.lt, htr, List.append_assoc]
  · have hd := Lockstep.doneEvents sid (w.session sid) v e x
    rw [h.callback] at hd
    exact Lockstep.append hl hd
  · rw [done_session _ _ _ _ _ h.lt, doneCalls_append, doneCalls_doneEvents]
    simp

theorem Live.of_frame {sid : Nat} {cb : Option Callback} {base : List Event} {w w1 : World}
    (h : Live sid cb base w) (hf : Frame sid w w1) : Live sid cb base w1 := by
  refine ⟨?_, ?_, ?_, ?_⟩
  · rw [hf.length]; exact h.lt
  · rw [hf.cb]; exact h.callback
  · rw [hf.timer, hf.timers]; exact h.owns
  · rw [hf.trace, hf.isDone]; exact h.trace

theorem Live.filter {sid : Nat} {cb : Option Callback} {base : List Event} {w : World}
    (h : Live sid cb base w) (p : Timer → Bool) :
    Live sid cb base { w with timers := w.timers.filter p } := by
  refine ⟨h.lt, h.callback, ?_, h.trace⟩
  intro tid t ht hmem hid
  exact h.owns tid t ht (List.mem_of_mem_filter hmem) hid

/-- A signal leaves the world as it is or runs `done` for the session. -/
theorem deliver_cases {sid : Nat} {cb : Option Callback} {base : List Event} {w : World}
    (h : Live sid cb base w) (sig : Signal) :
    deliver sid sig w = w ∨
    ∃ v e x w1, deliver sid sig w = done sid v e x w1 ∧ Live sid cb base w1 := by
  cases sig with
  | timerExpiry =>
    cases ht : (w.session sid).timer with
    | none => left; simp only [deliver, ht]
    | some tid =>
      cases hf : w.timers.find? (fun t => t.id == tid) with
      | none => left; simp only [deliver, ht, fireTimer, hf]
      | some t =>
        right
        have hsid : t.sid = sid :=
          h.owns tid t ht (List.mem_of_find?_eq_some hf) (by simpa using List.find?_some hf)
        refine ⟨.null, .str timeoutMsg, [],
          { w with timers := w.timers.filter (fun t => t.id != tid) }, ?_, h.filter _⟩
        simp only [deliver, ht, fireTimer, hf, callbacks, hsid]
        rfl
  | cmpResponse r s =>
    rcases consentDataCallback_done sid r s w h.lt with ⟨_, _, err, herr⟩ | ⟨_, w2, v, e, x, h2, hfr⟩
    · left; simp only [deliver, herr]
    · right
      exact ⟨v, e, x, w2, by simp only [deliver, h2], h.of_frame hfr⟩

theorem Live.deliver {sid : Nat} {cb : Option Callback} {base : List Event} {w : World}
    (h : Live sid cb base w) (sig : Signal) :
    Live sid cb base (deliver sid sig w) ∧
    ((w.session sid).isDone = true ∨ Pending sid w →
      Pending sid (deliver sid sig w)) := by
  rcases deliver_cases h sig with heq | ⟨v, e, x, w1, heq, hl⟩
  · rw [heq]
    refine ⟨h, fun hp => ?_⟩
    rcases hp with hp | hp
    · exact Or.inl hp
    · exact hp
  · rw [heq]
    refine ⟨hl.after_done v e x, fun _ => Or.inl ?_⟩
    rw [done_session _ _ _ _ _ hl.lt]

theorem Live.deliverAll {sid : Nat} {cb : Option Callback} {base : List Event}
    (sigs : List Signal) :
    ∀ w : World, Live sid cb base w → Pending sid w →
      Live sid cb base (deliverAll sid sigs w) ∧ Pending sid (deliverAll sid sigs w) := by
  induction sigs with
  | nil => intro w h hp; exact ⟨h, hp⟩
  | cons sig rest ih =>
    intro w h hp
    obtain ⟨h1, h2⟩ := h.deliver sig
    exact ih _ h1 (h2 (Or.inr hp))

theorem deliverAll_append (sid : Nat) (a b : List Signal) :
    ∀ w : World, deliverAll sid (a ++ b) w = deliverAll sid b (deliverAll sid a w) := by
  induction a with
  | nil => intro w; rfl
  | cons sig rest ih => intro w; exact ih _

/-- The expiry of the timer finds the session done or makes it so. -/
theorem expiry_resolves {sid : Nat} {cb : Option Callback} {base : List Event} {w : World}
    (h : Live sid cb base w) (hp : Pending sid w) :
    ((deliver sid .timerExpiry w).session sid).isDone = true := by
  rcases deliver_cases h .timerExpiry with heq | ⟨v, e, x, w1, heq, hl⟩
  · rcases hp with hp | ⟨tid, t, ht, hf⟩
    · rw [heq]; exact hp
    · have hsid : t.sid = sid :=
        h.owns tid t ht (List.mem_of_find?_eq_some hf) (by simpa using List.find?_some hf)
      have hlt : sid < ({ w with timers := w.timers.filter (fun t => t.id != tid) } :
        World).sessions.length := h.lt
      have hd : deliver sid .timerExpiry w = done sid .null (.str timeoutMsg) []
          { w with timers := w.timers.filter (fun t => t.id != tid) } := by
        simp only [deliver, ht, fireTimer, hf, callbacks, hsid]
        rfl
      rw [hd, done_session _ _ _ _ _ hlt]
  · rw [heq, done_session _ _ _ _ _ hl.lt]

/-- The world `requestBidsHook` returns: since the call began, `fn` has only
been called on behalf of the hook's own lookup, which is the last session. -/
theorem requestBidsHook_live (reqBidsConfigObj : JsVal) (w w1 : World) (hwf : w.WF)
    (hok : requestBidsHook reqBidsConfigObj w = .ok w1) :
    ∃ pre, nextCalls pre = [] ∧ doneCalls (w1.sessions.length - 1) pre = [] ∧
      Live (w1.sessions.length - 1) (some (.hook reqBidsConfigObj)) (w.trace ++ pre) w1 ∧
      Pending (w1.sessions.length - 1) w1 := by
  cases hen : w.enabled
  · simp only [requestBidsHook, hen, Bool.not_false, if_true] at hok
    split at hok
    · cases hok
    · rename_i wm hm
      simp only [enableConsentManagement, hen, Bool.not_false, if_true] at hm
      obtain ⟨hA, hwfm, _, hlenm⟩ := loadConsentData_live none
        { w with enabled := true, uspDataHandler := w.uspDataHandler.enable } wm hwf hm
      obtain ⟨hB, _, hpB, hlen1⟩ := loadConsentData_live (some (.hook reqBidsConfigObj)) wm w1
        hwfm hok
      have hsid : w1.sessions.length - 1 = wm.sessions.length := by rw [hlen1]; rfl
      obtain ⟨evsA, htrA, hlA, _⟩ := hA.trace
      have htrA2 : wm.trace = w.trace ++ evsA := htrA
      have hlenm2 : wm.sessions.length = w.sessions.length + 1 := hlenm
      have hlA2 : Lockstep w.sessions.length none evsA := hlA
      refine ⟨evsA, ?_, ?_, ?_, ?_⟩
      · rw [hlA2.1]; rfl
      · rw [hsid]
        exact hlA2.2 _ (by omega)
      · rw [hsid, ← htrA2]; exact hB
      · rw [hsid]; exact hpB
  · simp only [requestBidsHook, hen, Bool.not_true, Bool.false_eq_true, if_false] at hok
    obtain ⟨hB, _, hpB, hlen1⟩ := loadConsentData_live (some (.hook reqBidsConfigObj)) w w1
      hwf hok
    have hsid : w1.sessions.length - 1 = w.sessions.length := by rw [hlen1]; rfl
    refine ⟨[], rfl, rfl, ?_, ?_⟩
    · rw [hsid, List.append_nil]; exact hB
    · rw [hsid]; exact hpB

theorem requestBidsHook_ok (reqBidsConfigObj : JsVal) (w : World)
    (hkey : uspCallMap w.consentAPI.toStr ≠ some (.inherited true))
    (hsync : ∀ cmp, w.cmp = some cmp →
      ∀ p ∈ cmp.syncResponses, (p.2.truthy && p.1.isNullish) = false) :
    ∃ w1, requestBidsHook reqBidsConfigObj w = .ok w1 := by
  cases hen : w.enabled
  · obtain ⟨wm, hm⟩ := enableConsentManagement_ok w hkey hsync
    have hc := enableConsentManagement_config w wm hm
    simp only [World.config, Prod.mk.injEq] at hc
    obtain ⟨w1, h1⟩ := loadConsentData_ok (some (.hook reqBidsConfigObj)) wm
      (by rw [hc.1]; exact hkey) (by rw [hc.2.2.2]; exact hsync)
    exact ⟨w1, by simp only [requestBidsHook, hen, Bool.not_false, if_true, hm, h1]⟩
  · obtain ⟨w1, h1⟩ := loadConsentData_ok (some (.hook reqBidsConfigObj)) w hkey hsync
    exact ⟨w1, by
      simp only [requestBidsHook, hen, Bool.not_true, Bool.false_eq_true, if_false, h1]⟩

/-- C12: `requestBidsHook` fails open.  Let the hook return, and let any
sequence of CMP responses and timer expiries reach its lookup afterwards.  At
every such point `fn` has been called exactly once per `done` call of the
lookup, each time with the `reqBidsConfigObj` the hook was given, so it has not
been called while the lookup is unresolved and has been called as soon as the
lookup is done; and whatever the CMP does, the lookup is done once its timer
has expired.  The hook returns unless the provider name selects an inherited
member that rejects its argument or the CMP answers during the call with a
truthy `success` and a `null` or `undefined` response. -/
theorem requestBidsHook_fails_open (reqBidsConfigObj : JsVal) (w : World) (hwf : w.WF) :
    (∀ w1, requestBidsHook reqBidsConfigObj w = .ok w1 → ∀ sigs : List Signal,
      nextCalls (eventsSince w (deliverAll (w1.sessions.length - 1) sigs w1)) =
        List.replicate (doneCalls (w1.sessions.length - 1)
          (eventsSince w (deliverAll (w1.sessions.length - 1) sigs w1))).length
          reqBidsConfigObj ∧
      (((deliverAll (w1.sessions.length - 1) sigs w1).session
          (w1.sessions.length - 1)).isDone = true ↔
        doneCalls (w1.sessions.length - 1)
          (eventsSince w (deliverAll (w1.sessions.length - 1) sigs w1)) ≠ []) ∧
      ((deliverAll (w1.sessions.length - 1) (sigs ++ [.timerExpiry]) w1).session
        (w1.sessions.length - 1)).isDone = true) ∧
    (uspCallMap w.consentAPI.toStr ≠ some (.inherited true) →
      (∀ cmp, w.cmp = some cmp →
        ∀ p ∈ cmp.syncResponses, (p.2.truthy && p.1.isNullish) = false) →
      ∃ w1, requestBidsHook reqBidsConfigObj w = .ok w1) := by
  refine ⟨?_, requestBidsHook_ok reqBidsConfigObj w⟩
  intro w1 hok sigs
  obtain ⟨pre, hn, hd, hl, hp⟩ := requestBidsHook_live reqBidsConfigObj w w1 hwf hok
  obtain ⟨hl2, hp2⟩ := Live.deliverAll sigs w1 hl hp
  obtain ⟨evs, htr, hls, hi⟩ := hl2.trace
  have hev : eventsSince w (deliverAll (w1.sessions.length - 1) sigs w1) = pre ++ evs :=
    eventsSince_append w _ _ (by rw [htr, List.append_assoc])
  rw [hev, nextCalls_append, doneCalls_append, hn, hd, List.nil_append, List.nil_append]
  refine ⟨hls.1, hi, ?_⟩
  rw [deliverAll_append]
  exact expiry_resolves hl2 hp2

/-- C12, witness: the default configuration on a page whose CMP stays silent;
the hook returns, and after the timer has expired `fn` has been called once
for the one `done` call. -/
theorem requestBidsHook_fails_open_witness :
    ∃ w1, requestBidsHook (.obj [("timeout", .num 3000)]) (World.init (some ⟨true, []⟩)) =
        .ok w1 ∧
      nextCalls (eventsSince (World.init (some ⟨true, []⟩))
          (deliverAll (w1.sessions.length - 1) [.timerExpiry] w1)) =
        List.replicate (doneCalls (w1.sessions.length - 1)
          (eventsSince (World.init (some ⟨true, []⟩))
            (deliverAll (w1.sessions.length - 1) [.timerExpiry] w1))).length
          (.obj [("timeout", .num 3000)]) := by
  obtain ⟨w1, h1⟩ := requestBidsHook_ok (.obj [("timeout", .num 3000)])
    (World.init (some ⟨true, []⟩))
    (by
      intro h
      have h2 : some Strategy.lookupUspConsent = some (Strategy.inherited true) := h
      cases h2)
    (by
      intro cmp h p hp
      have h2 : some (⟨true, []⟩ : Cmp) = some cmp := h
      cases h2
      cases hp)
  exact ⟨w1, h1, ((requestBidsHook_fails_open (.obj [("timeout", .num 3000)])
    (World.init (some ⟨true, []⟩)) (init_WF _)).1 w1 h1 [.timerExpiry]).1⟩

end UspConsent

/-! # Proofs: the humansecurityMalvDefense RTD submodule -/

namespace HumanSecurity

open UspConsent (JsVal)

theorem stripLit_eq_some (lit : List Char) : ∀ (s r : List Char),
    stripLit lit s = some r ↔ s = lit ++ r := by
  induction lit with
  | nil => intro s r; simp [stripLit]
  | cons c lit ih =>
    intro s r
    cases s with
    | nil => simp [stripLit]
    | cons d s =>
      by_cases h : d = c
      · simp [stripLit, h, ih]
      · simp [stripLit, h]

theorem stripLit_isSome (lit s : List Char) : (stripLit lit s).isSome = true ↔ lit <+: s := by
  rw [Option.isSome_iff_exists]
  constructor
  · rintro ⟨r, h⟩
    exact ⟨r, ((stripLit_eq_some lit s r).1 h).symm⟩
  · rintro ⟨r, h⟩
    exact ⟨r, (stripLit_eq_some lit s r).2 h.symm⟩

theorem testHttpRegex_iff (s : String) :
    testHttpRegex s = true ↔ "http://".data <+: s.data ∨ "https://".data <+: s.data := by
  unfold testHttpRegex
  cases h1 : stripLit "http".data s.data with
  | none =>
    constructor
    · intro h; cases h
    · rintro (⟨t, ht⟩ | ⟨t, ht⟩)
      · have := (stripLit_eq_some "http".data s.data ("://".data ++ t)).2 (by rw [← ht]; rfl)
        rw [h1] at this
        cases this
      · have := (stripLit_eq_some "http".data s.data ("s://".data ++ t)).2 (by rw [← ht]; rfl)
        rw [h1] at this
        cases this
  | some rest =>
    have hs := (stripLit_eq_some _ _ _).1 h1
    rw [hs]
    have e1 : "http://".data <+: "http".data ++ rest ↔ "://".data <+: rest := by
      show ('h' :: 't' :: 't' :: 'p' :: "://".data) <+: ('h' :: 't' :: 't' :: 'p' :: rest) ↔ _
      simp [List.cons_prefix_cons]
    have e2 : "https://".data <+: "http".data ++ rest ↔ "s://".data <+: rest := by
      show ('h' :: 't' :: 't' :: 'p' :: "s://".data) <+: ('h' :: 't' :: 't' :: 'p' :: rest) ↔ _
      simp [List.cons_prefix_cons]
    rw [e1, e2]
    show ((match stripLit "s".data rest with
      | some rest2 => (stripLit "://".data rest2).isSome
      | none => false) || (stripLit "://".data rest).isSome) = true ↔ _
    cases h2 : stripLit "s".data rest with
    | none =>
      have hn : ¬ "s://".data <+: rest := by
        rintro ⟨t, ht⟩
        have := (stripLit_eq_some "s".data rest ("://".data ++ t)).2 (by rw [← ht]; rfl)
        rw [h2] at this
        cases this
      show (false || (stripLit "://".data rest).isSome) = true ↔ _
      rw [Bool.false_or, stripLit_isSome]
      simp only [hn, or_false]
    | some rest2 =>
      have hr := (stripLit_eq_some _ _ _).1 h2
      have e3 : "s://".data <+: rest ↔ "://".data <+: rest2 := by
        rw [hr]
        show ('s' :: "://".data) <+: ('s' :: rest2) ↔ _
        simp [List.cons_prefix_cons]
      show ((stripLit "://".data rest2).isSome || (stripLit "://".data rest).isSome) = true ↔ _
      rw [Bool.or_eq_true, stripLit_isSome, stripLit_isSome, e3]
      exact or_comm

/-- C17: for a `config` object, `readConfig` raises `ConfigError` if and only
if `config.params` is missing (falsy), or `params.cdnUrl` is not a string
beginning with `http://` or `https://`, or `params.protectionMode` is not one
of `'full'`, `'bids'`, `'bids-nowait'`; otherwise it returns normally; and
whenever it raises, the module state, with the installed `onModuleInit` and
`onBidResponse`, is as it was before the call. -/
theorem readConfig_raises_iff (moduleName : String) (config : JsVal) (st : ModuleState) :
    (config.isNullish = false →
      ((∃ msg, (readConfig moduleName config st).2 = .error (.configError msg)) ↔
        ((config.get "params").truthy = false ∨
          ¬ specValidCdnUrl ((config.get "params").get "cdnUrl") ∨
          ¬ specValidMode ((config.get "params").get "protectionMode")))) ∧
    (config.isNullish = false →
      ((readConfig moduleName config st).2 = .ok () ∨
        ∃ msg, (readConfig moduleName config st).2 = .error (.configError msg))) ∧
    (∀ e, (readConfig moduleName config st).2 = .error e →
      (readConfig moduleName config st).1 = st) := by
  cases hc : config.isNullish
  · cases hp : (config.get "params").truthy
    · simp [readConfig, hc, hp]
    · cases hcdn : (config.get "params").get "cdnUrl" with
      | str u =>
        have hv : specValidCdnUrl (.str u) ↔ testHttpRegex u = true :=
          (testHttpRegex_iff u).symm
        cases ht : testHttpRegex u
        · simp [readConfig, hc, hp, hcdn, ht, hv]
        · cases hm : (config.get "params").get "protectionMode" with
          | str m =>
            by_cases h1 : m = "full"
            · simp [readConfig, hc, hp, hcdn, ht, hv, hm, h1, specValidMode]
            · by_cases h2 : m = "bids"
              · simp [readConfig, hc, hp, hcdn, ht, hv, hm, h1, h2, specValidMode]
              · by_cases h3 : m = "bids-nowait"
                · simp [readConfig, hc, hp, hcdn, ht, hv, hm, h1, h2, h3, specValidMode]
                · simp [readConfig, hc, hp, hcdn, ht, hv, hm, h1, h2, h3, specValidMode]
          | _ => simp [readConfig, hc, hp, hcdn, ht, hv, hm, specValidMode]
      | _ => simp [readConfig, hc, hp, hcdn, specValidCdnUrl]
  · simp [readConfig, hc]

/-- C17, witness: a configuration whose `cdnUrl` starts with `ftp://` is
rejected with the `cdnUrl` message, and the initial strategies stay installed. -/
theorem readConfig_raises_iff_witness :
    ((∃ msg, (readConfig "humansecurityMalvDefense"
        (.obj [("params", .obj [("cdnUrl", .str "ftp://cdn.example/s.js"),
          ("protectionMode", .str "full")])]) ModuleState.initial).2 =
          .error (.configError msg)) ↔
      ((JsVal.get (.obj [("params", .obj [("cdnUrl", .str "ftp://cdn.example/s.js"),
          ("protectionMode", .str "full")])]) "params").truthy = false ∨
        ¬ specValidCdnUrl ((JsVal.get (.obj [("params", .obj [("cdnUrl",
          .str "ftp://cdn.example/s.js"), ("protectionMode", .str "full")])]) "params").get
          "cdnUrl") ∨
        ¬ specValidMode ((JsVal.get (.obj [("params", .obj [("cdnUrl",
          .str "ftp://cdn.example/s.js"), ("protectionMode", .str "full")])]) "params").get
          "protectionMode"))) ∧
    (readConfig "humansecurityMalvDefense"
      (.obj [("params", .obj [("cdnUrl", .str "ftp://cdn.example/s.js"),
        ("protectionMode", .str "full")])]) ModuleState.initial).1 = ModuleState.initial :=
  ⟨(readConfig_raises_iff "humansecurityMalvDefense"
      (.obj [("params", .obj [("cdnUrl", .str "ftp://cdn.example/s.js"),
        ("protectionMode", .str "full")])]) ModuleState.initial).1 rfl,
    (readConfig_raises_iff "humansecurityMalvDefense"
      (.obj [("params", .obj [("cdnUrl", .str "ftp://cdn.example/s.js"),
        ("protectionMode", .str "full")])]) ModuleState.initial).2.2
      (.configError
        "Parameter \"cdnUrl\" is a required string parameter, which should start with \"http(s)://\".")
      rfl⟩

end HumanSecurity

/-! # Proofs: the OpenX bid adapter -/

namespace OpenX

open UspConsent (JsVal JsError getOrThrow)

/-- With `iframeEnabled` or `pixelEnabled` set, a call that returns gives an
array of exactly one descriptor, of type `'iframe'` when `iframeEnabled` and
`'image'` otherwise. -/
theorem getUserSyncs_enabled (encodeURIComponent : String → String) (syncOptions : JsVal)
    (responses : List JsVal) (gdprConsent uspConsent gppConsent : JsVal)
    (r : Option (List SyncDescriptor))
    (h : ((syncOptions.get "iframeEnabled").truthy ||
      (syncOptions.get "pixelEnabled").truthy) = true)
    (hok : getUserSyncs encodeURIComponent syncOptions responses gdprConsent uspConsent
      gppConsent = .ok r) :
    ∃ url, r = some [{ type := if (syncOptions.get "iframeEnabled").truthy then "iframe"
                               else "image",
                       url := url }] := by
  unfold getUserSyncs getOrThrow at hok
  split at hok
  · cases hok
  · rename_i v hv
    split at hv
    · cases hv
    · simp only [Except.ok.injEq] at hv
      subst hv
      rw [if_pos h] at hok
      simp only [] at hok
      split at hok
      · cases hok
      · split at hok
        · cases hok
        · simp only [Except.ok.injEq] at hok
          exact ⟨_, hok.symm⟩

/-- C20, the code at the failing input: with neither `iframeEnabled` nor
`pixelEnabled` set, `getUserSyncs` ends without a `return`; the call yields
`undefined`, not an array, whatever the responses and consents. -/
theorem getUserSyncs_disabled_returns_undefined (encodeURIComponent : String → String)
    (responses : List JsVal) (gdprConsent uspConsent gppConsent : JsVal) :
    getUserSyncs encodeURIComponent
      (.obj [("iframeEnabled", .bool false), ("pixelEnabled", .bool false)])
      responses gdprConsent uspConsent gppConsent = .ok none ∧
    getUserSyncs encodeURIComponent (.obj []) responses gdprConsent uspConsent gppConsent =
      .ok none :=
  ⟨rfl, rfl⟩

end OpenX

/-! # Proofs: the Buzzoola bid adapter -/

namespace Buzzoola

open UspConsent (JsVal JsError getOrThrow)

theorem get_falsy (v : JsVal) (key : String) (h : v.truthy = false) :
    v.get key = .undefined := by
  cases v <;> first | rfl | cases h

theorem deepAccess_three (o : JsVal) (a b c : String) :
    deepAccess o [a, b, c] = ((o.get a).get b).get c := by
  have step : ∀ (v : JsVal) (k : String),
      (if v.truthy = true then v.get k else JsVal.undefined) = v.get k := by
    intro v k
    cases h : v.truthy
    · simp [get_falsy v k h]
    · simp
  simp only [deepAccess, List.foldl, step]

theorem lookupField_setField_ne (fields : List (String × JsVal)) (key key2 : String)
    (v : JsVal) (h : key ≠ key2) :
    JsVal.lookupField (JsVal.setField fields key v) key2 = JsVal.lookupField fields key2 := by
  induction fields with
  | nil => simp [JsVal.setField, JsVal.lookupField, h]
  | cons p l ih =>
    obtain ⟨k, x⟩ := p
    by_cases hk : k = key
    · subst hk
      simp [JsVal.setField, JsVal.lookupField, h]
    · by_cases hk2 : k = key2
      · subst hk2
        simp [JsVal.setField, JsVal.lookupField, hk]
      · simp [JsVal.setField, JsVal.lookupField, hk, hk2, ih]

theorem lookupField_setField_same (fields : List (String × JsVal)) (key : String) (v : JsVal) :
    JsVal.lookupField (JsVal.setField fields key v) key = v := by
  induction fields with
  | nil => simp [JsVal.setField, JsVal.lookupField]
  | cons p l ih =>
    obtain ⟨k, x⟩ := p
    by_cases hk : k = key
    · simp [JsVal.setField, JsVal.lookupField, hk]
    · simp [JsVal.setField, JsVal.lookupField, hk, ih]

/-- The object `requestBids` after the loop: a key reads the last request bid
stored under it. -/
theorem collectRequestBids_lookup (bids : List JsVal) :
    ∀ requestBids : List (String × JsVal), (∀ r ∈ bids, r.isNullish = false) →
      ∃ rb, collectRequestBids bids requestBids = .ok rb ∧
        ∀ key, JsVal.lookupField rb key =
          match bids.reverse.find? (fun r => propertyKey (r.get "bidId") == key) with
          | some r => r
          | none => JsVal.lookupField requestBids key := by
  induction bids with
  | nil => intro requestBids _; exact ⟨requestBids, rfl, fun _ => rfl⟩
  | cons bid rest ih =>
    intro requestBids h
    have hb : bid.isNullish = false := h bid (List.mem_cons_self _ _)
    obtain ⟨rb, hrb, hl⟩ := ih (JsVal.setField requestBids (propertyKey (bid.get "bidId")) bid)
      (fun r hr => h r (List.mem_cons_of_mem _ hr))
    refine ⟨rb, by simp [collectRequestBids, getOrThrow, hb, hrb], fun key => ?_⟩
    rw [hl key, List.reverse_cons, List.find?_append]
    cases hf : rest.reverse.find? (fun r => propertyKey (r.get "bidId") == key) with
    | some r => rfl
    | none =>
      by_cases hk : propertyKey (bid.get "bidId") = key
      · simp [List.find?, hk, lookupField_setField_same]
      · have hbeq : (propertyKey (bid.get "bidId") == key) = false := by simpa using hk
        simp [List.find?, hbeq, lookupField_setField_ne _ _ _ _ hk]

theorem interpretBid_eq (bids : List JsVal) (rb : List (String × JsVal)) (bid : JsVal)
    (hrb : ∀ key, JsVal.lookupField rb key =
      match bids.reverse.find? (fun r => propertyKey (r.get "bidId") == key) with
      | some r => r
      | none => .undefined)
    (hb : bid.isNullish = false) :
    interpretBid rb bid = .ok (if specWantsRenderer bids bid then
      setRenderer bid (installRenderer (bid.get "requestId")) else bid) := by
  have hreq : JsVal.lookupField rb (propertyKey (bid.get "requestId")) =
      specRequestBid bids (bid.get "requestId") := by
    rw [hrb]; rfl
  simp only [interpretBid, getOrThrow, hb, hreq, deepAccess_three, deepClone, specWantsRenderer,
    VIDEO, OUTSTREAM, Bool.false_eq_true, if_false]
  split <;> rfl

theorem mapBids_eq (rb : List (String × JsVal)) (f : JsVal → JsVal) (items : List JsVal)
    (h : ∀ b ∈ items, interpretBid rb b = .ok (f b)) :
    mapBids rb items = .ok (items.map f) := by
  induction items with
  | nil => rfl
  | cons b rest ih =>
    simp only [mapBids, h b (List.mem_cons_self _ _),
      ih (fun x hx => h x (List.mem_cons_of_mem _ hx)), List.map]

/-- C19: let every bid of the request and every element of the server's bid
array be an object or a primitive other than `null` and `undefined`.  Then
`interpretResponse` returns one element per server bid, in the same order: the
bid itself when no renderer is due, and otherwise the bid with its `renderer`
field set to the installed renderer and every other field as it was.  A
renderer is due exactly when the bid's `mediaType` is `video` and the request
bid stored under the bid's `requestId` has the video context `outstream`.  The
server's bid array is the parsed body, or the body itself when it does not
parse; when that is not an array the result is the empty list. -/
theorem interpretResponse_copies_bids (JSON_parse : JsVal → Option JsVal) (body : JsVal)
    (bids : List JsVal) (hreq : ∀ r ∈ bids, r.isNullish = false)
    (hresp : ∀ b ∈ responseOf JSON_parse body, b.isNullish = false) :
    interpretResponse JSON_parse body bids =
      .ok ((responseOf JSON_parse body).map (fun bid =>
        if specWantsRenderer bids bid then
          setRenderer bid (installRenderer (bid.get "requestId"))
        else bid)) ∧
    (∀ bid renderer, specWantsRenderer bids bid = true →
      (setRenderer bid renderer).get "renderer" = renderer ∧
      ∀ key, key ≠ "renderer" → (setRenderer bid renderer).get key = bid.get key) ∧
    (∀ items, (JSON_parse body).getD body = .arr items →
      responseOf JSON_parse body = items) ∧
    ((∀ items, (JSON_parse body).getD body ≠ .arr items) →
      interpretResponse JSON_parse body bids = .ok []) := by
  obtain ⟨rb, hrb, hl⟩ := collectRequestBids_lookup bids [] hreq
  have hmap : ∀ items : List JsVal, (∀ b ∈ items, b.isNullish = false) →
      mapBids rb items = .ok (items.map (fun bid =>
        if specWantsRenderer bids bid then
          setRenderer bid (installRenderer (bid.get "requestId"))
        else bid)) :=
    fun items hi => mapBids_eq rb _ items (fun b hb => interpretBid_eq bids rb b hl (hi b hb))
  have hresp2 : ∀ items, (JSON_parse body).getD body = .arr items →
      responseOf JSON_parse body = items := by
    intro items h
    cases hp : JSON_parse body with
    | none =>
      rw [hp] at h
      have h2 : body = .arr items := h
      simp only [responseOf, hp]
      rw [h2]
    | some parsed =>
      rw [hp] at h
      have h2 : parsed = .arr items := h
      simp only [responseOf, hp]
      rw [h2]
  refine ⟨?_, ?_, hresp2, ?_⟩
  · simp only [interpretResponse, hrb]
    exact hmap _ hresp
  · intro bid renderer hw
    cases bid with
    | obj fields =>
      exact ⟨lookupField_setField_same fields "renderer" renderer,
        fun key hk => lookupField_setField_ne fields "renderer" key renderer (Ne.symm hk)⟩
    | _ => simp [specWantsRenderer, JsVal.get, strictEqStr] at hw
  · intro hno
    have he : responseOf JSON_parse body = [] := by
      cases hp : JSON_parse body with
      | none =>
        rw [hp] at hno
        simp only [responseOf, hp]
        cases hb : body with
        | arr items => exact absurd hb (hno items)
        | _ => rfl
      | some parsed =>
        rw [hp] at hno
        simp only [responseOf, hp]
        cases hb : parsed with
        | arr items => exact absurd hb (hno items)
        | _ => rfl
    simp only [interpretResponse, hrb, he]
    rfl

/-- C19, witness: one video bid answering an outstream request; the returned
bid is the server's bid with the renderer added. -/
theorem interpretResponse_copies_bids_witness :
    interpretResponse (fun _ => none)
      (.arr [.obj [("requestId", .str "b1"), ("mediaType", .str "video"), ("cpm", .num 2)]])
      [.obj [("bidId", .str "b1"),
        ("mediaTypes", .obj [("video", .obj [("context", .str "outstream")])])]] =
    .ok [.obj [("requestId", .str "b1"), ("mediaType", .str "video"), ("cpm", .num 2),
      ("renderer", installRenderer (.str "b1"))]] :=
  (interpretResponse_copies_bids (fun _ => none)
    (.arr [.obj [("requestId", .str "b1"), ("mediaType", .str "video"), ("cpm", .num 2)]])
    [.obj [("bidId", .str "b1"),
      ("mediaTypes", .obj [("video", .obj [("context", .str "outstream")])])]]
    (by
      intro r hr
      simp only [List.mem_singleton] at hr
      subst hr
      rfl)
    (by
      intro b hb
      simp only [responseOf, List.mem_singleton] at hb
      subst hb
      rfl)).1

end Buzzoola

/-! # Proofs: the GAM video ad server module -/

namespace GamVideo

open UspConsent (JsVal JsError getOrThrow)

theorem hasOwn_setField (fields : List (String × JsVal)) (key key2 : String) (v : JsVal) :
    hasOwn (JsVal.setField fields key v) key2 = (hasOwn fields key2 || key == key2) := by
  induction fields with
  | nil => simp [JsVal.setField, hasOwn]
  | cons p l ih =>
    obtain ⟨k, x⟩ := p
    have ih2 : (JsVal.setField l key v).any (fun p => p.1 == key2) =
        (l.any (fun p => p.1 == key2) || key == key2) := ih
    by_cases hk : k = key
    · subst hk
      by_cases h2 : k = key2 <;> simp [JsVal.setField, hasOwn, h2]
    · simp only [JsVal.setField, hk, if_false, hasOwn, List.any_cons, ih2, Bool.or_assoc]

/-- A parameter the query owns with value `v`. -/
theorem keep_setField (q : List (String × JsVal)) (a k : String) (x v : JsVal) (hne : a ≠ k)
    (h : hasOwn q k = true ∧ JsVal.lookupField q k = v) :
    hasOwn (JsVal.setField q a x) k = true ∧ JsVal.lookupField (JsVal.setField q a x) k = v := by
  refine ⟨?_, ?_⟩
  · rw [hasOwn_setField, h.1]; rfl
  · rw [Buzzoola.lookupField_setField_ne q a k x hne]; exact h.2

theorem same_setField (q : List (String × JsVal)) (k : String) (v : JsVal) :
    hasOwn (JsVal.setField q k v) k = true ∧ JsVal.lookupField (JsVal.setField q k v) k = v := by
  refine ⟨?_, Buzzoola.lookupField_setField_same q k v⟩
  rw [hasOwn_setField]
  simp

theorem assignFields_keep (source : List (String × JsVal)) (k : String) (v : JsVal) :
    ∀ target : List (String × JsVal), hasOwn source k = false →
      hasOwn target k = true ∧ JsVal.lookupField target k = v →
      hasOwn (assignFields target source) k = true ∧
        JsVal.lookupField (assignFields target source) k = v := by
  induction source with
  | nil => intro target _ h; exact h
  | cons p rest ih =>
    intro target hs h
    obtain ⟨a, x⟩ := p
    have hs2 : ((a == k) || rest.any (fun p => p.1 == k)) = false := hs
    rw [Bool.or_eq_false_iff] at hs2
    have hne : a ≠ k := by simpa using hs2.1
    exact ih (JsVal.setField target a x) hs2.2 (keep_setField target a k x v hne h)

theorem assignFields_take (source : List (String × JsVal)) (k : String) :
    ∀ target : List (String × JsVal), (source.map Prod.fst).Nodup → hasOwn source k = true →
      hasOwn (assignFields target source) k = true ∧
        JsVal.lookupField (assignFields target source) k = JsVal.lookupField source k := by
  induction source with
  | nil => intro target _ h; cases h
  | cons p rest ih =>
    intro target hnd hs
    obtain ⟨a, x⟩ := p
    rw [List.map_cons, List.nodup_cons] at hnd
    by_cases hak : a = k
    · subst hak
      have hrest : hasOwn rest a = false := by
        cases hr : hasOwn rest a with
        | false => rfl
        | true =>
          exfalso
          apply hnd.1
          simp only [hasOwn, List.any_eq_true, beq_iff_eq] at hr
          obtain ⟨p, hp, hpa⟩ := hr
          exact List.mem_map.2 ⟨p, hp, hpa⟩
      have h1 := assignFields_keep rest a x (JsVal.setField target a x) hrest
        (same_setField target a x)
      refine ⟨h1.1, ?_⟩
      rw [show assignFields target ((a, x) :: rest) =
        assignFields (JsVal.setField target a x) rest from rfl, h1.2]
      simp [JsVal.lookupField]
    · have hs2 : hasOwn rest k = true := by
        have : ((a == k) || rest.any (fun p => p.1 == k)) = true := hs
        simpa [hak, hasOwn] using this
      have h1 := ih (JsVal.setField target a x) hnd.2 hs2
      refine ⟨h1.1, ?_⟩
      rw [show assignFields target ((a, x) :: rest) =
        assignFields (JsVal.setField target a x) rest from rfl, h1.2]
      simp [JsVal.lookupField, hak]

theorem applyGetter_keep (q : List (String × JsVal)) (entry : String × JsVal) (k : String)
    (v : JsVal) (h : hasOwn q k = true ∧ JsVal.lookupField q k = v) :
    hasOwn (applyGetter q entry) k = true ∧ JsVal.lookupField (applyGetter q entry) k = v := by
  unfold applyGetter
  cases ho : hasOwn q entry.1
  · have hne : entry.1 ≠ k := by
      intro he
      rw [he, h.1] at ho
      cases ho
    cases hn : entry.2.isNullish
    · simpa [ho, hn] using keep_setField q entry.1 k entry.2 v hne h
    · simpa [ho, hn] using h
  · simpa [ho] using h

theorem getters_keep (entries : List (String × JsVal)) (k : String) (v : JsVal) :
    ∀ q : List (String × JsVal), hasOwn q k = true ∧ JsVal.lookupField q k = v →
      hasOwn (entries.foldl applyGetter q) k = true ∧
        JsVal.lookupField (entries.foldl applyGetter q) k = v := by
  induction entries with
  | nil => intro q h; exact h
  | cons e rest ih => intro q h; exact ih _ (applyGetter_keep q e k v h)

/-- The query parameter `k` of the publisher's params, when `Object.assign`
and the later assignments are through. -/
theorem buildQueryParams_param (env : Env) (options urlComponents derivedParams
    encodedCustomParams : JsVal) (fields : List (String × JsVal)) (k : String)
    (hparams : options.get "params" = .obj fields) (hnodup : (fields.map Prod.fst).Nodup)
    (hk : hasOwn fields k = true) (hcust : k ≠ "cust_params")
    (hgdpr : ∀ g, env.gdprParams = .obj g → hasOwn g k = false)
    (hdesc : k = "description_url" → (JsVal.lookupField fields k).truthy = true ∨
      env.encodeURIComponent env.refererPage.toStr = "")
    (hppid : k = "ppid" → (JsVal.lookupField fields k).truthy = true ∨
      env.ppid.isNullish = true)
    (hppsj : k = "ppsj" → env.signals = []) :
    JsVal.lookupField
      (buildQueryParams env options urlComponents derivedParams encodedCustomParams) k =
      JsVal.lookupField fields k := by
  -- the merge
  generalize hq0 : objectAssign []
    [env.DEFAULT_GAM_PARAMS, urlComponents.get "search", derivedParams, options.get "params",
     .obj [("cust_params", encodedCustomParams)], env.gdprParams] = q0
  have h0 : hasOwn q0 k = true ∧ JsVal.lookupField q0 k = JsVal.lookupField fields k := by
    rw [← hq0, hparams]
    simp only [objectAssign, List.foldl]
    generalize (match derivedParams with
      | JsVal.obj fields => assignFields
          (match urlComponents.get "search" with
            | JsVal.obj fields => assignFields
                (match env.DEFAULT_GAM_PARAMS with
                  | JsVal.obj fields => assignFields [] fields
                  | _ => [])
                fields
            | _ => match env.DEFAULT_GAM_PARAMS with
                  | JsVal.obj fields => assignFields [] fields
                  | _ => [])
          fields
      | _ => match urlComponents.get "search" with
            | JsVal.obj fields => assignFields
                (match env.DEFAULT_GAM_PARAMS with
                  | JsVal.obj fields => assignFields [] fields
                  | _ => [])
                fields
            | _ => match env.DEFAULT_GAM_PARAMS with
                  | JsVal.obj fields => assignFields [] fields
                  | _ => []) = t
    have h1 := assignFields_take fields k t hnodup hk
    have h2 := assignFields_keep [("cust_params", encodedCustomParams)] k _
      (assignFields t fields) (by simp [hasOwn, Ne.symm hcust]) h1
    cases hg : env.gdprParams with
    | obj g => exact assignFields_keep g k _ _ (hgdpr g hg) h2
    | _ => exact h2
  -- description_url
  have hd : getDescriptionUrl env options "params" =
      if (JsVal.lookupField fields "description_url").truthy then
        JsVal.lookupField fields "description_url"
      else .str (env.encodeURIComponent env.refererPage.toStr) := by
    simp only [getDescriptionUrl, hparams]
    rfl
  generalize hq1 : (if (getDescriptionUrl env options "params").truthy then
      JsVal.setField q0 "description_url" (getDescriptionUrl env options "params")
    else q0) = q1
  have h1 : hasOwn q1 k = true ∧ JsVal.lookupField q1 k = JsVal.lookupField fields k := by
    rw [← hq1]
    by_cases hkd : k = "description_url"
    · subst hkd
      cases ht : (JsVal.lookupField fields "description_url").truthy
      · rcases hdesc rfl with h | h
        · rw [ht] at h; cases h
        · have : (getDescriptionUrl env options "params").truthy = false := by
            rw [hd, ht, h]; rfl
          rw [this]
          exact h0
      · have hv : getDescriptionUrl env options "params" =
            JsVal.lookupField fields "description_url" := by rw [hd, ht]; rfl
        rw [hv, ht]
        exact same_setField q0 "description_url" _
    · split
      · exact keep_setField q0 "description_url" k _ _ (Ne.symm hkd) h0
      · exact h0
  -- ppid
  generalize hq2 : (if !(JsVal.lookupField q1 "ppid").truthy then
      if !env.ppid.isNullish then JsVal.setField q1 "ppid" env.ppid else q1
    else q1) = q2
  have h2 : hasOwn q2 k = true ∧ JsVal.lookupField q2 k = JsVal.lookupField fields k := by
    rw [← hq2]
    by_cases hkp : k = "ppid"
    · subst hkp
      rcases hppid rfl with h | h
      · rw [h1.2, h]
        exact h1
      · rw [h]
        split <;> exact h1
    · split
      · split
        · exact keep_setField q1 "ppid" k _ _ (Ne.symm hkp) h1
        · exact h1
      · exact h1
  -- the getters
  have h3 := getters_keep
    (derivedGetters (((options.get "adUnit").get "mediaTypes").get "video")) k _ q2 h2
  -- ppsj
  simp only [buildQueryParams, hq0, hq1, hq2]
  by_cases hks : k = "ppsj"
  · rw [hppsj hks]
    exact h3.2
  · split
    · exact (keep_setField _ "ppsj" k _ _ (Ne.symm hks) h3).2
    · exact h3.2

/-- The object handed to `buildUrl` carries the query parameters as `search`. -/
theorem search_of_components (endpoint urlComponents : JsVal) (q : List (String × JsVal)) :
    (JsVal.obj (objectAssign [] [endpoint, urlComponents, .obj [("search", .obj q)]])).get
      "search" = .obj q := by
  simp only [objectAssign, List.foldl]
  exact (assignFields_take [("search", JsVal.obj q)] "search" _ (by simp) rfl).2

/-- C18, counterexample: the publisher passes `description_url: ''` and
`gdpr: 0`.  The query of the returned URL carries the encoded page URL as
`description_url`, and, when the consent data say that GDPR applies
(`gdprParams()` yields `gdpr: 1`), `gdpr=1`: neither is the publisher's value. -/
theorem publisher_param_replaced :
    ((buildGamVideoUrlComponents pageEnv
        (.obj [("adUnit", .obj [("code", .str "video1")]),
          ("params", .obj [("iu", .str "/19968336/prebid"),
            ("description_url", .str "")])])).toOption.map
      (Option.map (fun c => (c.get "search").get "description_url")) =
      some (some (.str "https://example.com/"))) ∧
    ((buildGamVideoUrlComponents { pageEnv with gdprParams := .obj [("gdpr", .num 1)] }
        (.obj [("adUnit", .obj [("code", .str "video1")]),
          ("params", .obj [("iu", .str "/19968336/prebid"), ("gdpr", .num 0)])])).toOption.map
      (Option.map (fun c => (c.get "search").get "gdpr")) =
      some (some (.num 1))) := by
  exact ⟨rfl, rfl⟩

theorem getCustParams_ok (env : Env) (bid options urlCustParams : JsVal)
    (hopt : options.truthy = true) (hadunit : (options.get "adUnit").isNullish = false) :
    ∃ c, getCustParams env bid options urlCustParams = .ok c := by
  simp only [getCustParams, hopt, if_true, getOrThrow, hadunit, Bool.false_eq_true, if_false]
  split
  · exact ⟨_, rfl⟩
  · exact ⟨_, rfl⟩

/-- C18, as amended: let `options.params` be an object and `options.adUnit`
be given.  Then `buildGamVideoUrl` reaches `buildUrl`, and for every key of
`options.params` other than `cust_params` the query parameter of that name has
the value given in `options.params`, whatever `DEFAULT_GAM_PARAMS`, the
parameters parsed from `options.url` and the derived parameters say, provided
that the key is not one that `gdprParams()` sets, that `description_url` is
given a truthy value or the page URL encodes to the empty string, that `ppid`
is given a truthy value or `getPPID()` has none, and that `ppsj` is only given
when there are no taxonomy signals. -/
theorem publisher_params_override (env : Env) (options : JsVal)
    (fields : List (String × JsVal)) (k : String)
    (hparams : options.get "params" = .obj fields) (hnodup : (fields.map Prod.fst).Nodup)
    (hadunit : (options.get "adUnit").isNullish = false)
    (hk : hasOwn fields k = true) (hcust : k ≠ "cust_params")
    (hgdpr : ∀ g, env.gdprParams = .obj g → hasOwn g k = false)
    (hdesc : k = "description_url" → (JsVal.lookupField fields k).truthy = true ∨
      env.encodeURIComponent env.refererPage.toStr = "")
    (hppid : k = "ppid" → (JsVal.lookupField fields k).truthy = true ∨
      env.ppid.isNullish = true)
    (hppsj : k = "ppsj" → env.signals = []) :
    ∃ components, buildGamVideoUrlComponents env options = .ok (some components) ∧
      (components.get "search").get k = JsVal.lookupField fields k := by
  have hobj : options.isNullish = false ∧ options.truthy = true := by
    cases options <;> first | exact ⟨rfl, rfl⟩ | cases hparams
  have hne : isEmpty (.obj fields) = false := by
    cases fields with
    | nil => cases hk
    | cons p l => rfl
  have hbid : ∃ bid, (if (options.get "bid").truthy then Except.ok (options.get "bid")
      else (getOrThrow (options.get "adUnit") "code").map env.winningBid) =
      (Except.ok bid : Except JsError JsVal) := by
    cases (options.get "bid").truthy
    · exact ⟨_, by simp only [getOrThrow, hadunit]; rfl⟩
    · exact ⟨_, rfl⟩
  obtain ⟨bid, hbid⟩ := hbid
  generalize hu : (if (options.get "url").truthy then env.parseUrl (options.get "url")
    else JsVal.obj []) = urlComponents
  obtain ⟨c, hc⟩ := getCustParams_ok env bid options
    (if (urlComponents.get "search").truthy then (urlComponents.get "search").get "cust_params"
      else urlComponents.get "search") hobj.2 hadunit
  have hpt : (JsVal.obj fields).truthy = true := rfl
  have hgp : getOrThrow options "params" = .ok (.obj fields) := by
    simp only [getOrThrow, hobj.1, hparams]
    rfl
  simp only [buildGamVideoUrlComponents, hgp, hbid, hu, hne, hc, hpt,
    Bool.false_eq_true, if_false, Bool.not_true, Bool.false_and, Bool.and_false]
  refine ⟨_, rfl, ?_⟩
  rw [search_of_components]
  exact buildQueryParams_param env options urlComponents _ c fields k hparams hnodup hk hcust
    hgdpr hdesc hppid hppsj

/-- C18, witness: the publisher's `output: 'xml_vast4'` replaces the default
`output: 'vast'`. -/
theorem publisher_params_override_witness :
    ∃ components, buildGamVideoUrlComponents pageEnv
        (.obj [("adUnit", .obj [("code", .str "video1")]),
          ("params", .obj [("iu", .str "/19968336/prebid"),
            ("output", .str "xml_vast4")])]) = .ok (some components) ∧
      (components.get "search").get "output" = .str "xml_vast4" :=
  publisher_params_override pageEnv
    (.obj [("adUnit", .obj [("code", .str "video1")]),
      ("params", .obj [("iu", .str "/19968336/prebid"), ("output", .str "xml_vast4")])])
    [("iu", .str "/19968336/prebid"), ("output", .str "xml_vast4")] "output"
    rfl (by decide) rfl rfl (by decide)
    (by
      intro g hg
      have h2 : JsVal.obj [] = JsVal.obj g := hg
      cases h2
      rfl)
    (by intro h; exact absurd h (by decide))
    (by intro h; exact absurd h (by decide))
    (by intro _; rfl)

end GamVideo

/-! # Proofs: initialisation and bid steps of the humansecurityMalvDefense submodule -/

namespace HumanSecurity

open UspConsent (JsVal JsError)

/-- The ways `readConfig` can end: it raises and leaves the state alone, or it
installs the steps of one of the three modes. -/
theorem readConfig_cases (moduleName : String) (config : JsVal) (st : ModuleState) :
    ((readConfig moduleName config st).1 = st ∧
      ∃ e, (readConfig moduleName config st).2 = .error e) ∨
    (∃ u, readConfig moduleName config st =
      ({ st with onModuleInit := .protectPage u, onBidResponse := .augmentHtml }, .ok ())) ∨
    (∃ u, readConfig moduleName config st =
      ({ st with onModuleInit := .preloadScript u, onBidResponse := .protectByWrapping u 0 },
        .ok ())) ∨
    (∃ u, readConfig moduleName config st =
      ({ st with onModuleInit := .preloadScript u, onBidResponse := .protectByWrapping u 1 },
        .ok ())) := by
  cases hc : config.isNullish
  · cases hp : (config.get "params").truthy
    · left; simp [readConfig, hc, hp]
    · cases hcdn : (config.get "params").get "cdnUrl" with
      | str u =>
        cases ht : testHttpRegex u
        · left; simp [readConfig, hc, hp, hcdn, ht]
        · cases hm : (config.get "params").get "protectionMode" with
          | str m =>
            by_cases h1 : m = "full"
            · right; left; exact ⟨u, by simp [readConfig, hc, hp, hcdn, ht, hm, h1]⟩
            · by_cases h2 : m = "bids"
              · right; right; left
                exact ⟨u, by simp [readConfig, hc, hp, hcdn, ht, hm, h2]⟩
              · by_cases h3 : m = "bids-nowait"
                · right; right; right
                  exact ⟨u, by simp [readConfig, hc, hp, hcdn, ht, hm, h3]⟩
                · left; simp [readConfig, hc, hp, hcdn, ht, hm, h1, h2, h3]
          | _ => left; simp [readConfig, hc, hp, hcdn, ht, hm]
      | _ => left; simp [readConfig, hc, hp, hcdn]
  · left; simp [readConfig, hc]

/-- What one `init` call does to the flags: a call that returns `true` leaves
`startBillableEvents` replaced and has subscribed the listener if it was not
replaced before; a call that returns `false` touches neither. -/
theorem init_effect (moduleName : String) (config : JsVal) (m : Submodule) :
    (init moduleName config m).2.st.preloadStatus = m.st.preloadStatus ∧
    ((init moduleName config m).1 = true →
      (init moduleName config m).2.st.startBillableEvents = false ∧
      (init moduleName config m).2.page.bidWonListeners =
        m.page.bidWonListeners + (if m.st.startBillableEvents then 1 else 0)) ∧
    ((init moduleName config m).1 = false →
      (init moduleName config m).2.st.startBillableEvents = m.st.startBillableEvents ∧
      (init moduleName config m).2.page.bidWonListeners = m.page.bidWonListeners) ∧
    ((init moduleName config m).2.st.onBidResponse = m.st.onBidResponse ∨
      (init moduleName config m).2.st.onBidResponse = .augmentHtml ∨
      (∃ u, (init moduleName config m).2.st.onBidResponse = .protectByWrapping u 0) ∨
      (∃ u, (init moduleName config m).2.st.onBidResponse = .protectByWrapping u 1)) := by
  have hok : ∀ (st : ModuleState), st.startBillableEvents = m.st.startBillableEvents →
      st.preloadStatus = m.st.preloadStatus →
      readConfig moduleName config m.st = (st, .ok ()) →
      (init moduleName config m).1 = true ∧
      (init moduleName config m).2.st.preloadStatus = m.st.preloadStatus ∧
      (init moduleName config m).2.st.startBillableEvents = false ∧
      (init moduleName config m).2.page.bidWonListeners =
        m.page.bidWonListeners + (if m.st.startBillableEvents then 1 else 0) ∧
      (init moduleName config m).2.st.onBidResponse = st.onBidResponse := by
    intro st hs hp h
    cases hb : m.st.startBillableEvents
    · have hb2 : st.startBillableEvents = false := hs.trans hb
      simp [init, h, callStartBillableEvents, hb2, hp]
      cases st.onModuleInit <;> rfl
    · have hb2 : st.startBillableEvents = true := hs.trans hb
      simp [init, h, callStartBillableEvents, hb2, hp]
      cases st.onModuleInit <;> rfl
  rcases readConfig_cases moduleName config m.st with ⟨h1, e, h2⟩ | ⟨u, h⟩ | ⟨u, h⟩ | ⟨u, h⟩
  · have h : readConfig moduleName config m.st = (m.st, .error e) := Prod.ext h1 h2
    cases e <;> simp [init, h]
  · obtain ⟨a, b, c, d, e⟩ := hok
      { m.st with onModuleInit := .protectPage u, onBidResponse := .augmentHtml } rfl rfl h
    exact ⟨b, fun _ => ⟨c, d⟩, fun hf => (by rw [a] at hf; cases hf), Or.inr (Or.inl e)⟩
  · obtain ⟨a, b, c, d, e⟩ := hok
      { m.st with onModuleInit := .preloadScript u, onBidResponse := .protectByWrapping u 0 }
      rfl rfl h
    exact ⟨b, fun _ => ⟨c, d⟩, fun hf => (by rw [a] at hf; cases hf),
      Or.inr (Or.inr (Or.inl ⟨u, e⟩))⟩
  · obtain ⟨a, b, c, d, e⟩ := hok
      { m.st with onModuleInit := .preloadScript u, onBidResponse := .protectByWrapping u 1 }
      rfl rfl h
    exact ⟨b, fun _ => ⟨c, d⟩, fun hf => (by rw [a] at hf; cases hf),
      Or.inr (Or.inr (Or.inr ⟨u, e⟩))⟩

theorem step_settled (moduleName : String) (op : Op) (m : Submodule) (pre : List Bool)
    (h : Settled pre m) :
    Settled (pre ++ (step moduleName op m).1) (step moduleName op m).2 := by
  obtain ⟨h1, h2, h3, h4⟩ := h
  cases op with
  | init config =>
    obtain ⟨e1, e2, e3, e4⟩ := init_effect moduleName config m
    show Settled (pre ++ [(init moduleName config m).1]) (init moduleName config m).2
    refine ⟨?_, ?_, by rw [e1]; exact h3, ?_⟩
    · cases hr : (init moduleName config m).1
      · obtain ⟨a, b⟩ := e3 hr
        rw [a, b]; exact h1
      · obtain ⟨a, b⟩ := e2 hr
        rw [a, b, h1]
        cases m.st.startBillableEvents <;> rfl
    · cases hr : (init moduleName config m).1
      · obtain ⟨a, _⟩ := e3 hr
        rw [a, h2]
        simp
      · obtain ⟨a, _⟩ := e2 hr
        rw [a]
        simp
    · intro u r hu
      rcases e4 with e | e | ⟨v, e⟩ | ⟨v, e⟩
      · exact h4 u r (e.symm.trans hu)
      · rw [e] at hu; cases hu
      · rw [e] at hu; cases hu; exact Or.inl rfl
      · rw [e] at hu; cases hu; exact Or.inr rfl
  | preloadLoaded =>
    show Settled (pre ++ []) (if m.page.preloadLinks.isEmpty then m
      else { m with st := { m.st with preloadStatus := 1 } })
    rw [List.append_nil]
    split
    · exact ⟨h1, h2, h3, h4⟩
    · exact ⟨h1, h2, Or.inr (Or.inr rfl), h4⟩
  | preloadFailed =>
    show Settled (pre ++ []) (if m.page.preloadLinks.isEmpty then m
      else { m with st := { m.st with preloadStatus := -1 } })
    rw [List.append_nil]
    split
    · exact ⟨h1, h2, h3, h4⟩
    · exact ⟨h1, h2, Or.inl rfl, h4⟩

theorem run_settled (moduleName : String) (ops : List Op) :
    ∀ (m : Submodule) (pre : List Bool), Settled pre m →
      Settled (pre ++ (run moduleName ops m).1) (run moduleName ops m).2 := by
  induction ops with
  | nil => intro m pre h; simpa [run] using h
  | cons op rest ih =>
    intro m pre h
    have h1 := ih _ _ (step_settled moduleName op m pre h)
    simpa [run, List.append_assoc] using h1

theorem initial_settled : Settled [] Submodule.initial :=
  ⟨rfl, by simp [Submodule.initial, ModuleState.initial], Or.inr (Or.inl rfl),
    fun u r h => by cases h⟩

/-- C21: start from a fresh instance of the submodule and let any sequence of
`init` calls, successful or failing, and of preload events happen.  Afterwards
the listener that emits billable events is subscribed to `BID_WON` at most
once, and exactly once if and only if one of the `init` calls returned `true`;
so a `BID_WON` event produces as many `BILLABLE_EVENT`s as there are
listeners, which is at most one. -/
theorem billable_listener_subscribed_once (moduleName : String) (ops : List Op)
    (generateUUID : Nat → String) (winnerBidResponse : JsVal) :
    (run moduleName ops Submodule.initial).2.page.bidWonListeners ≤ 1 ∧
    ((run moduleName ops Submodule.initial).2.page.bidWonListeners = 1 ↔
      true ∈ (run moduleName ops Submodule.initial).1) ∧
    (billableEvents moduleName generateUUID (run moduleName ops Submodule.initial).2
      winnerBidResponse).length =
      (run moduleName ops Submodule.initial).2.page.bidWonListeners ∧
    (billableEvents moduleName generateUUID (run moduleName ops Submodule.initial).2
      winnerBidResponse).length ≤ 1 := by
  have h := run_settled moduleName ops Submodule.initial [] initial_settled
  rw [List.nil_append] at h
  obtain ⟨h1, h2, _, _⟩ := h
  have hlen : (billableEvents moduleName generateUUID (run moduleName ops Submodule.initial).2
      winnerBidResponse).length =
      (run moduleName ops Submodule.initial).2.page.bidWonListeners := by
    simp [billableEvents]
  have hle : (run moduleName ops Submodule.initial).2.page.bidWonListeners ≤ 1 := by
    rw [h1]; split <;> decide
  refine ⟨hle, ?_, hlen, by rw [hlen]; exact hle⟩
  rw [← h2, h1]
  cases (run moduleName ops Submodule.initial).2.st.startBillableEvents <;> simp

theorem setField_twice (fields : List (String × JsVal)) (key : String) (a b : JsVal) :
    JsVal.setField (JsVal.setField fields key a) key b = JsVal.setField fields key b := by
  induction fields with
  | nil => simp [JsVal.setField]
  | cons p l ih =>
    obtain ⟨k, x⟩ := p
    by_cases hk : k = key
    · simp [JsVal.setField, hk]
    · simp [JsVal.setField, hk, ih]

theorem wrapAd_ne_augmentedAd (scriptURL sid encodedAd : String) (bidResponse : JsVal) :
    wrapAd scriptURL sid encodedAd ≠ augmentedAd bidResponse := by
  intro h
  have h1 : (wrapAd scriptURL sid encodedAd).data.take 1 = ['\n'] := by
    simp only [wrapAd, String.data_append]
    rfl
  have h2 : (augmentedAd bidResponse).data.take 1 = ['<'] := by
    simp only [augmentedAd, pbadComment, String.data_append]
    rfl
  rw [h, h2] at h1
  exact absurd h1 (by decide)

/-- The steps a successful `readConfig` installs for each protection mode. -/
theorem readConfig_mode (moduleName : String) (config : JsVal) (st : ModuleState)
    (hok : (readConfig moduleName config st).2 = .ok ()) :
    ∃ u, (config.get "params").get "cdnUrl" = .str u ∧
      (((config.get "params").get "protectionMode" = .str "full" ∧
          (readConfig moduleName config st).1.onBidResponse = .augmentHtml) ∨
        ((config.get "params").get "protectionMode" = .str "bids" ∧
          (readConfig moduleName config st).1.onBidResponse = .protectByWrapping u 0) ∨
        ((config.get "params").get "protectionMode" = .str "bids-nowait" ∧
          (readConfig moduleName config st).1.onBidResponse = .protectByWrapping u 1)) := by
  cases hc : config.isNullish
  · cases hp : (config.get "params").truthy
    · simp [readConfig, hc, hp] at hok
    · cases hcdn : (config.get "params").get "cdnUrl" with
      | str u =>
        cases ht : testHttpRegex u
        · simp [readConfig, hc, hp, hcdn, ht] at hok
        · cases hm : (config.get "params").get "protectionMode" with
          | str m =>
            by_cases h1 : m = "full"
            · exact ⟨u, rfl, Or.inl ⟨by rw [h1], by simp [readConfig, hc, hp, hcdn, ht, hm, h1]⟩⟩
            · by_cases h2 : m = "bids"
              · exact ⟨u, rfl, Or.inr (Or.inl ⟨by rw [h2],
                  by simp [readConfig, hc, hp, hcdn, ht, hm, h2]⟩)⟩
              · by_cases h3 : m = "bids-nowait"
                · exact ⟨u, rfl, Or.inr (Or.inr ⟨by rw [h3],
                    by simp [readConfig, hc, hp, hcdn, ht, hm, h3]⟩)⟩
                · simp [readConfig, hc, hp, hcdn, ht, hm, h1, h2, h3] at hok
          | _ => simp [readConfig, hc, hp, hcdn, ht, hm] at hok
      | _ => simp [readConfig, hc, hp, hcdn] at hok
  · simp [readConfig, hc] at hok

/-- A configuration with a valid `cdnUrl` and protection mode `bids` or
`bids-nowait` is accepted, and installs the preload step and the wrapping step
with `requiredPreload` 0 or 1. -/
theorem readConfig_installs (moduleName : String) (config : JsVal) (st : ModuleState)
    (u mode : String) (r : Int)
    (hu : (config.get "params").get "cdnUrl" = .str u)
    (ht : "http://".data <+: u.data ∨ "https://".data <+: u.data)
    (hm : (config.get "params").get "protectionMode" = .str mode)
    (hmode : mode = "bids" ∧ r = 0 ∨ mode = "bids-nowait" ∧ r = 1) :
    readConfig moduleName config st =
      ({ st with onModuleInit := .preloadScript u, onBidResponse := .protectByWrapping u r },
        .ok ()) := by
  have hreg : testHttpRegex u = true := (testHttpRegex_iff u).2 ht
  have hc : config.isNullish = false := by
    cases config <;> first | rfl | (simp [JsVal.get] at hu)
  have hp : (config.get "params").truthy = true := by
    cases hparams : config.get "params" with
    | obj f => rfl
    | _ =>
      rw [hparams] at hu
      simp [JsVal.get] at hu
  rcases hmode with ⟨rfl, rfl⟩ | ⟨rfl, rfl⟩ <;>
    simp [readConfig, hc, hp, hu, hreg, hm]

/-- C22: for every bid response object, `bidWrapStepProtectByWrapping` leaves
the bid response with only its `ad` changed.  Let `comment` be the
identification comment `<!-- pbad://creativeId=…&bidderCode=…&cpm=… -->` built
from the bid response, `augmented` the comment, a line break and the ad as it
was, and `wrapped` the two script elements of the protection script (the first
loading `scriptURL`, the second carrying the encoded `augmented` text).  The
new ad is `wrapped` if and only if `preloadStatus >= requiredPreload` and
`augmented` otherwise, and the two differ.  Mode `bids` installs the step with
`requiredPreload` 0 and mode `bids-nowait` with 1, and a configuration with a
valid `cdnUrl` and one of these modes is accepted; and along every run of the
submodule `preloadStatus` is -1, 0 or 1, so with 0 a bid is left unwrapped
exactly when the status is -1, and with 1 it is wrapped exactly when the status
is 1. -/
theorem protectByWrapping_wraps_iff_preloaded (encodeURIComponent : String → String)
    (st : ModuleState) (scriptURL : String) (requiredPreload : Int)
    (fields : List (String × JsVal)) (sid : String) :
    ∃ comment augmented wrapped : String,
      comment = "<!-- pbad://creativeId=" ++
        (if (JsVal.lookupField fields "creativeId").truthy then
          Buzzoola.propertyKey (JsVal.lookupField fields "creativeId") else "") ++
        "&bidderCode=" ++
        (if (JsVal.lookupField fields "bidderCode").truthy then
          Buzzoola.propertyKey (JsVal.lookupField fields "bidderCode") else "") ++
        "&cpm=" ++
        (if (JsVal.lookupField fields "cpm").truthy then
          Buzzoola.propertyKey (JsVal.lookupField fields "cpm") else "") ++ " -->" ∧
      augmented = comment ++ "\n" ++ Buzzoola.propertyKey (JsVal.lookupField fields "ad") ∧
      wrapped =
        "\n    <script type=\"text/javascript\"\n      src=\"" ++ scriptURL ++
        "\"\n      data-api-integration-mode=\"prebid\"\n      data-api-session-uuid=\"" ++
        sid ++
        "\">\n    </script>\n    <script type=\"text/javascript\">\n      var ad = \"" ++
        encodeURIComponent augmented ++
        "\";\n      var agent = window[\"" ++ sid ++
        "\"];\n      if (agent && typeof agent.put === \"function\") \x7b\n        agent.put(ad);\n      \x7d\n      else \x7b\n        document.open();\n        document.write(decodeURIComponent(ad));\n        document.close();\n      \x7d\n    </script>\n  " ∧
      bidWrapStepProtectByWrapping encodeURIComponent st scriptURL requiredPreload
          (.obj fields) sid =
        .ok (.obj (JsVal.setField fields "ad" (.str
          (if requiredPreload ≤ st.preloadStatus then wrapped else augmented)))) ∧
      wrapped ≠ augmented ∧
      (∀ s : String, Buzzoola.propertyKey (.str s) = s) ∧
      (∀ n : Int, Buzzoola.propertyKey (.num n) = toString n) ∧
      (∀ (moduleName : String) (config : JsVal) (st0 : ModuleState),
        (readConfig moduleName config st0).2 = .ok () →
        ((config.get "params").get "protectionMode" = .str "bids" →
          ∃ u, (readConfig moduleName config st0).1.onBidResponse = .protectByWrapping u 0) ∧
        ((config.get "params").get "protectionMode" = .str "bids-nowait" →
          ∃ u, (readConfig moduleName config st0).1.onBidResponse = .protectByWrapping u 1)) ∧
      (∀ (moduleName : String) (config : JsVal) (st0 : ModuleState) (u : String),
        (config.get "params").get "cdnUrl" = .str u →
        ("http://".data <+: u.data ∨ "https://".data <+: u.data) →
        ((config.get "params").get "protectionMode" = .str "bids" →
          readConfig moduleName config st0 =
            ({ st0 with onModuleInit := .preloadScript u
                        onBidResponse := .protectByWrapping u 0 }, .ok ())) ∧
        ((config.get "params").get "protectionMode" = .str "bids-nowait" →
          readConfig moduleName config st0 =
            ({ st0 with onModuleInit := .preloadScript u
                        onBidResponse := .protectByWrapping u 1 }, .ok ()))) ∧
      (∀ (moduleName : String) (ops : List Op) (u : String) (r : Int),
        (run moduleName ops Submodule.initial).2.st.onBidResponse = .protectByWrapping u r →
        (r = 0 ∧ (¬ r ≤ (run moduleName ops Submodule.initial).2.st.preloadStatus ↔
            (run moduleName ops Submodule.initial).2.st.preloadStatus = -1)) ∨
        (r = 1 ∧ (r ≤ (run moduleName ops Submodule.initial).2.st.preloadStatus ↔
            (run moduleName ops Submodule.initial).2.st.preloadStatus = 1))) := by
  have hk : ∀ s : String, Buzzoola.propertyKey (.str s) = s := fun s => by
    simp [Buzzoola.propertyKey]
  have hn : ∀ n : Int, Buzzoola.propertyKey (.num n) = toString n := fun n => by
    simp [Buzzoola.propertyKey]
  refine ⟨pbadComment (.obj fields), augmentedAd (.obj fields),
    wrapAd scriptURL sid (encodeURIComponent (augmentedAd (.obj fields))), rfl, rfl, rfl, ?_,
    wrapAd_ne_augmentedAd _ _ _ _, hk, hn, ?_,
    fun moduleName config st0 u hu ht =>
      ⟨fun hm => readConfig_installs moduleName config st0 u "bids" 0 hu ht hm
          (Or.inl ⟨rfl, rfl⟩),
        fun hm => readConfig_installs moduleName config st0 u "bids-nowait" 1 hu ht hm
          (Or.inr ⟨rfl, rfl⟩)⟩, ?_⟩
  · have ha : bidWrapStepAugmentHtml (.obj fields) =
        .ok (.obj (JsVal.setField fields "ad" (.str (augmentedAd (.obj fields))))) := rfl
    have hg : (JsVal.obj (JsVal.setField fields "ad" (.str (augmentedAd (.obj fields))))).get
        "ad" = .str (augmentedAd (.obj fields)) :=
      Buzzoola.lookupField_setField_same fields "ad" _
    by_cases hlt : st.preloadStatus < requiredPreload
    · have hle : ¬ requiredPreload ≤ st.preloadStatus := by omega
      simp only [bidWrapStepProtectByWrapping, ha, hlt, hle, if_true, if_false]
    · have hle : requiredPreload ≤ st.preloadStatus := by omega
      simp only [bidWrapStepProtectByWrapping, ha, hlt, hle, if_true, if_false, hg, hk,
        setField_twice]
  · intro moduleName config st0 hok
    obtain ⟨u, _, h⟩ := readConfig_mode moduleName config st0 hok
    refine ⟨fun hm => ?_, fun hm => ?_⟩
    · rcases h with ⟨h1, _⟩ | ⟨_, h2⟩ | ⟨h1, _⟩
      · rw [hm] at h1; exact absurd (JsVal.str.inj h1) (by decide)
      · exact ⟨u, h2⟩
      · rw [hm] at h1; exact absurd (JsVal.str.inj h1) (by decide)
    · rcases h with ⟨h1, _⟩ | ⟨h1, _⟩ | ⟨_, h2⟩
      · rw [hm] at h1; exact absurd (JsVal.str.inj h1) (by decide)
      · rw [hm] at h1; exact absurd (JsVal.str.inj h1) (by decide)
      · exact ⟨u, h2⟩
  · intro moduleName ops u r hstep
    have h := run_settled moduleName ops Submodule.initial [] initial_settled
    obtain ⟨_, _, h3, h4⟩ := h
    rcases h4 u r hstep with hr | hr
    · left
      refine ⟨hr, ?_⟩
      rw [hr]
      omega
    · right
      refine ⟨hr, ?_⟩
      rw [hr]
      omega

/-- C22, witness: the submodule is initialised in mode `bids` and the preload
link then fails; the wrapping step is installed with `requiredPreload` 0 and
the status is -1, so bids are left unwrapped. -/
theorem protectByWrapping_wraps_iff_preloaded_witness :
    ((0 : Int) = 0 ∧ (¬ (0 : Int) ≤ (run "humansecurityMalvDefense"
        [.init (.obj [("params", .obj [("cdnUrl", .str "https://cdn.example/s.js"),
          ("protectionMode", .str "bids")])]), .preloadFailed]
        Submodule.initial).2.st.preloadStatus ↔
      (run "humansecurityMalvDefense"
        [.init (.obj [("params", .obj [("cdnUrl", .str "https://cdn.example/s.js"),
          ("protectionMode", .str "bids")])]), .preloadFailed]
        Submodule.initial).2.st.preloadStatus = -1)) ∨
    ((0 : Int) = 1 ∧ ((0 : Int) ≤ (run "humansecurityMalvDefense"
        [.init (.obj [("params", .obj [("cdnUrl", .str "https://cdn.example/s.js"),
          ("protectionMode", .str "bids")])]), .preloadFailed]
        Submodule.initial).2.st.preloadStatus ↔
      (run "humansecurityMalvDefense"
        [.init (.obj [("params", .obj [("cdnUrl", .str "https://cdn.example/s.js"),
          ("protectionMode", .str "bids")])]), .preloadFailed]
        Submodule.initial).2.st.preloadStatus = 1)) := by
  obtain ⟨_, _, _, _, _, _, _, _, _, _, _, _, hrun⟩ :=
    protectByWrapping_wraps_iff_preloaded (fun s => s) ModuleState.initial
      "https://cdn.example/s.js" 0 [("ad", .str "<div></div>")] "sid"
  exact hrun "humansecurityMalvDefense"
    [.init (.obj [("params", .obj [("cdnUrl", .str "https://cdn.example/s.js"),
      ("protectionMode", .str "bids")])]), .preloadFailed]
    "https://cdn.example/s.js" 0 rfl

end HumanSecurity

/-! # Proofs: the derived playback parameters of the GAM video module -/

namespace GamVideo

open UspConsent (JsVal JsError getOrThrow)

theorem lookupField_absent (q : List (String × JsVal)) (k : String)
    (h : hasOwn q k = false) : JsVal.lookupField q k = .undefined := by
  induction q with
  | nil => rfl
  | cons p l ih =>
    obtain ⟨a, x⟩ := p
    have h2 : ((a == k) || l.any (fun p => p.1 == k)) = false := h
    rw [Bool.or_eq_false_iff] at h2
    have hne : a ≠ k := by simpa using h2.1
    simp only [JsVal.lookupField, hne, if_false]
    exact ih h2.2

theorem assignFields_absent (source : List (String × JsVal)) (k : String) :
    ∀ target : List (String × JsVal), hasOwn target k = false → hasOwn source k = false →
      hasOwn (assignFields target source) k = false := by
  induction source with
  | nil => intro target h _; exact h
  | cons p rest ih =>
    intro target ht hs
    obtain ⟨a, x⟩ := p
    have hs2 : ((a == k) || rest.any (fun p => p.1 == k)) = false := hs
    rw [Bool.or_eq_false_iff] at hs2
    exact ih (JsVal.setField target a x) (by rw [hasOwn_setField, ht, hs2.1]; rfl) hs2.2

theorem objectAssign_absent (sources : List JsVal) (k : String) :
    ∀ target : List (String × JsVal), hasOwn target k = false →
      (∀ s ∈ sources, ∀ f, s = .obj f → hasOwn f k = false) →
      hasOwn (objectAssign target sources) k = false := by
  induction sources with
  | nil => intro target h _; exact h
  | cons s rest ih =>
    intro target ht hs
    have hrest : ∀ s ∈ rest, ∀ f, s = .obj f → hasOwn f k = false :=
      fun x hx => hs x (List.mem_cons_of_mem _ hx)
    cases s with
    | obj f =>
      exact ih (assignFields target f)
        (assignFields_absent f k target ht (hs _ (List.mem_cons_self _ _) f rfl)) hrest
    | _ => exact ih target ht hrest

theorem applyGetter_other (q : List (String × JsVal)) (entry : String × JsVal) (k : String)
    (hne : entry.1 ≠ k) : hasOwn (applyGetter q entry) k = hasOwn q k := by
  unfold applyGetter
  have hb : (entry.1 == k) = false := by simpa using hne
  split
  · split
    · rw [hasOwn_setField, hb, Bool.or_false]
    · rfl
  · rfl

theorem getters_other (entries : List (String × JsVal)) (k : String)
    (hne : ∀ e ∈ entries, e.1 ≠ k) :
    ∀ q : List (String × JsVal), hasOwn (entries.foldl applyGetter q) k = hasOwn q k := by
  induction entries with
  | nil => intro q; rfl
  | cons e rest ih =>
    intro q
    rw [List.foldl_cons, ih (fun x hx => hne x (List.mem_cons_of_mem _ hx)),
      applyGetter_other q e k (hne e (List.mem_cons_self _ _))]

/-- A parameter that the query does not own when the getters run: it ends up
with its getter's value, or absent when that value is `null` or `undefined`. -/
theorem getters_derive (before after : List (String × JsVal)) (k : String) (v : JsVal)
    (q : List (String × JsVal)) (hb : ∀ e ∈ before, e.1 ≠ k) (ha : ∀ e ∈ after, e.1 ≠ k)
    (hq : hasOwn q k = false) :
    (v.isNullish = false →
      hasOwn ((before ++ (k, v) :: after).foldl applyGetter q) k = true ∧
      JsVal.lookupField ((before ++ (k, v) :: after).foldl applyGetter q) k = v) ∧
    (v.isNullish = true →
      hasOwn ((before ++ (k, v) :: after).foldl applyGetter q) k = false) := by
  have h1 : hasOwn (before.foldl applyGetter q) k = false := by
    rw [getters_other before k hb]; exact hq
  rw [List.foldl_append, List.foldl_cons]
  refine ⟨fun hv => ?_, fun hv => ?_⟩
  · have h2 : applyGetter (before.foldl applyGetter q) (k, v) =
        JsVal.setField (before.foldl applyGetter q) k v := by
      simp [applyGetter, h1, hv]
    rw [h2]
    exact getters_keep after k v _ (same_setField _ k v)
  · have h2 : applyGetter (before.foldl applyGetter q) (k, v) = before.foldl applyGetter q := by
      simp [applyGetter, h1, hv]
    rw [h2, getters_other after k ha]
    exact h1

theorem derivedGetters_vpa (video : JsVal) :
    derivedGetters video =
      (derivedGetters video).take 5 ++ ("vpa", vpa video) :: [("vpmute", vpmute video)] := rfl

theorem derivedGetters_vpmute (video : JsVal) :
    derivedGetters video = (derivedGetters video).take 6 ++ ("vpmute", vpmute video) :: [] := rfl

theorem any_includesNum (list : List Int) (items : List JsVal) :
    items.any (includesNum list) = true ↔ ∃ n ∈ list, JsVal.num n ∈ items := by
  rw [List.any_eq_true]
  constructor
  · rintro ⟨x, hx, hi⟩
    cases x with
    | num n =>
      refine ⟨n, ?_, hx⟩
      simpa [includesNum] using hi
    | _ => simp [includesNum] at hi
  · rintro ⟨n, hn, hx⟩
    exact ⟨.num n, hx, by simpa [includesNum] using hn⟩

theorem containsNum_arr (items : List JsVal) (n : Int) :
    containsNum (.arr items) n ↔ JsVal.num n ∈ items := by
  constructor
  · rintro ⟨l, hl, h⟩
    cases hl
    exact h
  · intro h
    exact ⟨items, rfl, h⟩

theorem any_one (items : List JsVal) (n : Int) :
    items.any (includesNum [n]) = true ↔ containsNum (.arr items) n := by
  rw [any_includesNum, containsNum_arr]
  simp

theorem any_some (list : List Int) (items : List JsVal) :
    items.any (includesNum list) = true ↔ ∃ n ∈ list, containsNum (.arr items) n := by
  rw [any_includesNum]
  simp only [containsNum_arr]

/-- The value of the getter `vpa()` in the claim's words. -/
theorem vpa_spec (video : JsVal) :
    (vpa video = .str "click" ↔ specVpaClick (video.get "playbackmethod")) ∧
    (vpa video = .str "auto" ↔ specVpaAuto (video.get "playbackmethod")) ∧
    ((vpa video).isNullish = true ↔
      ¬ specVpaClick (video.get "playbackmethod") ∧
      ¬ specVpaAuto (video.get "playbackmethod")) := by
  unfold vpa specVpaClick specVpaAuto
  cases hp : video.get "playbackmethod" with
  | arr items =>
    simp only []
    rw [← any_one items 3, ← any_some [1, 2, 4, 5, 6] items]
    cases items.any (includesNum [3]) <;> cases items.any (includesNum [1, 2, 4, 5, 6]) <;>
      simp [JsVal.isNullish]
  | _ => simp [containsNum, JsVal.isNullish]

/-- The value of the getter `vpmute()` in the claim's words. -/
theorem vpmute_spec (video : JsVal) :
    (vpmute video = .str "1" ↔ specVpmuteMuted (video.get "playbackmethod")) ∧
    (vpmute video = .str "0" ↔ specVpmuteTalkie (video.get "playbackmethod")) ∧
    ((vpmute video).isNullish = true ↔
      ¬ specVpmuteMuted (video.get "playbackmethod") ∧
      ¬ specVpmuteTalkie (video.get "playbackmethod")) := by
  unfold vpmute specVpmuteMuted specVpmuteTalkie
  cases hp : video.get "playbackmethod" with
  | arr items =>
    simp only []
    rw [← any_some [2, 6] items, ← any_some [1, 3, 4, 5] items]
    cases items.any (includesNum [2, 6]) <;> cases items.any (includesNum [1, 3, 4, 5]) <;>
      simp [JsVal.isNullish]
  | _ => simp [containsNum, JsVal.isNullish]

/-- A derived parameter that no source of the query supplies. -/
theorem buildQueryParams_derived (env : Env) (options urlComponents derivedParams
    encodedCustomParams : JsVal) (before after : List (String × JsVal)) (k : String)
    (v : JsVal)
    (hg : derivedGetters (((options.get "adUnit").get "mediaTypes").get "video") =
      before ++ (k, v) :: after)
    (hb : ∀ e ∈ before, e.1 ≠ k) (ha : ∀ e ∈ after, e.1 ≠ k)
    (hkd : k ≠ "description_url") (hkp : k ≠ "ppid") (hks : k ≠ "ppsj")
    (hsrc : ∀ s ∈ [env.DEFAULT_GAM_PARAMS, urlComponents.get "search", derivedParams,
        options.get "params", .obj [("cust_params", encodedCustomParams)], env.gdprParams],
      ∀ f, s = .obj f → hasOwn f k = false) :
    (v.isNullish = false →
      hasOwn (buildQueryParams env options urlComponents derivedParams encodedCustomParams) k =
        true ∧
      JsVal.lookupField
        (buildQueryParams env options urlComponents derivedParams encodedCustomParams) k = v) ∧
    (v.isNullish = true →
      hasOwn (buildQueryParams env options urlComponents derivedParams encodedCustomParams) k =
        false) := by
  generalize hq0 : objectAssign []
    [env.DEFAULT_GAM_PARAMS, urlComponents.get "search", derivedParams, options.get "params",
     .obj [("cust_params", encodedCustomParams)], env.gdprParams] = q0
  have h0 : hasOwn q0 k = false := by
    rw [← hq0]
    exact objectAssign_absent _ k [] rfl hsrc
  generalize hq1 : (if (getDescriptionUrl env options "params").truthy then
      JsVal.setField q0 "description_url" (getDescriptionUrl env options "params")
    else q0) = q1
  have hbd : ("description_url" == k) = false := by simpa using Ne.symm hkd
  have hbp : ("ppid" == k) = false := by simpa using Ne.symm hkp
  have hbs : ("ppsj" == k) = false := by simpa using Ne.symm hks
  have h1 : hasOwn q1 k = false := by
    rw [← hq1]
    split
    · rw [hasOwn_setField, h0, hbd]; rfl
    · exact h0
  generalize hq2 : (if !(JsVal.lookupField q1 "ppid").truthy then
      if !env.ppid.isNullish then JsVal.setField q1 "ppid" env.ppid else q1
    else q1) = q2
  have h2 : hasOwn q2 k = false := by
    rw [← hq2]
    split
    · split
      · rw [hasOwn_setField, h1, hbp]; rfl
      · exact h1
    · exact h1
  have h3 := getters_derive before after k v q2 hb ha h2
  rw [← hg] at h3
  simp only [buildQueryParams, hq0, hq1, hq2]
  refine ⟨fun hv => ?_, fun hv => ?_⟩
  · split
    · exact keep_setField _ "ppsj" k _ _ (Ne.symm hks) (h3.1 hv)
    · exact h3.1 hv
  · split
    · rw [hasOwn_setField, h3.2 hv, hbs]; rfl
    · exact h3.2 hv

/-- C24, counterexample: the publisher gives a `url` and no `params`, and the ad
unit's `playbackmethod` is `[3]`.  The function returns the components of the
given URL with `description_url` and `cust_params` added; `vpa` is not derived,
the query does not carry it. -/
theorem url_only_call_derives_no_vpa :
    (buildGamVideoUrlComponents pageEnv
      (.obj [("adUnit", .obj [("code", .str "video1"),
          ("mediaTypes", .obj [("video", .obj [("playbackmethod", .arr [.num 3])])])]),
        ("url", .str "https://securepubads.g.doubleclick.net/gampad/ads")])).toOption.map
      (Option.map (fun c => ((c.get "search").get "vpa", (c.get "search").get "cust_params"))) =
      some (some (.undefined, .str "")) ∧
    vpa (.obj [("playbackmethod", .arr [.num 3])]) = .str "click" := by
  exact ⟨rfl, rfl⟩

theorem derived_param_spec (q : List (String × JsVal)) (k : String) (v : JsVal)
    (P1 P2 : Prop) (s1 s2 : String) (hv1 : v = .str s1 ↔ P1) (hv2 : v = .str s2 ↔ P2)
    (hn : v.isNullish = true ↔ ¬ P1 ∧ ¬ P2)
    (hd : (v.isNullish = false → hasOwn q k = true ∧ JsVal.lookupField q k = v) ∧
      (v.isNullish = true → hasOwn q k = false)) :
    (JsVal.lookupField q k = .str s1 ↔ P1) ∧ (JsVal.lookupField q k = .str s2 ↔ P2) ∧
    (hasOwn q k = false ↔ ¬ P1 ∧ ¬ P2) := by
  cases hv : v.isNullish
  · obtain ⟨ho, hl⟩ := hd.1 hv
    rw [hl, ho]
    refine ⟨hv1, hv2, ?_⟩
    rw [← hn, hv]
    simp
  · have ho := hd.2 hv
    have hl := lookupField_absent q k ho
    have hp := hn.1 hv
    rw [hl, ho]
    refine ⟨⟨fun h => (by cases h), fun h => absurd h hp.1⟩,
      ⟨fun h => (by cases h), fun h => absurd h hp.2⟩, ?_⟩
    simp [hp]

/-- The playback parameters in the query, in the claim's words, when no source
of the query supplies them. -/
theorem buildQueryParams_playback (env : Env) (options urlComponents : JsVal)
    (d : List (String × JsVal)) (c : JsVal)
    (hd : hasOwn d "vpa" = false ∧ hasOwn d "vpmute" = false)
    (hsrc : ∀ k ∈ ["vpa", "vpmute"], ∀ s ∈ [env.DEFAULT_GAM_PARAMS,
        urlComponents.get "search", options.get "params", env.gdprParams],
      ∀ f, s = .obj f → hasOwn f k = false) :
    (JsVal.lookupField (buildQueryParams env options urlComponents (.obj d) c) "vpa" =
        .str "click" ↔
      specVpaClick ((((options.get "adUnit").get "mediaTypes").get "video").get
        "playbackmethod")) ∧
    (JsVal.lookupField (buildQueryParams env options urlComponents (.obj d) c) "vpa" =
        .str "auto" ↔
      specVpaAuto ((((options.get "adUnit").get "mediaTypes").get "video").get
        "playbackmethod")) ∧
    (hasOwn (buildQueryParams env options urlComponents (.obj d) c) "vpa" = false ↔
      ¬ specVpaClick ((((options.get "adUnit").get "mediaTypes").get "video").get
        "playbackmethod") ∧
      ¬ specVpaAuto ((((options.get "adUnit").get "mediaTypes").get "video").get
        "playbackmethod")) ∧
    (JsVal.lookupField (buildQueryParams env options urlComponents (.obj d) c) "vpmute" =
        .str "1" ↔
      specVpmuteMuted ((((options.get "adUnit").get "mediaTypes").get "video").get
        "playbackmethod")) ∧
    (JsVal.lookupField (buildQueryParams env options urlComponents (.obj d) c) "vpmute" =
        .str "0" ↔
      specVpmuteTalkie ((((options.get "adUnit").get "mediaTypes").get "video").get
        "playbackmethod")) ∧
    (hasOwn (buildQueryParams env options urlComponents (.obj d) c) "vpmute" = false ↔
      ¬ specVpmuteMuted ((((options.get "adUnit").get "mediaTypes").get "video").get
        "playbackmethod") ∧
      ¬ specVpmuteTalkie ((((options.get "adUnit").get "mediaTypes").get "video").get
        "playbackmethod")) := by
  have hsrc2 : ∀ (k : String), k ∈ ["vpa", "vpmute"] → hasOwn d k = false →
      ∀ s ∈ [env.DEFAULT_GAM_PARAMS, urlComponents.get "search", JsVal.obj d,
        options.get "params", .obj [("cust_params", c)], env.gdprParams],
      ∀ f, s = .obj f → hasOwn f k = false := by
    intro k hk hdk s hs f hf
    simp only [List.mem_cons, List.mem_singleton, List.not_mem_nil, or_false] at hs
    rcases hs with h | h | h | h | h | h
    · exact hsrc k hk s (by simp [h]) f hf
    · exact hsrc k hk s (by simp [h]) f hf
    · rw [h] at hf
      cases hf
      exact hdk
    · exact hsrc k hk s (by simp [h]) f hf
    · rw [h] at hf
      cases hf
      simp only [List.mem_cons, List.mem_singleton, List.not_mem_nil, or_false] at hk
      rcases hk with hk | hk <;> (rw [hk]; rfl)
    · exact hsrc k hk s (by simp [h]) f hf
  have hvpa := buildQueryParams_derived env options urlComponents (.obj d) c
    ((derivedGetters (((options.get "adUnit").get "mediaTypes").get "video")).take 5)
    [("vpmute", vpmute (((options.get "adUnit").get "mediaTypes").get "video"))] "vpa"
    (vpa (((options.get "adUnit").get "mediaTypes").get "video"))
    (derivedGetters_vpa _) (by simp [derivedGetters]) (by simp) (by decide) (by decide)
    (by decide) (hsrc2 "vpa" (by simp) hd.1)
  have hvpm := buildQueryParams_derived env options urlComponents (.obj d) c
    ((derivedGetters (((options.get "adUnit").get "mediaTypes").get "video")).take 6)
    [] "vpmute" (vpmute (((options.get "adUnit").get "mediaTypes").get "video"))
    (derivedGetters_vpmute _) (by simp [derivedGetters]) (by simp) (by decide) (by decide)
    (by decide) (hsrc2 "vpmute" (by simp) hd.2)
  obtain ⟨a1, a2, a3⟩ := vpa_spec (((options.get "adUnit").get "mediaTypes").get "video")
  obtain ⟨b1, b2, b3⟩ := vpmute_spec (((options.get "adUnit").get "mediaTypes").get "video")
  obtain ⟨r1, r2, r3⟩ := derived_param_spec _ "vpa" _ _ _ "click" "auto" a1 a2 a3 hvpa
  obtain ⟨t1, t2, t3⟩ := derived_param_spec _ "vpmute" _ _ _ "1" "0" b1 b2 b3 hvpm
  exact ⟨r1, r2, r3, t1, t2, t3⟩

/-- C24, as amended: let `buildGamVideoUrl` build its query from parameters
(`options.params` is not empty, or no `options.url` is given), let
`options.adUnit` be given, and let none of `DEFAULT_GAM_PARAMS`, the query of
`options.url`, `options.params` and `gdprParams()` have a key `vpa` or `vpmute`.
Then the function reaches `buildUrl`, and in the query `vpa` is `'click'` iff
`playbackmethod` contains 3 and none of 1, 2, 4, 5, 6, `'auto'` iff it contains
one of 1, 2, 4, 5, 6 and not 3, and absent otherwise; `vpmute` is `'1'` iff it
contains 2 or 6 and none of 1, 3, 4, 5, `'0'` iff it contains one of 1, 3, 4, 5
and neither 2 nor 6, and absent otherwise. -/
theorem playback_params_derived (env : Env) (options : JsVal)
    (hadunit : (options.get "adUnit").isNullish = false)
    (hgiven : (options.get "params").truthy = true ∨ (options.get "url").truthy = true)
    (hmain : ((options.get "url").truthy && isEmpty (options.get "params")) = false)
    (hsrc : ∀ k ∈ ["vpa", "vpmute"], ∀ s ∈ [env.DEFAULT_GAM_PARAMS,
        (if (options.get "url").truthy then env.parseUrl (options.get "url")
          else JsVal.obj []).get "search", options.get "params", env.gdprParams],
      ∀ f, s = .obj f → hasOwn f k = false) :
    ∃ components q, buildGamVideoUrlComponents env options = .ok (some components) ∧
      components.get "search" = .obj q ∧
      (JsVal.lookupField q "vpa" = .str "click" ↔
        specVpaClick ((((options.get "adUnit").get "mediaTypes").get "video").get
          "playbackmethod")) ∧
      (JsVal.lookupField q "vpa" = .str "auto" ↔
        specVpaAuto ((((options.get "adUnit").get "mediaTypes").get "video").get
          "playbackmethod")) ∧
      (hasOwn q "vpa" = false ↔
        ¬ specVpaClick ((((options.get "adUnit").get "mediaTypes").get "video").get
          "playbackmethod") ∧
        ¬ specVpaAuto ((((options.get "adUnit").get "mediaTypes").get "video").get
          "playbackmethod")) ∧
      (JsVal.lookupField q "vpmute" = .str "1" ↔
        specVpmuteMuted ((((options.get "adUnit").get "mediaTypes").get "video").get
          "playbackmethod")) ∧
      (JsVal.lookupField q "vpmute" = .str "0" ↔
        specVpmuteTalkie ((((options.get "adUnit").get "mediaTypes").get "video").get
          "playbackmethod")) ∧
      (hasOwn q "vpmute" = false ↔
        ¬ specVpmuteMuted ((((options.get "adUnit").get "mediaTypes").get "video").get
          "playbackmethod") ∧
        ¬ specVpmuteTalkie ((((options.get "adUnit").get "mediaTypes").get "video").get
          "playbackmethod")) := by
  have hobj : options.isNullish = false ∧ options.truthy = true := by
    cases options <;> first | exact ⟨rfl, rfl⟩ | (rcases hgiven with h | h <;> cases h)
  have hno : (!(options.get "params").truthy && !(options.get "url").truthy) = false := by
    rcases hgiven with h | h <;> simp [h]
  have hbid : ∃ bid, (if (options.get "bid").truthy then Except.ok (options.get "bid")
      else (getOrThrow (options.get "adUnit") "code").map env.winningBid) =
      (Except.ok bid : Except JsError JsVal) := by
    cases (options.get "bid").truthy
    · exact ⟨_, by simp only [getOrThrow, hadunit]; rfl⟩
    · exact ⟨_, rfl⟩
  obtain ⟨bid, hbid⟩ := hbid
  generalize hu : (if (options.get "url").truthy then env.parseUrl (options.get "url")
    else JsVal.obj []) = urlComponents at hsrc
  obtain ⟨c, hc⟩ := getCustParams_ok env bid options
    (if (urlComponents.get "search").truthy then (urlComponents.get "search").get "cust_params"
      else urlComponents.get "search") hobj.2 hadunit
  have hgp : getOrThrow options "params" = .ok (options.get "params") := by
    simp only [getOrThrow, hobj.1]
    rfl
  simp only [buildGamVideoUrlComponents, hgp, hno, hbid, hu, hmain, hc,
    Bool.false_eq_true, if_false]
  refine ⟨_, _, rfl, search_of_components _ _ _, ?_⟩
  refine buildQueryParams_playback env options urlComponents _ c ?_ hsrc
  exact ⟨rfl, rfl⟩

/-- C24, witness: the publisher passes only `iu`, and the ad unit's
`playbackmethod` is `[2, 6]`; the query carries `vpa=auto` and `vpmute=1`. -/
theorem playback_params_derived_witness :
    ∃ components q, buildGamVideoUrlComponents pageEnv
        (.obj [("adUnit", .obj [("code", .str "video1"),
            ("mediaTypes", .obj [("video", .obj [("playbackmethod",
              .arr [.num 2, .num 6])])])]),
          ("params", .obj [("iu", .str "/19968336/prebid")])]) = .ok (some components) ∧
      components.get "search" = .obj q ∧
      JsVal.lookupField q "vpa" = .str "auto" ∧ JsVal.lookupField q "vpmute" = .str "1" := by
  obtain ⟨components, q, h1, h2, _, ha, _, hm, _, _⟩ := playback_params_derived pageEnv
    (.obj [("adUnit", .obj [("code", .str "video1"),
        ("mediaTypes", .obj [("video", .obj [("playbackmethod",
          .arr [.num 2, .num 6])])])]),
      ("params", .obj [("iu", .str "/19968336/prebid")])])
    rfl (Or.inl rfl) rfl
    (by
      intro k hk s hs f hf
      simp only [List.mem_cons, List.mem_singleton, List.not_mem_nil, or_false] at hk hs
      rcases hk with rfl | rfl <;> rcases hs with rfl | rfl | rfl | rfl <;>
        first
        | (cases hf; rfl)
        | cases hf)
  refine ⟨components, q, h1, h2, ha.2 ?_, hm.2 ?_⟩
  · refine ⟨⟨2, by simp, [.num 2, .num 6], rfl, by simp⟩, ?_⟩
    rintro ⟨items, hi, hmem⟩
    cases hi
    simp at hmem
  · refine ⟨⟨2, by simp, [.num 2, .num 6], rfl, by simp⟩, ?_⟩
    rintro ⟨n, hn, items, hi, hmem⟩
    cases hi
    simp only [List.mem_cons, List.mem_singleton, List.not_mem_nil, or_false] at hn
    rcases hn with rfl | rfl | rfl | rfl <;> simp at hmem

end GamVideo

/-! # Proofs: request building of the OpenX bid adapter -/

namespace OpenX

open UspConsent (JsVal JsError getOrThrow)

theorem deepAccess_two (o : JsVal) (a b : String) :
    Buzzoola.deepAccess o [a, b] = (o.get a).get b := by
  have step : ∀ (v : JsVal) (k : String),
      (if v.truthy = true then v.get k else JsVal.undefined) = v.get k := by
    intro v k
    cases h : v.truthy
    · simp [Buzzoola.get_falsy v k h]
    · simp
  simp only [Buzzoola.deepAccess, List.foldl, step]

theorem isVideoBidRequest_spec (bid : JsVal) :
    (isVideoBidRequest bid).truthy = specHasVideo bid := by
  simp only [isVideoBidRequest, deepAccess_two, specHasVideo]

theorem combined_filter_spec (bid : JsVal) :
    ((isBannerBidRequest bid).truthy || (isNativeBidRequest bid).truthy) = specCombined bid := by
  simp only [isBannerBidRequest, isVideoBidRequest, isNativeBidRequest, deepAccess_two,
    specCombined]
  cases hbn : ((bid.get "mediaTypes").get "banner").truthy <;>
    cases hv : ((bid.get "mediaTypes").get "video").truthy <;>
    cases hn : ((bid.get "mediaTypes").get "native").truthy <;>
    (simp [hbn] <;> rfl)

theorem lookupField_spread (v : JsVal) (key : String) :
    JsVal.lookupField (spread v) key = v.get key := by
  cases v <;> rfl

theorem withoutVideo_spec (bid : JsVal) (h : bid.isNullish = false) :
    ∃ carried, withoutVideo bid = .ok carried ∧ VideoRemoved bid carried := by
  refine ⟨_, by simp only [withoutVideo, getOrThrow, h]; rfl, ?_, ?_, ?_⟩
  · show JsVal.get (JsVal.lookupField (JsVal.setField (spread bid) "mediaTypes" _)
      "mediaTypes") "video" = _
    rw [Buzzoola.lookupField_setField_same]
    exact Buzzoola.lookupField_setField_same _ _ _
  · intro key hk
    show JsVal.get (JsVal.lookupField (JsVal.setField (spread bid) "mediaTypes" _)
      "mediaTypes") key = _
    rw [Buzzoola.lookupField_setField_same]
    show JsVal.lookupField (JsVal.setField (spread (bid.get "mediaTypes")) "video" _) key = _
    rw [Buzzoola.lookupField_setField_ne _ _ _ _ (Ne.symm hk), lookupField_spread]
  · intro key hk
    show JsVal.lookupField (JsVal.setField (spread bid) "mediaTypes" _) key = _
    rw [Buzzoola.lookupField_setField_ne _ _ _ _ (Ne.symm hk), lookupField_spread]

theorem mapWithoutVideo_spec (bids : List JsVal) (h : ∀ b ∈ bids, b.isNullish = false) :
    ∃ carried, mapWithoutVideo bids = .ok carried ∧ List.Forall₂ VideoRemoved bids carried := by
  induction bids with
  | nil => exact ⟨[], rfl, List.Forall₂.nil⟩
  | cons b rest ih =>
    obtain ⟨c, hc, hr⟩ := withoutVideo_spec b (h b (List.mem_cons_self _ _))
    obtain ⟨cs, hcs, hrs⟩ := ih (fun x hx => h x (List.mem_cons_of_mem _ hx))
    exact ⟨c :: cs, by simp only [mapWithoutVideo, hc, hcs], List.Forall₂.cons hr hrs⟩

theorem forall₂_mem_left {R : JsVal → JsVal → Prop} {l out : List JsVal}
    (h : List.Forall₂ R l out) (b : JsVal) (hb : b ∈ l) : ∃ c ∈ out, R b c := by
  induction h with
  | nil => cases hb
  | cons hr _ ih =>
    rcases List.mem_cons.1 hb with rfl | hb
    · exact ⟨_, List.mem_cons_self _ _, hr⟩
    · obtain ⟨c, hc, hrc⟩ := ih hb
      exact ⟨c, List.mem_cons_of_mem _ hc, hrc⟩

theorem forall₂_mem_right {R : JsVal → JsVal → Prop} {l out : List JsVal}
    (h : List.Forall₂ R l out) (c : JsVal) (hc : c ∈ out) : ∃ b ∈ l, R b c := by
  induction h with
  | nil => cases hc
  | cons hr _ ih =>
    rcases List.mem_cons.1 hc with rfl | hc
    · exact ⟨_, List.mem_cons_self _ _, hr⟩
    · obtain ⟨b, hb, hrb⟩ := ih hc
      exact ⟨b, List.mem_cons_of_mem _ hb, hrb⟩

/-- C23: for every list of bid requests (objects), `buildRequests` returns
the list `combined ++ videos`.  `combined` holds at most one request; it is
present exactly when some bid is banner, native, or has neither video nor
native; its media type is `null` and its bids are, in input order, the bids
of that kind with `mediaTypes.video` removed.  `videos` holds one request of
media type `'video'` per bid that has `mediaTypes.video`, in input order, each
carrying that bid alone.  Every input bid is of at least one of the two kinds,
a bid of the first kind is carried by the combined request and a bid with
video by a request of its own, so a multi-format bid with video is carried by
both. -/
theorem buildRequests_splits_by_format (openxOrtbUrl : JsVal) (bids : List JsVal)
    (bidderRequest : JsVal) (hobj : ∀ b ∈ bids, ∃ fields, b = .obj fields) :
    ∃ (combined : List ServerRequest) (carried : List JsVal),
      buildRequests openxOrtbUrl bids bidderRequest =
        .ok (combined ++ (bids.filter specHasVideo).map (fun b =>
          createRequest openxOrtbUrl [b] bidderRequest (.str "video"))) ∧
      List.Forall₂ VideoRemoved (bids.filter specCombined) carried ∧
      combined = (if carried.length > 0 then
        [createRequest openxOrtbUrl carried bidderRequest .null] else []) ∧
      combined.length ≤ 1 ∧
      (combined ≠ [] ↔ ∃ b ∈ bids, specCombined b = true) ∧
      (∀ r ∈ combined, ∀ c ∈ r.bidRequests,
        (c.get "mediaTypes").get "video" = .undefined) ∧
      (∀ b ∈ bids, specCombined b = true ∨ specHasVideo b = true) ∧
      (∀ b ∈ bids, specCombined b = true →
        ∃ r ∈ combined, r.mediaType = .null ∧ ∃ c ∈ r.bidRequests, VideoRemoved b c) ∧
      (∀ b ∈ bids, specHasVideo b = true →
        ∃ r ∈ (bids.filter specHasVideo).map (fun b =>
            createRequest openxOrtbUrl [b] bidderRequest (.str "video")),
          r.mediaType = .str "video" ∧ r.bidRequests = [b]) := by
  have hv : (fun b => (isVideoBidRequest b).truthy) = specHasVideo :=
    funext isVideoBidRequest_spec
  have hc : (fun b => (isBannerBidRequest b).truthy || (isNativeBidRequest b).truthy)
      = specCombined := funext combined_filter_spec
  have hnn : ∀ b ∈ bids.filter specCombined, b.isNullish = false := by
    intro b hb
    obtain ⟨f, rfl⟩ := hobj b (List.mem_of_mem_filter hb)
    rfl
  obtain ⟨carried, hmap, hrel⟩ := mapWithoutVideo_spec _ hnn
  have hlen : carried.length = (bids.filter specCombined).length := hrel.length_eq.symm
  refine ⟨if carried.length > 0 then
    [createRequest openxOrtbUrl carried bidderRequest .null] else [], carried,
    ?_, hrel, rfl, ?_, ?_, ?_, ?_, ?_, ?_⟩
  · simp only [buildRequests, hv, hc, hmap, VIDEO]
  · split <;> simp
  · constructor
    · intro hne
      have hpos : carried.length > 0 := by
        by_contra h
        exact hne (if_neg h)
      rw [hlen] at hpos
      obtain ⟨b, hb⟩ := List.exists_mem_of_length_pos hpos
      exact ⟨b, List.mem_of_mem_filter hb, (List.mem_filter.1 hb).2⟩
    · rintro ⟨b, hb, hs⟩
      have hpos : carried.length > 0 := by
        rw [hlen]
        exact List.length_pos_of_mem (List.mem_filter.2 ⟨hb, hs⟩)
      rw [if_pos hpos]
      simp
  · intro r hr c hcr
    split at hr
    · rw [List.mem_singleton] at hr
      subst hr
      obtain ⟨b, _, hb⟩ := forall₂_mem_right hrel c hcr
      exact hb.1
    · cases hr
  · intro b _
    simp only [specHasVideo, specCombined]
    cases ((b.get "mediaTypes").get "video").truthy <;>
      cases ((b.get "mediaTypes").get "native").truthy <;> simp
  · intro b hb hs
    obtain ⟨c, hcm, hrc⟩ := forall₂_mem_left hrel b (List.mem_filter.2 ⟨hb, hs⟩)
    have hpos : carried.length > 0 := List.length_pos_of_mem hcm
    rw [if_pos hpos]
    exact ⟨_, List.mem_singleton_self _, rfl, c, hcm, hrc⟩
  · intro b hb hs
    exact ⟨_, List.mem_map.2 ⟨b, List.mem_filter.2 ⟨hb, hs⟩, rfl⟩, rfl, rfl⟩

/-- C23, witness: a banner bid, a bid with banner and video, and a video bid
give one combined request followed by the requests of the two video bids. -/
theorem buildRequests_splits_by_format_witness :
    ∃ combined, buildRequests .undefined
        [.obj [("bidId", .str "a"), ("mediaTypes", .obj [("banner", .obj [])])],
         .obj [("bidId", .str "b"),
           ("mediaTypes", .obj [("banner", .obj []), ("video", .obj [])])],
         .obj [("bidId", .str "c"), ("mediaTypes", .obj [("video", .obj [])])]]
        (.obj []) =
      .ok (combined ++
        [createRequest .undefined [.obj [("bidId", .str "b"),
            ("mediaTypes", .obj [("banner", .obj []), ("video", .obj [])])]]
            (.obj []) (.str "video"),
         createRequest .undefined [.obj [("bidId", .str "c"),
            ("mediaTypes", .obj [("video", .obj [])])]] (.obj []) (.str "video")]) ∧
      combined.length ≤ 1 := by
  obtain ⟨combined, _, h1, _, _, h4, _⟩ := buildRequests_splits_by_format .undefined
    [.obj [("bidId", .str "a"), ("mediaTypes", .obj [("banner", .obj [])])],
     .obj [("bidId", .str "b"),
       ("mediaTypes", .obj [("banner", .obj []), ("video", .obj [])])],
     .obj [("bidId", .str "c"), ("mediaTypes", .obj [("video", .obj [])])]]
    (.obj [])
    (by
      intro b hb
      simp only [List.mem_cons, List.mem_singleton, List.not_mem_nil, or_false] at hb
      rcases hb with rfl | rfl | rfl <;> exact ⟨_, rfl⟩)
  exact ⟨combined, h1, h4⟩

end OpenX

/-! # Proofs: the event queue of the PubWise analytics adapter -/

namespace Pubwise

open UspConsent (JsVal JsError getOrThrow)

theorem strictEqStr_iff (v : JsVal) (s : String) :
    Buzzoola.strictEqStr v s = true ↔ v = .str s := by
  cases v <;> simp [Buzzoola.strictEqStr]

theorem indexOfFrom_found (v : JsVal) (items : List String) (i : Nat) :
    indexOfFrom v items i ≠ -1 ↔ ∃ e ∈ items, v = .str e := by
  induction items generalizing i with
  | nil => simp [indexOfFrom]
  | cons e rest ih =>
    simp only [indexOfFrom]
    by_cases h : Buzzoola.strictEqStr v e = true
    · rw [if_pos h]
      constructor
      · intro _
        exact ⟨e, List.mem_cons_self _ _, (strictEqStr_iff v e).1 h⟩
      · intro _
        omega
    · rw [if_neg h, ih]
      constructor
      · rintro ⟨x, hx, hv⟩
        exact ⟨x, List.mem_cons_of_mem _ hx, hv⟩
      · rintro ⟨x, hx, hv⟩
        rcases List.mem_cons.1 hx with rfl | hx
        · exact absurd ((strictEqStr_iff v x).2 hv) h
        · exact ⟨x, hx, hv⟩

theorem isIngestedEvent_iff (EVENTS : Events) (eventType : JsVal) :
    isIngestedEvent EVENTS eventType = true ↔ specIngested EVENTS eventType := by
  simp only [isIngestedEvent, bne_iff_ne, indexOfFrom_found, specIngested, List.mem_cons,
    List.mem_singleton, List.not_mem_nil, or_false, exists_eq_or_imp, exists_eq_left]

theorem flushDue_iff (EVENTS : Events) (eventType : JsVal) :
    (Buzzoola.strictEqStr eventType EVENTS.AUCTION_END ||
      Buzzoola.strictEqStr eventType EVENTS.BID_WON) = true ↔ specFlushes EVENTS eventType := by
  simp only [Bool.or_eq_true, strictEqStr_iff, specFlushes]

theorem filterAuctionInit_ok (data : JsVal) (h : InitData data) :
    ∃ d, filterAuctionInit data = .ok d := by
  have hbr : JsVal.lookupField (JsVal.setField (ownProperties data) "refererInfo" (.obj []))
      "bidderRequests" = data.get "bidderRequests" := by
    rw [Buzzoola.lookupField_setField_ne _ _ _ _ (by decide)]
    cases data <;> rfl
  unfold filterAuctionInit
  simp only [hbr]
  rcases h with h | ⟨items, h, hr⟩
  · simp [h, isDefined]
  · rw [h]
    cases items with
    | nil => simp [isDefined, first]
    | cons r rest =>
      obtain ⟨fields, rfl, hinfo⟩ := hr r rfl
      rcases hinfo with hinfo | ⟨info, hinfo⟩ <;>
        simp [isDefined, first, getOrThrow, JsVal.isNullish, JsVal.get, hinfo]

theorem filterData_ok (EVENTS : Events) (eventType data : JsVal)
    (h : eventType = .str EVENTS.AUCTION_INIT → InitData data) :
    ∃ args, filterData EVENTS eventType data = .ok args := by
  unfold filterData
  split
  · rename_i hi
    exact filterAuctionInit_ok data (h ((strictEqStr_iff _ _).1 hi))
  · split
    · exact ⟨_, rfl⟩
    · exact ⟨_, rfl⟩

/-- The state `handleEvent` reaches before its final test: the event is queued
when its type is ingested. -/
theorem handleEvent_eq (EVENTS : Events) (recorded eventType data args : JsVal) (st : State)
    (hargs : filterData EVENTS eventType data = .ok args) :
    handleEvent EVENTS recorded eventType data st =
      ((if Buzzoola.strictEqStr eventType EVENTS.AUCTION_END ||
            Buzzoola.strictEqStr eventType EVENTS.BID_WON then
          flushEvents (if isIngestedEvent EVENTS eventType then
            { st with metaData := recorded
                      pwEvents := st.pwEvents ++ [eventEntry eventType args] } else st)
        else (if isIngestedEvent EVENTS eventType then
            { st with metaData := recorded
                      pwEvents := st.pwEvents ++ [eventEntry eventType args] } else st)),
        .ok ()) := by
  simp only [handleEvent, hargs]
  cases isIngestedEvent EVENTS eventType <;> rfl

theorem sentEvents_append (a b : List JsVal) :
    sentEvents (a ++ b) = sentEvents a ++ sentEvents b := by
  induction a with
  | nil => rfl
  | cons x rest ih =>
    show _ ++ sentEvents (rest ++ b) = (_ ++ sentEvents rest) ++ sentEvents b
    rw [ih, List.append_assoc]

theorem flushEvents_effect (st : State) :
    (flushEvents st).pwEvents = [] ∧ (flushEvents st).metaData = st.metaData ∧
    (st.pwEvents ≠ [] → (flushEvents st).sent = st.sent ++ [dataBag st.metaData st.pwEvents]) ∧
    (st.pwEvents = [] → (flushEvents st).sent = st.sent) := by
  unfold flushEvents
  split
  · rename_i h
    refine ⟨rfl, rfl, fun _ => rfl, fun he => ?_⟩
    rw [he] at h
    simp at h
  · rename_i h
    have he : st.pwEvents = [] := List.length_eq_zero.1 (by omega)
    exact ⟨he, rfl, fun hne => absurd he hne, fun _ => rfl⟩

theorem flushEvents_keeps (st : State) :
    sentEvents (flushEvents st).sent ++ (flushEvents st).pwEvents =
      sentEvents st.sent ++ st.pwEvents := by
  obtain ⟨h1, _, h3, h4⟩ := flushEvents_effect st
  by_cases he : st.pwEvents = []
  · rw [h1, h4 he, he]
  · rw [h1, h3 he, sentEvents_append]
    simp [sentEvents, dataBag, JsVal.get, JsVal.lookupField]

theorem step_keeps (EVENTS : Events) (st : State) (op : Op) (h : WellFormed EVENTS op) :
    ∃ entries, List.Forall₂ (EntryOf EVENTS) (ingestedOps EVENTS [op]) entries ∧
      sentEvents (step EVENTS st op).sent ++ (step EVENTS st op).pwEvents =
        sentEvents st.sent ++ st.pwEvents ++ entries := by
  cases op with
  | interval =>
    exact ⟨[], List.Forall₂.nil, by simp only [step, flushEvents_keeps, List.append_nil]⟩
  | track recorded eventType data =>
    obtain ⟨args, hargs⟩ := filterData_ok EVENTS eventType data h
    simp only [step, handleEvent_eq EVENTS recorded eventType data args st hargs, ingestedOps]
    cases hi : isIngestedEvent EVENTS eventType
    · refine ⟨[], List.Forall₂.nil, ?_⟩
      split
      · simp only [flushEvents_keeps, List.append_nil, Bool.false_eq_true, if_false]
      · simp only [List.append_nil, Bool.false_eq_true, if_false]
    · refine ⟨[eventEntry eventType args],
        List.Forall₂.cons ⟨args, hargs, rfl⟩ List.Forall₂.nil, ?_⟩
      split
      · simp only [flushEvents_keeps, if_true, List.append_assoc]
      · simp only [if_true, List.append_assoc]

theorem ingestedOps_cons (EVENTS : Events) (op : Op) (rest : List Op) :
    ingestedOps EVENTS (op :: rest) = ingestedOps EVENTS [op] ++ ingestedOps EVENTS rest := by
  cases op with
  | interval => rfl
  | track recorded eventType data =>
    simp only [ingestedOps]
    split <;> rfl

theorem run_keeps (EVENTS : Events) (ops : List Op) (st : State)
    (h : ∀ op ∈ ops, WellFormed EVENTS op) :
    ∃ entries, List.Forall₂ (EntryOf EVENTS) (ingestedOps EVENTS ops) entries ∧
      sentEvents (run EVENTS ops st).sent ++ (run EVENTS ops st).pwEvents =
        sentEvents st.sent ++ st.pwEvents ++ entries := by
  induction ops generalizing st with
  | nil => exact ⟨[], List.Forall₂.nil, by simp [run]⟩
  | cons op rest ih =>
    obtain ⟨e1, hr1, hk1⟩ := step_keeps EVENTS st op (h op (List.mem_cons_self _ _))
    obtain ⟨e2, hr2, hk2⟩ := ih (step EVENTS st op) (fun x hx => h x (List.mem_cons_of_mem _ hx))
    refine ⟨e1 ++ e2, ?_, ?_⟩
    · rw [ingestedOps_cons]
      exact List.rel_append hr1 hr2
    · show sentEvents (run EVENTS rest (step EVENTS st op)).sent ++
        (run EVENTS rest (step EVENTS st op)).pwEvents = _
      rw [hk2, hk1, List.append_assoc]

theorem lookup_set (m : List (String × JsVal)) (k k2 : String) (v : JsVal) :
    JsVal.lookupField (JsVal.setField m k v) k2 =
      if k = k2 then v else JsVal.lookupField m k2 := by
  by_cases h : k = k2
  · subst h
    rw [if_pos rfl]
    exact Buzzoola.lookupField_setField_same m k v
  · rw [if_neg h]
    exact Buzzoola.lookupField_setField_ne m k k2 v h

theorem isDefined_false (v : JsVal) : isDefined v = false ↔ v = .undefined := by
  cases v <;> simp [isDefined]

theorem isDefined_true (v : JsVal) : isDefined v = true ↔ v ≠ .undefined := by
  cases v <;> simp [isDefined]

theorem lookup_blank (m : List (String × JsVal)) (k k2 : String) :
    JsVal.lookupField (blankIfDefined m k) k2 =
      if k = k2 then (if isDefined (JsVal.lookupField m k) then .str "" else .undefined)
      else JsVal.lookupField m k2 := by
  unfold blankIfDefined
  cases hd : isDefined (JsVal.lookupField m k)
  · by_cases h : k = k2
    · subst h
      simpa using (isDefined_false _).1 hd
    · simp [h]
  · simp [lookup_set]

theorem lookupField_filter (l : List (String × JsVal)) (key key2 : String) :
    JsVal.lookupField (l.filter (fun p => p.1 != key)) key2 =
      if key = key2 then .undefined else JsVal.lookupField l key2 := by
  induction l with
  | nil =>
    simp [JsVal.lookupField]
  | cons p rest ih =>
    obtain ⟨k, v⟩ := p
    by_cases hk : k = key
    · subst hk
      rw [List.filter_cons_of_neg (by simp), ih]
      by_cases h : k = key2 <;> simp [JsVal.lookupField, h]
    · rw [List.filter_cons_of_pos (by simpa using hk)]
      simp only [JsVal.lookupField]
      by_cases hk2 : k = key2
      · subst hk2
        have hne : ¬ key = k := fun h => hk h.symm
        simp [hne]
      · simp [hk2, ih]

theorem lookup_delete (m : List (String × JsVal)) (k k2 : String) :
    JsVal.lookupField (deleteIfDefined m k) k2 =
      if k = k2 then .undefined else JsVal.lookupField m k2 := by
  unfold deleteIfDefined
  cases hd : isDefined (JsVal.lookupField m k)
  · by_cases h : k = k2
    · subst h
      simpa using (isDefined_false _).1 hd
    · simp [h]
  · simp [lookupField_filter]

theorem lookup_deleteInternals (m : List (String × JsVal)) (key : String) :
    JsVal.lookupField (deleteInternals m) key =
      if key ∈ ["adUnitCodes", "adUnits", "bidderRequests", "bidsReceived", "config", "noBids",
        "winningBids"] then .undefined else JsVal.lookupField m key := by
  simp only [deleteInternals, lookup_delete, List.mem_cons, List.mem_singleton,
    List.not_mem_nil, or_false]
  by_cases h1 : "adUnitCodes" = key
  · simp [← h1]
  by_cases h2 : "adUnits" = key
  · simp [← h2]
  by_cases h3 : "bidderRequests" = key
  · simp [← h3]
  by_cases h4 : "bidsReceived" = key
  · simp [← h4]
  by_cases h5 : "config" = key
  · simp [← h5]
  by_cases h6 : "noBids" = key
  · simp [← h6]
  by_cases h7 : "winningBids" = key
  · simp [← h7]
  simp [h1, h2, h3, h4, h5, h6, h7, Ne.symm h1, Ne.symm h2, Ne.symm h3, Ne.symm h4, Ne.symm h5,
    Ne.symm h6, Ne.symm h7, eq_comm]

theorem lookupField_ownProperties (data : JsVal) (key : String) :
    JsVal.lookupField (ownProperties data) key = data.get key := by
  cases data <;> rfl

theorem filterBidResponse_spec (data : JsVal) :
    SpecBidResponseCopy data (filterBidResponse data) := by
  have hget : ∀ key, (filterBidResponse data).get key =
      JsVal.lookupField (JsVal.setField
        (if (isDefined (data.get "statusMessage") &&
            Buzzoola.strictEqStr (data.get "statusMessage")
              "Bid returned empty or error response") = true then
          JsVal.setField (blankIfDefined (blankIfDefined (blankIfDefined (blankIfDefined
            (ownProperties data) "ad") "adUrl") "adserverTargeting") "ts")
            "statusMessage" (.str "eoe")
        else blankIfDefined (blankIfDefined (blankIfDefined (blankIfDefined
            (ownProperties data) "ad") "adUrl") "adserverTargeting") "ts")
        "auctionEnded" (.bool false)) key := by
    intro key
    simp [filterBidResponse, JsVal.get, lookup_blank, lookupField_ownProperties]
  refine ⟨?_, ?_, ?_, ?_, ?_⟩
  · intro key hk
    simp only [List.mem_cons, List.mem_singleton, List.not_mem_nil, or_false, not_or] at hk
    obtain ⟨h1, h2, h3, h4, h5, h6⟩ := hk
    rw [hget, lookup_set, if_neg (Ne.symm h6)]
    split
    · rw [lookup_set, if_neg (Ne.symm h5)]
      simp [lookup_blank, lookupField_ownProperties, Ne.symm h1, Ne.symm h2, Ne.symm h3,
        Ne.symm h4]
    · simp [lookup_blank, lookupField_ownProperties, Ne.symm h1, Ne.symm h2, Ne.symm h3,
        Ne.symm h4]
  · intro key hk
    simp only [List.mem_cons, List.mem_singleton, List.not_mem_nil, or_false] at hk
    rw [hget]
    rcases hk with rfl | rfl | rfl | rfl <;>
      (refine ⟨fun hu => ?_, fun hd => ?_⟩
       · split <;>
           simp [lookup_set, lookup_blank, lookupField_ownProperties, hu, isDefined]
       · have hd2 := (isDefined_true _).2 hd
         split <;>
           simp [lookup_set, lookup_blank, lookupField_ownProperties, hd2])
  · intro hs
    rw [hget, hs]
    simp [lookup_set, isDefined, Buzzoola.strictEqStr]
  · intro hs
    have hf : Buzzoola.strictEqStr (data.get "statusMessage")
        "Bid returned empty or error response" = false := by
      cases h : Buzzoola.strictEqStr (data.get "statusMessage")
        "Bid returned empty or error response"
      · rfl
      · exact absurd ((strictEqStr_iff _ _).1 h) hs
    rw [hget, hf]
    simp [lookup_set, lookup_blank, lookupField_ownProperties]
  · rw [hget, lookup_set, if_pos rfl]

theorem initCopy_spec (data : JsVal) (copy : List (String × JsVal))
    (h : ∀ key, key ≠ "refererInfo" → JsVal.lookupField copy key = data.get key) :
    (∀ key, key ∉ ["refererInfo", "adUnitCodes", "adUnits", "bidderRequests", "bidsReceived",
        "config", "noBids", "winningBids"] →
      (JsVal.obj (deleteInternals copy)).get key = data.get key) ∧
    (∀ key ∈ ["adUnitCodes", "adUnits", "bidderRequests", "bidsReceived", "config", "noBids",
        "winningBids"], (JsVal.obj (deleteInternals copy)).get key = .undefined) ∧
    (JsVal.obj (deleteInternals copy)).get "refererInfo" =
      JsVal.lookupField copy "refererInfo" := by
  refine ⟨?_, ?_, ?_⟩
  · intro key hk
    have hk1 : key ≠ "refererInfo" := fun he => hk (by rw [he]; simp)
    have hk2 : key ∉ ["adUnitCodes", "adUnits", "bidderRequests", "bidsReceived", "config",
        "noBids", "winningBids"] := fun hm => hk (List.mem_cons_of_mem _ hm)
    show JsVal.lookupField (deleteInternals copy) key = _
    rw [lookup_deleteInternals, if_neg hk2, h key hk1]
  · intro key hk
    show JsVal.lookupField (deleteInternals copy) key = _
    rw [lookup_deleteInternals, if_pos hk]
  · show JsVal.lookupField (deleteInternals copy) "refererInfo" = _
    rw [lookup_deleteInternals, if_neg (by decide)]

theorem filterAuctionInit_spec (data : JsVal) (h : InitData data) :
    ∃ args, filterAuctionInit data = .ok args ∧ SpecAuctionInitCopy data args := by
  have hbr : JsVal.lookupField (JsVal.setField (ownProperties data) "refererInfo" (.obj []))
      "bidderRequests" = data.get "bidderRequests" := by
    rw [lookup_set, if_neg (by decide), lookupField_ownProperties]
  have hcopy : ∀ ref key, key ≠ "refererInfo" →
      JsVal.lookupField (JsVal.setField (ownProperties data) "refererInfo" ref) key =
        data.get key := by
    intro ref key hk
    rw [lookup_set, if_neg (Ne.symm hk), lookupField_ownProperties]
  have hcopy2 : ∀ ref key, key ≠ "refererInfo" →
      JsVal.lookupField (JsVal.setField (JsVal.setField (ownProperties data) "refererInfo"
        (.obj [])) "refererInfo" ref) key = data.get key := by
    intro ref key hk
    rw [lookup_set, if_neg (Ne.symm hk), hcopy _ key hk]
  rcases h with h | ⟨items, h, hr⟩
  · have heq : filterAuctionInit data = .ok (.obj (deleteInternals
        (JsVal.setField (ownProperties data) "refererInfo" (.obj [])))) := by
      unfold filterAuctionInit
      simp only [hbr, h]
      simp [isDefined]
    obtain ⟨c1, c2, c3⟩ := initCopy_spec data _ (hcopy (.obj []))
    rw [lookup_set, if_pos rfl] at c3
    refine ⟨_, heq, c1, c2, fun _ => c3, fun items hi => ?_⟩
    rw [h] at hi
    cases hi
  · cases items with
    | nil =>
      have heq : filterAuctionInit data = .ok (.obj (deleteInternals
          (JsVal.setField (ownProperties data) "refererInfo" (.obj [])))) := by
        unfold filterAuctionInit
        simp only [hbr, h]
        simp [isDefined, first]
      obtain ⟨c1, c2, c3⟩ := initCopy_spec data _ (hcopy (.obj []))
      rw [lookup_set, if_pos rfl] at c3
      refine ⟨_, heq, c1, c2, fun _ => c3, fun items hi => ?_⟩
      rw [h] at hi
      cases hi
      exact ⟨fun _ => c3, fun fields hf => (by cases hf)⟩
    | cons r rest =>
      obtain ⟨fields, rfl, hinfo⟩ := hr r rfl
      rcases hinfo with hinfo | ⟨info, hinfo⟩
      · have heq : filterAuctionInit data = .ok (.obj (deleteInternals
            (JsVal.setField (ownProperties data) "refererInfo" (.obj [])))) := by
          unfold filterAuctionInit
          simp only [hbr, h]
          simp [isDefined, first, getOrThrow, JsVal.isNullish, JsVal.get, hinfo]
        obtain ⟨c1, c2, c3⟩ := initCopy_spec data _ (hcopy (.obj []))
        rw [lookup_set, if_pos rfl] at c3
        refine ⟨_, heq, c1, c2, fun _ => c3, fun items hi => ?_⟩
        rw [h] at hi
        cases hi
        refine ⟨fun hn => (by cases hn), fun fields2 hf => ?_⟩
        cases hf
        refine ⟨fun _ => c3, fun info hi2 => ?_⟩
        rw [hinfo] at hi2
        cases hi2
      · have heq : filterAuctionInit data = .ok (.obj (deleteInternals
            (JsVal.setField (JsVal.setField (ownProperties data) "refererInfo" (.obj []))
              "refererInfo" (JsVal.lookupField info "legacy")))) := by
          unfold filterAuctionInit
          simp only [hbr, h]
          simp [isDefined, first, getOrThrow, JsVal.isNullish, JsVal.get, hinfo]
        obtain ⟨c1, c2, c3⟩ := initCopy_spec data _ (hcopy2 (JsVal.lookupField info "legacy"))
        rw [lookup_set, if_pos rfl] at c3
        refine ⟨_, heq, c1, c2, fun hu => ?_, fun items hi => ?_⟩
        · rw [h] at hu
          cases hu
        · rw [h] at hi
          cases hi
          refine ⟨fun hn => (by cases hn), fun fields2 hf => ?_⟩
          cases hf
          refine ⟨fun hu => ?_, fun info2 hi2 => ?_⟩
          · rw [hinfo] at hu
            cases hu
          · rw [hinfo] at hi2
            cases hi2
            exact c3

theorem filterData_spec (EVENTS : Events) (eventType data : JsVal)
    (h : eventType = .str EVENTS.AUCTION_INIT → InitData data) :
    ∃ args, filterData EVENTS eventType data = .ok args ∧
      (eventType = .str EVENTS.AUCTION_INIT → SpecAuctionInitCopy data args) ∧
      (eventType ≠ .str EVENTS.AUCTION_INIT → eventType = .str EVENTS.BID_RESPONSE →
        SpecBidResponseCopy data args) ∧
      (eventType ≠ .str EVENTS.AUCTION_INIT → eventType ≠ .str EVENTS.BID_RESPONSE →
        args = data) := by
  unfold filterData
  by_cases hi : eventType = .str EVENTS.AUCTION_INIT
  · obtain ⟨args, ha, hs⟩ := filterAuctionInit_spec data (h hi)
    rw [if_pos ((strictEqStr_iff _ _).2 hi)]
    exact ⟨args, ha, fun _ => hs, fun hn => absurd hi hn, fun hn => absurd hi hn⟩
  · rw [if_neg (fun hc => hi ((strictEqStr_iff _ _).1 hc))]
    by_cases hb : eventType = .str EVENTS.BID_RESPONSE
    · rw [if_pos ((strictEqStr_iff _ _).2 hb)]
      exact ⟨_, rfl, fun hc => absurd hc hi, fun _ _ => filterBidResponse_spec data,
        fun _ hn => absurd hb hn⟩
    · rw [if_neg (fun hc => hb ((strictEqStr_iff _ _).1 hc))]
      exact ⟨_, rfl, fun hc => absurd hc hi, fun _ hc => absurd hc hb, fun _ _ => rfl⟩

/-- C25: `handleEvent` returns, for an event whose data is well formed, and
leaves the state `flushEvents queued` when the type is `AUCTION_END` or
`BID_WON` and `queued` otherwise, where `queued` has sent nothing and has the
object `{eventType, args}` appended to the pending queue exactly when the type
is one of the seven ingested types.  `args` is the event's data, except for an
`AUCTION_INIT` and a `BID_RESPONSE` event, where it is the filtered copy of the
data.  `flushEvents` empties the queue; it sends one request
`{metaData, eventList}` holding all queued events in arrival order when the
queue is not empty, and nothing when it is empty.  Along every run of tracked
events and interval flushes the events sent so far followed by the pending
queue are the earlier ones followed by one entry `{eventType, args}` per
ingested event, in arrival order: no event is sent twice. -/
theorem handleEvent_queues_and_flushes (EVENTS : Events) (recorded eventType data : JsVal)
    (st : State) (ops : List Op)
    (hdata : eventType = .str EVENTS.AUCTION_INIT → InitData data)
    (hops : ∀ op ∈ ops, WellFormed EVENTS op) :
    (∃ (args : JsVal) (queued : State),
      (handleEvent EVENTS recorded eventType data st).2 = .ok () ∧
      queued.sent = st.sent ∧
      (specIngested EVENTS eventType →
        queued.pwEvents =
          st.pwEvents ++ [.obj [("eventType", eventType), ("args", args)]] ∧
        queued.metaData = recorded) ∧
      (¬ specIngested EVENTS eventType →
        queued.pwEvents = st.pwEvents ∧ queued.metaData = st.metaData) ∧
      (specFlushes EVENTS eventType →
        (handleEvent EVENTS recorded eventType data st).1 = flushEvents queued) ∧
      (¬ specFlushes EVENTS eventType →
        (handleEvent EVENTS recorded eventType data st).1 = queued) ∧
      filterData EVENTS eventType data = .ok args ∧
      (eventType = .str EVENTS.AUCTION_INIT → SpecAuctionInitCopy data args) ∧
      (eventType ≠ .str EVENTS.AUCTION_INIT → eventType = .str EVENTS.BID_RESPONSE →
        SpecBidResponseCopy data args) ∧
      (eventType ≠ .str EVENTS.AUCTION_INIT → eventType ≠ .str EVENTS.BID_RESPONSE →
        args = data)) ∧
    (∀ s : State,
      (flushEvents s).pwEvents = [] ∧
      (flushEvents s).metaData = s.metaData ∧
      (s.pwEvents ≠ [] → (flushEvents s).sent =
        s.sent ++ [.obj [("metaData", s.metaData), ("eventList", .arr s.pwEvents)]]) ∧
      (s.pwEvents = [] → (flushEvents s).sent = s.sent)) ∧
    (∃ entries, List.Forall₂ (EntryOf EVENTS) (ingestedOps EVENTS ops) entries ∧
      sentEvents (run EVENTS ops st).sent ++ (run EVENTS ops st).pwEvents =
        sentEvents st.sent ++ st.pwEvents ++ entries) ∧
    (isIngestedEvent EVENTS eventType = true ↔ specIngested EVENTS eventType) := by
  obtain ⟨args, hargs, ha, hb, hc⟩ := filterData_spec EVENTS eventType data hdata
  refine ⟨⟨args, if isIngestedEvent EVENTS eventType then
      { st with metaData := recorded
                pwEvents := st.pwEvents ++ [eventEntry eventType args] } else st,
    ?_, ?_, ?_, ?_, ?_, ?_, hargs, ha, hb, hc⟩, fun s => flushEvents_effect s,
    run_keeps EVENTS ops st hops, isIngestedEvent_iff EVENTS eventType⟩
  · rw [handleEvent_eq EVENTS recorded eventType data args st hargs]
  · split <;> rfl
  · intro hi
    rw [if_pos ((isIngestedEvent_iff _ _).2 hi)]
    exact ⟨rfl, rfl⟩
  · intro hi
    rw [if_neg (fun h => hi ((isIngestedEvent_iff _ _).1 h))]
    exact ⟨rfl, rfl⟩
  · intro hf
    rw [handleEvent_eq EVENTS recorded eventType data args st hargs,
      if_pos ((flushDue_iff _ _).2 hf)]
  · intro hf
    rw [handleEvent_eq EVENTS recorded eventType data args st hargs,
      if_neg (fun h => hf ((flushDue_iff _ _).1 h))]

/-- C25, witness: a won bid is tracked on the initial state, and a run tracks
an auction start with one bidder request and then lets the interval fire. -/
theorem handleEvent_queues_and_flushes_witness :
    (handleEvent prebidEvents (.obj []) (.str "bidWon") (.obj [("bidder", .str "a")])
      State.initial).2 = .ok () ∧
    ∃ entries,
      List.Forall₂ (EntryOf prebidEvents) (ingestedOps prebidEvents
        [.track (.obj []) (.str "auctionInit") (.obj [("bidderRequests",
          .arr [.obj [("refererInfo", .obj [("legacy", .obj [])])]])]), .interval]) entries ∧
      sentEvents (run prebidEvents
        [.track (.obj []) (.str "auctionInit") (.obj [("bidderRequests",
          .arr [.obj [("refererInfo", .obj [("legacy", .obj [])])]])]), .interval]
        State.initial).sent ++
      (run prebidEvents
        [.track (.obj []) (.str "auctionInit") (.obj [("bidderRequests",
          .arr [.obj [("refererInfo", .obj [("legacy", .obj [])])]])]), .interval]
        State.initial).pwEvents = entries := by
  obtain ⟨⟨_, _, h2, _⟩, _, ⟨entries, hr, hk⟩, _⟩ := handleEvent_queues_and_flushes
    prebidEvents (.obj []) (.str "bidWon") (.obj [("bidder", .str "a")]) State.initial
    [.track (.obj []) (.str "auctionInit") (.obj [("bidderRequests",
      .arr [.obj [("refererInfo", .obj [("legacy", .obj [])])]])]), .interval]
    (fun h => absurd (JsVal.str.inj h) (by decide))
    (by
      intro op hop
      simp only [List.mem_cons, List.mem_singleton, List.not_mem_nil, or_false] at hop
      rcases hop with rfl | rfl
      · intro _
        refine Or.inr ⟨_, rfl, fun r hr => ?_⟩
        cases hr
        exact ⟨_, rfl, Or.inr ⟨_, rfl⟩⟩
      · trivial)
  exact ⟨h2, entries, hr, hk⟩

end Pubwise
